import Mathlib

/-!
# slinky / perpx: the two-source market-map aggregator and the research-JSON translator

A shallow embedding of

* `providers/apis/perpx/multi_market_map_fetcher.go` (`MultiMarketMapRestAPIFetcher.Fetch`),
* `providers/apis/perpx/research_api_handler.go` (`ResearchAPIHandler` and its constructor),
* `x/marketmap/types/tickermetadata/perpx.go` (the JSON encoding of `Perpx`, with the parts of
  `encoding/json`, `strconv` and `unicode/utf8` that it runs),

followed by theorems about them.

Conventions of the embedding

* A Go `map[K]V` is an association list with unique keys (`AList`); the order of its entries is
  the order in which a `range` loop visits them.  A map that the code writes to (`Markets`) is an
  `Option`: `none` is the nil map, on which reads, `range` and `delete` work and a store panics.
* A Go pointer is an `Option`: `none` is the nil pointer, and a field access through it panics.
* A run-time panic is the `Except.error` result; a normal return is `Except.ok`.
* `time.Time` is a natural number, an `error` is its message (its kind for `encoding/json`).
* The two goroutines of `Fetch` only compute the two constituent responses, which are joined
  before anything else happens; the embedding calls the two constituents one after the other.
-/

namespace slinky

/-- A Go map with keys `K` and values `V`, non-nil. -/
abbrev GoMap (K : Type) (V : Type) : Type := AList (fun _ : K => V)

/-- The run-time panics the embedded code can raise. -/
inductive Panic where
  -- invalid memory address or nil pointer dereference
  | nilPointerDereference
  -- assignment to entry in nil map
  | assignmentToEntryInNilMap
  -- index out of range
  | indexOutOfRange
  deriving DecidableEq, Repr

/-- Index expression `m[k]` with the comma-ok result, on a map that may be nil. -/
def mapIndex {K V : Type} [DecidableEq K] (m : Option (GoMap K V)) (k : K) : Option V :=
  match m with
  | none => none
  | some es => es.lookup k

/-- Assignment `m[k] = v` on a map that may be nil: a store into the nil map panics. -/
def mapAssign {K V : Type} [DecidableEq K] (m : Option (GoMap K V)) (k : K) (v : V) :
    Except Panic (Option (GoMap K V)) :=
  match m with
  | none => .error .assignmentToEntryInNilMap
  | some es => .ok (some (es.insert k v))

/-- Builtin `delete(m, k)` on a map that may be nil: a no-op on the nil map. -/
def mapDelete {K V : Type} [DecidableEq K] (m : Option (GoMap K V)) (k : K) :
    Option (GoMap K V) :=
  match m with
  | none => none
  | some es => some (es.erase k)

/-- The entries a `range` loop over the map visits, in the order it visits them. -/
def mapRange {K V : Type} (m : Option (GoMap K V)) : List (Sigma fun _ : K => V) :=
  match m with
  | none => []
  | some es => es.entries

/-! ## providers/types -/

namespace providertypes

/-- Modelled from the spec: the declaration of `providertypes.ErrorCode` is not under src/.
The constructors are the codes the sources name: `ErrorUnknown` (spec: Unknown),
`ErrorInvalidAPIChains` (spec: InvalidScope / InvalidAPIChains), `ErrorAPIGeneral`
(spec: UpstreamGeneral) and `ErrorFailedToDecode` (spec: DecodeFailure). -/
inductive ErrorCode where
  | ErrorUnknown
  | ErrorInvalidAPIChains
  | ErrorAPIGeneral
  | ErrorFailedToDecode
  deriving DecidableEq, Repr

/-- Modelled from the spec: the error kinds enumerated in section 7 of the specification. -/
inductive ErrorKind where
  | DecodeFailure
  | InvalidScope
  | UpstreamGeneral
  | ValidationFailure
  | Unknown
  deriving DecidableEq, Repr

/-- Modelled from the spec: the kind of section 7 that each error code of the sources stands for. -/
def ErrorCode.kind : ErrorCode → ErrorKind
  | .ErrorUnknown => .Unknown
  | .ErrorInvalidAPIChains => .InvalidScope
  | .ErrorAPIGeneral => .UpstreamGeneral
  | .ErrorFailedToDecode => .DecodeFailure

/-- Modelled from the spec: `providertypes.ErrorWithCodeImpl` is not under src/; a classified
error, i.e. an error (its message) with its code. -/
structure ErrorWithCodeImpl where
  error : String
  ec : ErrorCode
  deriving DecidableEq, Repr

/-- Modelled from the spec: the interface `providertypes.ErrorWithCode` is not under src/; an
interface value is either nil (`none`) or holds a classified error. -/
abbrev ErrorWithCode : Type := Option ErrorWithCodeImpl

/-- Modelled from the spec: `providertypes.NewErrorWithCode` is not under src/; it pairs the
error with the code. -/
def NewErrorWithCode (err : String) (ec : ErrorCode) : ErrorWithCode :=
  some { error := err, ec := ec }

/-- Modelled from the spec: `providertypes.UnresolvedResult` is not under src/; the Unresolved
outcome, a classified error. -/
structure UnresolvedResult where
  ErrorWithCode : ErrorWithCode
  deriving DecidableEq, Repr

/-- Modelled from the spec: `providertypes.ResolvedResult` is not under src/; the Resolved
outcome, a value payload plus an observation timestamp. -/
structure ResolvedResult (V : Type) where
  Value : V
  Timestamp : Nat
  deriving DecidableEq, Repr

end providertypes

/-! ## x/marketmap/types -/

namespace mmtypes

/-- Modelled from the spec: `slinkytypes.CurrencyPair` is not under src/; base and quote asset. -/
structure CurrencyPair where
  Base : String
  Quote : String
  deriving DecidableEq, Repr

/-- Modelled from the spec: `mmtypes.Ticker` is not under src/; its fields are those the spec
lists for the ticker metadata and the tests set. -/
structure Ticker where
  CurrencyPair : CurrencyPair
  Decimals : Nat
  MinProviderCount : Nat
  Enabled : Bool
  deriving DecidableEq, Repr

/-- Modelled from the spec: `mmtypes.ProviderConfig` is not under src/; canonical provider name
and venue-specific off-chain ticker. -/
structure ProviderConfig where
  Name : String
  OffChainTicker : String
  deriving DecidableEq, Repr

/-- Modelled from the spec: `mmtypes.Market` is not under src/; ticker metadata and the ordered
list of provider configs. -/
structure Market where
  Ticker : Ticker
  ProviderConfigs : List ProviderConfig
  deriving DecidableEq, Repr

/-- Modelled from the spec: `mmtypes.MarketMap` is not under src/; the map from ticker string
to market.  `Markets = none` is the nil map. -/
structure MarketMap where
  Markets : Option (GoMap String Market)
  deriving DecidableEq

/-- Modelled from the spec: `mmtypes.MarketMapResponse` is not under src/; the payload of a
Resolved outcome, holding the market map. -/
structure MarketMapResponse where
  MarketMap : MarketMap
  LastUpdated : Nat
  ChainId : String
  deriving DecidableEq

end mmtypes

/-! ## service/clients/marketmap/types -/

namespace mmclient

/-- Modelled from the spec: `mmclient.Chain` is not under src/; the scope key, a chain id. -/
structure Chain where
  ChainID : String
  deriving DecidableEq, Repr

/-- The Resolved outcome of a market-map fetch: the value is a pointer to the payload. -/
abbrev MarketMapResult : Type := providertypes.ResolvedResult (Option mmtypes.MarketMapResponse)

/-- Modelled from the spec: `mmclient.MarketMapResponse` (`providertypes.GetResponse`) is not
under src/; the partial result set, a map of Resolved and a map of Unresolved outcomes.  The
code under src/ never stores into these two maps, so the nil map is the empty map here. -/
structure MarketMapResponse where
  Resolved : GoMap Chain MarketMapResult
  UnResolved : GoMap Chain providertypes.UnresolvedResult
  deriving DecidableEq

/-- Modelled from the spec: `mmclient.NewMarketMapResponse` is not under src/; it builds the
response from the two maps. -/
def NewMarketMapResponse (resolved : GoMap Chain MarketMapResult)
    (unresolved : GoMap Chain providertypes.UnresolvedResult) : MarketMapResponse :=
  { Resolved := resolved, UnResolved := unresolved }

/-- Modelled from the spec: `mmclient.NewMarketMapResponseWithErr` is not under src/; it
constructs the fully-unresolved result, the same error applied to every requested key, with an
empty Resolved set. -/
def NewMarketMapResponseWithErr (chains : List Chain) (err : providertypes.ErrorWithCode) :
    MarketMapResponse :=
  NewMarketMapResponse ∅
    (chains.foldl (fun unresolved id => unresolved.insert id { ErrorWithCode := err }) ∅)

/-- Modelled from the spec: `mmclient.NewMarketMapResult` is not under src/; a Resolved outcome
from a payload and its observation time. -/
def NewMarketMapResult (value : Option mmtypes.MarketMapResponse) (t : Nat) : MarketMapResult :=
  { Value := value, Timestamp := t }

end mmclient

/-! ## oracle/config, net/http -/

namespace config

/-- Modelled from the spec: `config.Endpoint` is not under src/; an endpoint URL. -/
structure Endpoint where
  URL : String
  deriving DecidableEq, Repr

/-- Modelled from the spec: `config.APIConfig` is not under src/; the fields the sources read. -/
structure APIConfig where
  Enabled : Bool
  Name : String
  Endpoints : List Endpoint
  deriving DecidableEq, Repr

end config

namespace http

/-- The part of `http.Response` the sources read: the status code and the body, which is a
reader that may be nil (`none`) and otherwise yields the given text. -/
structure Response where
  StatusCode : Nat
  Body : Option String
  deriving DecidableEq, Repr

end http

/-! ## providers/apis/perpx/types -/

namespace perpxtypes

/-- Modelled from the spec: `perpxtypes.ExchangeMarketConfigJson` is not under src/; one
{vendor exchange name, vendor ticker} entry. -/
structure ExchangeMarketConfigJson where
  ExchangeName : String
  Ticker : String
  deriving DecidableEq, Repr

/-- Modelled from the spec: `perpxtypes.ExchangeConfigJson` is not under src/; the exchange
configuration document that is serialized into a market param. -/
structure ExchangeConfigJson where
  Exchanges : List ExchangeMarketConfigJson
  deriving DecidableEq, Repr

/-- Modelled from the spec: `perpxtypes.Params` is not under src/; the vendor research record
(the embedded `ResearchJSONMarketParam` and `MetaData` with their fields promoted).  The
fractional exponent of the wire format is a rational number. -/
structure Params where
  ID : Nat
  Pair : String
  Exponent : Rat
  MinPriceChangePpm : Nat
  MinExchanges : Nat
  ExchangeConfigJSON : List ExchangeMarketConfigJson
  CMCID : Int
  deriving DecidableEq

/-- Modelled from the spec: `perpxtypes.ResearchJSON` is not under src/; the vendor document,
a map from asset symbol to research record.  It is only ranged over. -/
abbrev ResearchJSON : Type := GoMap String Params

/-- Modelled from the spec: `perpxtypes.MarketParam` is not under src/; the canonical market
param with the embedded, serialized exchange configuration. -/
structure MarketParam where
  Id : Nat
  Pair : String
  Exponent : Int
  MinExchanges : Nat
  MinPriceChangePpm : Nat
  ExchangeConfigJson : String
  deriving DecidableEq, Repr

/-- Modelled from the spec: `perpxtypes.QueryAllMarketParamsResponse` is not under src/; the
list of market params. -/
structure QueryAllMarketParamsResponse where
  MarketParams : List MarketParam
  deriving DecidableEq, Repr

end perpxtypes

/-! ## pkg/arrays -/

namespace arrays

/-- Modelled from the spec: `arrays.CheckEntryInArray` is not under src/; it reports whether
the requested keys include the entry, and returns the matching element. -/
def CheckEntryInArray {T : Type} [DecidableEq T] (entry : T) (array : List T) : Option T :=
  array.find? (fun e => decide (e = entry))

end arrays

/-! ## providers/apis/perpx -/

namespace perpx

open providertypes mmtypes mmclient

/-- Declarations that `multi_market_map_fetcher.go` uses and that are not under src/, taken as
parameters: the constant `perpx.ChainID`, the constant `coinmarketcap.Name`, the reference
catalog `marketmaps.CoinMarketCapMarketMap` and the canonical validator
`MarketMap.ValidateBasic`, which returns nil (`none`) or an error. -/
structure Deps where
  ChainID : String
  coinmarketcapName : String
  CoinMarketCapMarketMap : MarketMap
  ValidateBasic : MarketMap → Option String

/-- The package variable `PERPXChain`. -/
def PERPXChain (d : Deps) : Chain :=
  { ChainID := d.ChainID }

/-- The struct `MultiMarketMapRestAPIFetcher`: the two constituent fetchers, each given by the
response its `Fetch` returns for the requested chains, and the flag `isCMCOnly`. -/
structure MultiMarketMapRestAPIFetcher where
  perpxMainnetFetcher : List Chain → mmclient.MarketMapResponse
  perpxResearchFetcher : List Chain → mmclient.MarketMapResponse
  isCMCOnly : Bool

/-- The constructor `NewPERPXResearchMarketMapFetcher`. -/
def NewPERPXResearchMarketMapFetcher
    (mainnetFetcher researchFetcher : List Chain → mmclient.MarketMapResponse)
    (isCMCOnly : Bool) : MultiMarketMapRestAPIFetcher :=
  { perpxMainnetFetcher := mainnetFetcher
    perpxResearchFetcher := researchFetcher
    isCMCOnly := isCMCOnly }

/-- Lines 180-186 of `Fetch`: the loop over the research markets still to visit, which adds to
the mainnet market map every market whose ticker is not already in it. -/
def addResearchMarkets :
    MarketMap → List (Sigma fun _ : String => Market) → Except Panic MarketMap
  | perpxMainnetMarketMap, [] => .ok perpxMainnetMarketMap
  | perpxMainnetMarketMap, ⟨ticker, market⟩ :: rest =>
    match mapIndex perpxMainnetMarketMap.Markets ticker with
    | some _ => addResearchMarkets perpxMainnetMarketMap rest
    | none =>
      match mapAssign perpxMainnetMarketMap.Markets ticker market with
      | .error p => .error p
      | .ok markets => addResearchMarkets { Markets := markets } rest

/-- Lines 195-205 of `Fetch`: the scan of the provider configs for one named `coinmarketcap.Name`;
`seen` is the pair (`seenCMC`, `cmcProvider`) so far, and every match overwrites it. -/
def scanCMC (name : String) : List ProviderConfig → Option ProviderConfig → Option ProviderConfig
  | [], seen => seen
  | provider :: rest, seen =>
    if provider.Name = name then scanCMC name rest (some provider) else scanCMC name rest seen

/-- Lines 192-224 of `Fetch`: the body of the filter loop for one visited entry. -/
def filterMarket (d : Deps) (perpxMainnetMarketMap : MarketMap) (ticker : String)
    (market : Market) : Except Panic MarketMap :=
  let market : Market := { market with Ticker := { market.Ticker with MinProviderCount := 1 } }
  match mapAssign perpxMainnetMarketMap.Markets ticker market with
  | .error p => .error p
  | .ok markets =>
    match scanCMC d.coinmarketcapName market.ProviderConfigs none with
    | some cmcProvider =>
      match mapAssign markets ticker { market with ProviderConfigs := [cmcProvider] } with
      | .error p => .error p
      | .ok markets => .ok { Markets := markets }
    | none =>
      match mapIndex d.CoinMarketCapMarketMap.Markets ticker with
      | none => .ok { Markets := mapDelete markets ticker }
      | some cmcMarket =>
        match mapAssign markets ticker
            { market with ProviderConfigs := cmcMarket.ProviderConfigs } with
        | .error p => .error p
        | .ok markets => .ok { Markets := markets }

/-- Lines 191-225 of `Fetch`: the filter loop over the entries still to visit.  The loop only
stores to and deletes the key it is visiting, so every entry is visited with the value it had
when the loop started. -/
def filterCMCMarkets (d : Deps) :
    MarketMap → List (Sigma fun _ : String => Market) → Except Panic MarketMap
  | perpxMainnetMarketMap, [] => .ok perpxMainnetMarketMap
  | perpxMainnetMarketMap, ⟨ticker, market⟩ :: rest =>
    match filterMarket d perpxMainnetMarketMap ticker market with
    | .error p => .error p
    | .ok mm => filterCMCMarkets d mm rest

/-- Lines 175-226 of `Fetch`: the mainnet market map after the research markets were added
and, when `isCMCOnly` is set, the non-CMC markets were filtered out.  `research` is the result
of `perpxResearchMarketMapResponse.Resolved[PERPXChain]`. -/
def combinedMarketMap (d : Deps) (isCMCOnly : Bool) (perpxMainnetMarketMap : MarketMap)
    (research : Option MarketMapResult) : Except Panic MarketMap :=
  let merged : Except Panic MarketMap :=
    match research with
    | none => .ok perpxMainnetMarketMap
    | some resolved =>
      match resolved.Value with
      | none => .error .nilPointerDereference
      | some value => addResearchMarkets perpxMainnetMarketMap (mapRange value.MarketMap.Markets)
  match merged with
  | .error p => .error p
  | .ok mm => if isCMCOnly then filterCMCMarkets d mm (mapRange mm.Markets) else .ok mm

/-- The method `MultiMarketMapRestAPIFetcher.Fetch`. -/
def MultiMarketMapRestAPIFetcher.Fetch (d : Deps) (f : MultiMarketMapRestAPIFetcher)
    (chains : List Chain) : Except Panic mmclient.MarketMapResponse :=
  let perpxMainnetMarketMapResponse := f.perpxMainnetFetcher chains
  let perpxResearchMarketMapResponse := f.perpxResearchFetcher chains
  -- if the perpx mainnet market-map response failed, return the perpx mainnet failed response
  if (perpxMainnetMarketMapResponse.UnResolved.lookup (PERPXChain d)).isSome then
    .ok perpxMainnetMarketMapResponse
  -- if the perpx research market-map response failed, return the perpx research failed response
  else if (perpxResearchMarketMapResponse.UnResolved.lookup (PERPXChain d)).isSome then
    .ok perpxResearchMarketMapResponse
  else
    -- a missing entry reads as the zero ResolvedResult, whose Value is the nil pointer
    match perpxMainnetMarketMapResponse.Resolved.lookup (PERPXChain d) with
    | none => .error .nilPointerDereference
    | some resolved =>
      match resolved.Value with
      | none => .error .nilPointerDereference
      | some value =>
        match combinedMarketMap d f.isCMCOnly value.MarketMap
            (perpxResearchMarketMapResponse.Resolved.lookup (PERPXChain d)) with
        | .error p => .error p
        | .ok perpxMainnetMarketMap =>
          -- validate the combined market-map
          match d.ValidateBasic perpxMainnetMarketMap with
          | some err =>
            .ok (NewMarketMapResponseWithErr chains
              (NewErrorWithCode ("combined market-map failed validation: " ++ err)
                ErrorCode.ErrorUnknown))
          | none =>
            -- the store goes through the pointer held by the entry of the perpx chain
            .ok { perpxMainnetMarketMapResponse with
                  Resolved := perpxMainnetMarketMapResponse.Resolved.replace (PERPXChain d)
                    { resolved with
                      Value := some { value with MarketMap := perpxMainnetMarketMap } } }

/-- Declarations that `research_api_handler.go` uses and that are not under src/, taken as
parameters: the decoding of a response body into the research JSON and the encoding of an
exchange configuration (`encoding/json`), the conversion `ConvertMarketParamsToMarketMap`
of the package, and the reading of the clock `time.Now()`. -/
structure Externals where
  decodeResearchJSON : String → Except String perpxtypes.ResearchJSON
  marshalExchangeConfigJson : perpxtypes.ExchangeConfigJson → Except String String
  ConvertMarketParamsToMarketMap :
    perpxtypes.QueryAllMarketParamsResponse → Except String mmtypes.MarketMapResponse
  now : Nat

/-- The struct `APIHandler`, with the field the sources set. -/
structure APIHandler where
  api : config.APIConfig

/-- The struct `ResearchAPIHandler`. -/
structure ResearchAPIHandler where
  APIHandler : APIHandler
  url : String
  onlyCMC : Bool

/-- The conversion `int32(x)` of a fractional number: truncation toward zero when the truncated
value is an int32.  For any other value the Go specification leaves the result to the
implementation; the value here is the one of amd64, `-2147483648` (so for `3000000000.0`). -/
def int32OfFloat64 (x : Rat) : Int :=
  let truncated : Int := Int.tdiv x.num x.den
  if -2147483648 ≤ truncated ∧ truncated ≤ 2147483647 then truncated else -2147483648

/-- The method `marketParamFromResearchJSONMarketParam`. -/
def ResearchAPIHandler.marketParamFromResearchJSONMarketParam (d : Deps) (x : Externals)
    (h : ResearchAPIHandler) (marketParam : perpxtypes.Params) :
    Except String perpxtypes.MarketParam :=
  let exchangeConfigJSON : perpxtypes.ExchangeConfigJson :=
    if !h.onlyCMC then
      { Exchanges := marketParam.ExchangeConfigJSON }
    else
      { Exchanges :=
          [{ ExchangeName := d.coinmarketcapName, Ticker := toString marketParam.CMCID }] }
  -- marshal to a json string
  match x.marshalExchangeConfigJson exchangeConfigJSON with
  | .error err => .error err
  | .ok exchangeConfigJSONBz =>
    let minExchanges : Nat := if h.onlyCMC then 1 else marketParam.MinExchanges
    .ok { Id := marketParam.ID
          Pair := marketParam.Pair
          Exponent := int32OfFloat64 marketParam.Exponent
          MinExchanges := minExchanges
          MinPriceChangePpm := marketParam.MinPriceChangePpm
          ExchangeConfigJson := exchangeConfigJSONBz }

/-- The loop of `researchJSONToQueryAllMarketsParamsResponse` over the records still to visit;
`resp` holds the market params appended so far. -/
def ResearchAPIHandler.researchJSONLoop (d : Deps) (x : Externals) (h : ResearchAPIHandler) :
    List (Sigma fun _ : String => perpxtypes.Params) → perpxtypes.QueryAllMarketParamsResponse →
      Except String perpxtypes.QueryAllMarketParamsResponse
  | [], resp => .ok resp
  | ⟨_, market⟩ :: rest, resp =>
    if h.onlyCMC && decide (market.CMCID < 0) then
      researchJSONLoop d x h rest resp
    else
      match h.marketParamFromResearchJSONMarketParam d x market with
      | .error err => .error err
      | .ok marketParam =>
        researchJSONLoop d x h rest { MarketParams := resp.MarketParams ++ [marketParam] }

/-- The method `researchJSONToQueryAllMarketsParamsResponse`. -/
def ResearchAPIHandler.researchJSONToQueryAllMarketsParamsResponse (d : Deps) (x : Externals)
    (h : ResearchAPIHandler) (research : perpxtypes.ResearchJSON) :
    Except String perpxtypes.QueryAllMarketParamsResponse :=
  h.researchJSONLoop d x research.entries { MarketParams := [] }

/-- The method `ResearchAPIHandler.CreateURL`: the url, or an error. -/
def ResearchAPIHandler.CreateURL (d : Deps) (h : ResearchAPIHandler) (chains : List Chain) :
    String × Option String :=
  -- expect at least one chain to be a perpx chain
  match arrays.CheckEntryInArray ({ ChainID := d.ChainID } : Chain) chains with
  | none => ("", some "perpx chain is not configured in request for the perpx research json")
  | some _ => (h.url, none)

/-- The method `ResearchAPIHandler.ParseResponse`. -/
def ResearchAPIHandler.ParseResponse (d : Deps) (x : Externals) (h : ResearchAPIHandler)
    (chains : List Chain) (resp : http.Response) : Except Panic mmclient.MarketMapResponse :=
  -- expect at least one chain to be a perpx chain
  match arrays.CheckEntryInArray ({ ChainID := d.ChainID } : Chain) chains with
  | none =>
    .ok (NewMarketMapResponseWithErr chains
      (NewErrorWithCode ("expected one chain, got " ++ toString chains.length)
        ErrorCode.ErrorInvalidAPIChains))
  | some chain =>
    -- the decoder reads the body, and reading the nil body panics
    match resp.Body with
    | none => .error .nilPointerDereference
    | some body =>
      match x.decodeResearchJSON body with
      | .error err =>
        .ok (NewMarketMapResponseWithErr chains
          (NewErrorWithCode ("failed to parse perpx research json response: " ++ err)
            ErrorCode.ErrorFailedToDecode))
      | .ok research =>
        -- convert the perpx research json into a QueryAllMarketsParamsResponse
        match h.researchJSONToQueryAllMarketsParamsResponse d x research with
        | .error err =>
          .ok (NewMarketMapResponseWithErr chains
            (NewErrorWithCode
              ("failed to convert perpx research json into QueryAllMarketsParamsResponse: "
                ++ err)
              ErrorCode.ErrorFailedToDecode))
        | .ok respMarketParams =>
          -- convert the response to a market-map
          match x.ConvertMarketParamsToMarketMap respMarketParams with
          | .error err =>
            .ok (NewMarketMapResponseWithErr chains
              (NewErrorWithCode
                ("failed to convert QueryAllMarketsParamsResponse into MarketMap: " ++ err)
                ErrorCode.ErrorFailedToDecode))
          | .ok marketMap =>
            -- resolve the response under the perpx chain
            .ok (NewMarketMapResponse
              ((∅ : GoMap Chain MarketMapResult).insert chain
                (NewMarketMapResult (some marketMap) x.now))
              ∅)

/-- Lines 93-128 of `ParseResponse`, the three steps that parse a body into a market map: the
body decodes into a research JSON, that converts into market params, and those convert into
the market map. -/
def ResearchAPIHandler.Parses (d : Deps) (x : Externals) (h : ResearchAPIHandler)
    (body : String) (marketMap : mmtypes.MarketMapResponse) : Prop :=
  ∃ research respMarketParams,
    x.decodeResearchJSON body = .ok research ∧
    h.researchJSONToQueryAllMarketsParamsResponse d x research = .ok respMarketParams ∧
    x.ConvertMarketParamsToMarketMap respMarketParams = .ok marketMap

/-! ## Example inputs

The inputs of `TestPERPXMultiMarketMapFetcher` and `TestParseResponseResearchAPI`, and a few
more, on which the theorems below are evaluated.  The parameters are given sample values: the
chain id, the provider name, a one-entry catalog and a validator that rejects a market with
an empty currency pair, zero decimals, a zero quorum or fewer providers than its quorum. -/

namespace Examples

/-- A sample structural validator, for the example inputs. -/
def validateBasic (mm : MarketMap) : Option String :=
  if (mapRange mm.Markets).all (fun e =>
      decide (e.2.Ticker.CurrencyPair.Base ≠ "") && decide (e.2.Ticker.CurrencyPair.Quote ≠ "")
        && decide (0 < e.2.Ticker.Decimals) && decide (0 < e.2.Ticker.MinProviderCount)
        && decide (e.2.Ticker.MinProviderCount ≤ e.2.ProviderConfigs.length)) then
    none
  else
    some "invalid market"

/-- The market the tests use for the ticker BTC/USD. -/
def btcMarket : Market :=
  { Ticker := { CurrencyPair := { Base := "BTC", Quote := "USD" }, Decimals := 8,
                MinProviderCount := 1, Enabled := true }
    ProviderConfigs := [{ Name := "perpx", OffChainTicker := "BTC/USD" }] }

/-- The market the tests use for the ticker ETH/USD. -/
def ethMarket : Market :=
  { Ticker := { CurrencyPair := { Base := "ETH", Quote := "USD" }, Decimals := 8,
                MinProviderCount := 1, Enabled := false }
    ProviderConfigs := [{ Name := "perpx", OffChainTicker := "BTC/USD" }] }

/-- A second market for BTC/USD, with another provider list. -/
def btcResearchMarket : Market :=
  { Ticker := { CurrencyPair := { Base := "BTC", Quote := "USD" }, Decimals := 8,
                MinProviderCount := 1, Enabled := true }
    ProviderConfigs := [{ Name := "binance_ws", OffChainTicker := "BTCUSDT" }] }

/-- The zero market, as in the map literal with an empty struct of the tests. -/
def zeroMarket : Market :=
  { Ticker := { CurrencyPair := { Base := "", Quote := "" }, Decimals := 0,
                MinProviderCount := 0, Enabled := false }
    ProviderConfigs := [] }

/-- Sample values of the parameters. -/
def deps : Deps :=
  { ChainID := "perpx-node"
    coinmarketcapName := "coinmarketcap_api"
    CoinMarketCapMarketMap :=
      { Markets := some (AList.singleton "ETH/USD"
          { ethMarket with
            ProviderConfigs := [{ Name := "coinmarketcap_api", OffChainTicker := "1027" }] }) }
    ValidateBasic := validateBasic }

/-- Another chain than the perpx chain. -/
def osmosis : Chain :=
  { ChainID := "osmosis" }

/-- The payload of a Resolved outcome that holds the given markets. -/
def payload (markets : GoMap String Market) : mmtypes.MarketMapResponse :=
  { MarketMap := { Markets := some markets }, LastUpdated := 0, ChainId := "" }

/-- A Resolved response for the perpx chain holding the given markets, observed at time `t`. -/
def resolvedWith (markets : GoMap String Market) (t : Nat) : mmclient.MarketMapResponse :=
  { Resolved := AList.singleton (PERPXChain deps) (NewMarketMapResult (some (payload markets)) t)
    UnResolved := ∅ }

/-- The market map with only BTC/USD, the mainnet market map of the tests. -/
def btcOnly : GoMap String Market :=
  AList.singleton "BTC/USD" btcMarket

/-- The market map with only ETH/USD, the research market map of the tests. -/
def ethOnly : GoMap String Market :=
  AList.singleton "ETH/USD" ethMarket

/-- A research market map with ETH/USD and a BTC/USD that differs from the mainnet one. -/
def ethAndBtc : GoMap String Market :=
  (AList.singleton "ETH/USD" ethMarket).insert "BTC/USD" btcResearchMarket

/-- The two markets of the tests in one market map. -/
def btcAndEth : GoMap String Market :=
  (AList.singleton "BTC/USD" btcMarket).insert "ETH/USD" ethMarket

/-- The response with no entry at all. -/
def emptyResponse : mmclient.MarketMapResponse :=
  { Resolved := ∅, UnResolved := ∅ }

/-- An Unresolved response for the perpx chain with the code `ErrorAPIGeneral`. -/
def unresolvedAPIGeneral : mmclient.MarketMapResponse :=
  { Resolved := ∅
    UnResolved := AList.singleton (PERPXChain deps)
      { ErrorWithCode := NewErrorWithCode "error" ErrorCode.ErrorAPIGeneral } }

/-- An Unresolved response for the perpx chain with the zero unresolved result. -/
def unresolvedZero : mmclient.MarketMapResponse :=
  { Resolved := ∅
    UnResolved := AList.singleton (PERPXChain deps) { ErrorWithCode := none } }

/-- The mainnet market map of the third test case: BTC/USD with the zero market. -/
def zeroBtc : GoMap String Market :=
  AList.singleton "BTC/USD" zeroMarket

/-- The research market map of the third test case: ETH/USD with the zero market. -/
def zeroEth : GoMap String Market :=
  AList.singleton "ETH/USD" zeroMarket

/-- The two zero markets of the third test case in one market map. -/
def zeroBtcAndEth : GoMap String Market :=
  (AList.singleton "BTC/USD" zeroMarket).insert "ETH/USD" zeroMarket

/-- First test case: the mainnet response is unresolved, the research response is empty. -/
def fetcherMainnetFails : MultiMarketMapRestAPIFetcher :=
  NewPERPXResearchMarketMapFetcher (fun _ => unresolvedAPIGeneral) (fun _ => emptyResponse) false

/-- Second test case: the mainnet response is resolved, the research response is unresolved. -/
def fetcherResearchFails : MultiMarketMapRestAPIFetcher :=
  NewPERPXResearchMarketMapFetcher
    (fun _ => resolvedWith btcOnly 100)
    (fun _ => unresolvedZero) false

/-- Third test case: both are resolved and the combined market map fails validation. -/
def fetcherInvalid : MultiMarketMapRestAPIFetcher :=
  NewPERPXResearchMarketMapFetcher
    (fun _ => resolvedWith zeroBtc 100)
    (fun _ => resolvedWith zeroEth 200) false

/-- Fourth test case: both are resolved and the combined market map passes validation. -/
def fetcherValid : MultiMarketMapRestAPIFetcher :=
  NewPERPXResearchMarketMapFetcher
    (fun _ => resolvedWith btcOnly 100)
    (fun _ => resolvedWith ethOnly 200) false

/-- Both are resolved, and both list BTC/USD, with differing provider lists. -/
def fetcherOverlap : MultiMarketMapRestAPIFetcher :=
  NewPERPXResearchMarketMapFetcher
    (fun _ => resolvedWith btcOnly 100)
    (fun _ => resolvedWith ethAndBtc 200) false

/-- The fully-unresolved response a source fetcher gives for a request without the perpx chain. -/
def invalidChains (chains : List Chain) : mmclient.MarketMapResponse :=
  NewMarketMapResponseWithErr chains
    (NewErrorWithCode ("expected one chain, got " ++ toString chains.length)
      ErrorCode.ErrorInvalidAPIChains)

/-- Both constituents answer a request that does not name the perpx chain. -/
def fetcherOtherChain : MultiMarketMapRestAPIFetcher :=
  NewPERPXResearchMarketMapFetcher invalidChains invalidChains false

end Examples

/-! ## The coverage invariant of the partial result set -/

/-- The invariant of the partial result set (section 3 of the specification): every requested
chain is in exactly one of Resolved and UnResolved, and no other chain is in either. -/
def Partitions (chains : List Chain) (r : mmclient.MarketMapResponse) : Prop :=
  ∀ c : Chain, (c ∈ chains ↔ (c ∈ r.Resolved ∨ c ∈ r.UnResolved)) ∧
    ¬ (c ∈ r.Resolved ∧ c ∈ r.UnResolved)

namespace Examples

/-- Sample values of the parameters of the research handler: a decoder that accepts only the
empty document `\x7b\x7d`, an encoder that writes the exchange names and tickers one after the
other, a conversion that accepts only the empty list of market params, and the time 300. -/
def externals : Externals :=
  { decodeResearchJSON := fun body =>
      if body = "\x7b\x7d" then .ok ∅ else .error "unexpected end of JSON input"
    marshalExchangeConfigJson := fun cfg =>
      .ok (String.intercalate "," (cfg.Exchanges.map (fun e => e.ExchangeName ++ ":" ++ e.Ticker)))
    ConvertMarketParamsToMarketMap := fun params =>
      if params.MarketParams = [] then .ok (payload ∅) else .error "invalid market param"
    now := 300 }

/-- A research handler in normal mode. -/
def researchHandler : ResearchAPIHandler :=
  { APIHandler :=
      { api := { Enabled := true, Name := "perpx_research_api",
                 Endpoints := [{ URL := "mainnet" }, { URL := "research" }] } }
    url := "research"
    onlyCMC := false }

/-- The response of the first test case of `TestParseResponseResearchAPI`: no body. -/
def responseWithoutBody : http.Response :=
  { StatusCode := 0, Body := none }

/-- A response with status 200 whose body is the empty document. -/
def responseEmptyDocument : http.Response :=
  { StatusCode := 200, Body := some "\x7b\x7d" }

end Examples

end perpx

/-! ## The merge and the filter pass, entry by entry -/

namespace perpx

open providertypes mmtypes mmclient

/-- Lines 175-187 of `Fetch`: the mainnet market map after the research markets were added,
before the filter pass; the first stage of `combinedMarketMap`. -/
def mergedMarketMap (perpxMainnetMarketMap : MarketMap) (research : Option MarketMapResult) :
    Except Panic MarketMap :=
  match research with
  | none => .ok perpxMainnetMarketMap
  | some resolved =>
    match resolved.Value with
    | none => .error .nilPointerDereference
    | some value => addResearchMarkets perpxMainnetMarketMap (mapRange value.MarketMap.Markets)

/-- Lines 192-224 of `Fetch`: what one pass of the body of the filter loop leaves under the
ticker it visits with the given market: the market with quorum 1 and the provider list narrowed
to its own CMC entry, or replaced by the list of the catalog, or nothing when the ticker is
deleted. -/
def filteredMarket (d : Deps) (ticker : String) (market : Market) : Option Market :=
  let market : Market := { market with Ticker := { market.Ticker with MinProviderCount := 1 } }
  match scanCMC d.coinmarketcapName market.ProviderConfigs none with
  | some cmcProvider => some { market with ProviderConfigs := [cmcProvider] }
  | none =>
    match mapIndex d.CoinMarketCapMarketMap.Markets ticker with
    | none => none
    | some cmcMarket => some { market with ProviderConfigs := cmcMarket.ProviderConfigs }

namespace Examples

/-- A research market for ETH/USD that declares a quorum of 3 and has no CMC provider. -/
def ethQuorumMarket : Market :=
  { Ticker := { CurrencyPair := { Base := "ETH", Quote := "USD" }, Decimals := 18,
                MinProviderCount := 3, Enabled := true }
    ProviderConfigs := [{ Name := "binance_ws", OffChainTicker := "ETHUSDT" },
                        { Name := "okx_ws", OffChainTicker := "ETH-USDT" },
                        { Name := "kucoin_ws", OffChainTicker := "ETH-USDT" }] }

/-- A research market for SOL/USD, a ticker that is not in the sample catalog, that declares a
quorum of 2 and carries a CMC provider among its providers. -/
def solMarket : Market :=
  { Ticker := { CurrencyPair := { Base := "SOL", Quote := "USD" }, Decimals := 9,
                MinProviderCount := 2, Enabled := true }
    ProviderConfigs := [{ Name := "binance_ws", OffChainTicker := "SOLUSDT" },
                        { Name := "coinmarketcap_api", OffChainTicker := "5426" }] }

/-- The research market map of the filter examples: ETH/USD and SOL/USD. -/
def ethAndSol : GoMap String Market :=
  (AList.singleton "ETH/USD" ethQuorumMarket).insert "SOL/USD" solMarket

/-- The merged market map of the filter examples: BTC/USD of mainnet, then the two research
markets in the order the merge loop adds them. -/
def mergedBtcEthSol : GoMap String Market :=
  ((AList.singleton "BTC/USD" btcMarket).insert "SOL/USD" solMarket).insert "ETH/USD"
    ethQuorumMarket

/-- The market that the filter pass leaves under ETH/USD: quorum 1 and the catalog providers. -/
def ethFiltered : Market :=
  { Ticker := { CurrencyPair := { Base := "ETH", Quote := "USD" }, Decimals := 18,
                MinProviderCount := 1, Enabled := true }
    ProviderConfigs := [{ Name := "coinmarketcap_api", OffChainTicker := "1027" }] }

/-- The market that the filter pass leaves under SOL/USD: quorum 1 and its own CMC provider. -/
def solFiltered : Market :=
  { Ticker := { CurrencyPair := { Base := "SOL", Quote := "USD" }, Decimals := 9,
                MinProviderCount := 1, Enabled := true }
    ProviderConfigs := [{ Name := "coinmarketcap_api", OffChainTicker := "5426" }] }

/-- The market map that the filter pass leaves of the merged market map of the examples. -/
def solAndEthFiltered : GoMap String Market :=
  (AList.singleton "ETH/USD" ethFiltered).insert "SOL/USD" solFiltered

/-- In filter mode: mainnet resolves BTC/USD (no CMC provider, not in the catalog), research
resolves ETH/USD (in the catalog) and SOL/USD (with a CMC provider of its own). -/
def fetcherCMC : MultiMarketMapRestAPIFetcher :=
  NewPERPXResearchMarketMapFetcher
    (fun _ => resolvedWith btcOnly 100)
    (fun _ => resolvedWith ethAndSol 200) true

end Examples

end perpx

/-! ## The constructor of the research handler -/

namespace perpx

open providertypes mmtypes mmclient

/-- Declarations that `NewResearchAPIHandler` uses and that are not under src/, taken as
parameters: the constants `ResearchAPIHandlerName` and `ResearchCMCAPIHandlerName` of the
package and the validator `APIConfig.ValidateBasic`, which returns nil (`none`) or an error. -/
structure HandlerDeps where
  ResearchAPIHandlerName : String
  ResearchCMCAPIHandlerName : String
  APIConfigValidateBasic : config.APIConfig → Option String

/-- The function `NewResearchAPIHandler`: it panics, or returns the handler or an error.  The
index expression `api.Endpoints[1]` panics when the config has fewer than two endpoints. -/
def NewResearchAPIHandler (c : HandlerDeps) (api : config.APIConfig) :
    Except Panic (Except String ResearchAPIHandler) :=
  if api.Name ≠ c.ResearchAPIHandlerName ∧ api.Name ≠ c.ResearchCMCAPIHandlerName then
    .ok (.error ("expected api config name " ++ c.ResearchAPIHandlerName ++ " or "
      ++ c.ResearchCMCAPIHandlerName ++ ", got " ++ api.Name))
  else if !api.Enabled then
    .ok (.error ("api config for " ++ c.ResearchAPIHandlerName ++ " is not enabled"))
  else
    match c.APIConfigValidateBasic api with
    | some err =>
      .ok (.error ("invalid api config for " ++ c.ResearchAPIHandlerName ++ ": " ++ err))
    | none =>
      match api.Endpoints[1]? with
      | none => .error .indexOutOfRange
      | some endpoint =>
        .ok (.ok { APIHandler := { api := api }
                   url := endpoint.URL -- We assume the first URL is the endpoint of the perpx mainnet
                   onlyCMC := decide (api.Name = c.ResearchCMCAPIHandlerName) })

namespace Examples

/-- Sample values of the parameters of the constructor: the two handler names and a validator
that wants at least one endpoint and no endpoint with an empty URL. -/
def handlerDeps : HandlerDeps :=
  { ResearchAPIHandlerName := "perpx_research_api"
    ResearchCMCAPIHandlerName := "perpx_research_coinmarketcap_api"
    APIConfigValidateBasic := fun api =>
      if api.Endpoints.isEmpty then some "must specify at least one endpoint"
      else if api.Endpoints.any (fun e => decide (e.URL = "")) then some "endpoint url is empty"
      else none }

/-- An API config for the research handler with a mainnet and a research endpoint. -/
def researchAPIConfig : config.APIConfig :=
  { Enabled := true, Name := "perpx_research_api",
    Endpoints := [{ URL := "mainnet" }, { URL := "research" }] }

/-- A research handler in reference-only mode. -/
def researchCMCHandler : ResearchAPIHandler :=
  { APIHandler :=
      { api := { Enabled := true, Name := "perpx_research_coinmarketcap_api",
                 Endpoints := [{ URL := "mainnet" }, { URL := "research" }] } }
    url := "research"
    onlyCMC := true }

/-- The research record of the tests, for the asset 1INCH, with the CMC id 1. -/
def oneInchRecord : perpxtypes.Params :=
  { ID := 0
    Pair := "1INCH-USD"
    Exponent := -10
    MinPriceChangePpm := 4000
    MinExchanges := 3
    ExchangeConfigJSON :=
      [{ ExchangeName := "Binance", Ticker := "1INCHUSDT" },
       { ExchangeName := "CoinbasePro", Ticker := "1INCH-USD" },
       { ExchangeName := "Gate", Ticker := "1INCH_USDT" },
       { ExchangeName := "Kucoin", Ticker := "1INCH-USDT" },
       { ExchangeName := "Mexc", Ticker := "1INCH_USDT" },
       { ExchangeName := "Okx", Ticker := "1INCH-USDT" }]
    CMCID := 1 }

/-- A research record without a CMC id. -/
def noCMCRecord : perpxtypes.Params :=
  { ID := 1
    Pair := "AAVE-USD"
    Exponent := -8
    MinPriceChangePpm := 4000
    MinExchanges := 2
    ExchangeConfigJSON := [{ ExchangeName := "Binance", Ticker := "AAVEUSDT" }]
    CMCID := -1 }

/-- A vendor document with the two sample records. -/
def researchDocument : perpxtypes.ResearchJSON :=
  (AList.singleton "AAVE" noCMCRecord).insert "1INCH" oneInchRecord

/-- The reading of the text that the sample encoder writes, character by character: `name`
and `ticker` hold the characters of the entry read so far, in reverse. -/
def readExchanges : List Char → List Char → Option (List Char) →
    List perpxtypes.ExchangeMarketConfigJson → List perpxtypes.ExchangeMarketConfigJson
  | [], name, ticker, acc =>
    acc ++ [{ ExchangeName := String.mk name.reverse
              Ticker := String.mk (ticker.getD []).reverse }]
  | c :: rest, name, ticker, acc =>
    if c = ',' then
      readExchanges rest [] none
        (acc ++ [{ ExchangeName := String.mk name.reverse
                   Ticker := String.mk (ticker.getD []).reverse }])
    else if c = ':' then
      readExchanges rest name (some []) acc
    else
      match ticker with
      | none => readExchanges rest (c :: name) none acc
      | some cs => readExchanges rest name (some (c :: cs)) acc

/-- A sample decoder for the text that the sample encoder of `externals` writes. -/
def unmarshalExchangeConfigJson (s : String) : Option perpxtypes.ExchangeConfigJson :=
  if s = "" then some { Exchanges := [] }
  else some { Exchanges := readExchanges s.data [] none [] }

end Examples

end perpx

/-! ## unicode/utf8, strconv and encoding/json, as far as `tickermetadata` uses them

`MarshalPerpx` and `PerpxFromJSONBytes` are `json.Marshal` and `json.Unmarshal` on the struct
`Perpx`.  The three packages are the Go standard library and are not under src/; they are
embedded here after their documented behaviour, for the types of the fields of `Perpx`.

* A Go string and a byte slice are the list of their bytes: a string need not be valid UTF-8.
* A loop of the library that advances by the width of what it read (`i += size`) is a recursion
  on the list that continues with the tail after that many bytes.
* The decoder is the scanner of `encoding/json`, a machine that reads one byte at a time, with
  the values it has read so far kept on the parse state; `json.Unmarshal` first scans the whole
  text and then fills the struct, which here is the JSON value of the text and then the
  struct from that value.
* An error is its kind; the text of the message is left out, and so is the partly filled struct
  that `json.Unmarshal` leaves behind when it returns an error.
-/

/-- A Go string or byte slice: its bytes, natural numbers below 256. -/
abbrev Bytes : Type := List Nat

/-- The bytes of a text of ASCII characters. -/
def ascii (s : String) : Bytes :=
  s.toList.map Char.toNat

namespace utf8

/-- The constant `utf8.RuneError`, the rune U+FFFD. -/
def RuneError : Nat := 0xFFFD

/-- The function `utf8.DecodeRune`: the first rune of `p` and its width in bytes, `(RuneError, 1)`
when `p` does not begin with a well-formed encoding and `(RuneError, 0)` when `p` is empty.  The
bit operations of the library are written as arithmetic (`b & 0x3F` is `b % 64`, a shift by 6 is
a product with 64). -/
def DecodeRune : Bytes → Nat × Nat
  | [] => (RuneError, 0)
  | p0 :: rest =>
    if p0 < 0x80 then (p0, 1)
    else if p0 < 0xC2 ∨ 0xF4 < p0 then (RuneError, 1)
    else
      -- the range that the second byte has to be in
      let lo := if p0 = 0xE0 then 0xA0 else if p0 = 0xF0 then 0x90 else 0x80
      let hi := if p0 = 0xED then 0x9F else if p0 = 0xF4 then 0x8F else 0xBF
      match rest with
      | [] => (RuneError, 1)
      | b1 :: rest1 =>
        if b1 < lo ∨ hi < b1 then (RuneError, 1)
        else if p0 < 0xE0 then ((p0 % 32) * 64 + b1 % 64, 2)
        else
          match rest1 with
          | [] => (RuneError, 1)
          | b2 :: rest2 =>
            if b2 < 0x80 ∨ 0xBF < b2 then (RuneError, 1)
            else if p0 < 0xF0 then ((p0 % 16) * 4096 + (b1 % 64) * 64 + b2 % 64, 3)
            else
              match rest2 with
              | [] => (RuneError, 1)
              | b3 :: _ =>
                if b3 < 0x80 ∨ 0xBF < b3 then (RuneError, 1)
                else ((p0 % 8) * 262144 + (b1 % 64) * 4096 + (b2 % 64) * 64 + b3 % 64, 4)

/-- The function `utf8.EncodeRune` (`utf8.AppendRune`): the UTF-8 encoding of the rune, and that
of `RuneError` for a surrogate half or a rune above U+10FFFF. -/
def EncodeRune (r : Nat) : Bytes :=
  if r ≤ 0x7F then [r]
  else if r ≤ 0x7FF then [0xC0 + r / 64, 0x80 + r % 64]
  else if 0x10FFFF < r ∨ (0xD800 ≤ r ∧ r ≤ 0xDFFF) then [0xEF, 0xBF, 0xBD]
  else if r ≤ 0xFFFF then [0xE0 + r / 4096, 0x80 + r / 64 % 64, 0x80 + r % 64]
  else [0xF0 + r / 262144, 0x80 + r / 4096 % 64, 0x80 + r / 64 % 64, 0x80 + r % 64]

/-- The function `utf8.Valid`: whether the bytes are well-formed encodings of runes, one after
the other. -/
def Valid : Bytes → Bool
  | [] => true
  | p0 :: rest =>
    if (DecodeRune (p0 :: rest)).1 = RuneError ∧ (DecodeRune (p0 :: rest)).2 = 1 then false
    else
      match (DecodeRune (p0 :: rest)).2, rest with
      | 2, _ :: rest1 => Valid rest1
      | 3, _ :: _ :: rest2 => Valid rest2
      | 4, _ :: _ :: _ :: rest3 => Valid rest3
      | _, rest0 => Valid rest0

end utf8

namespace strconv

/-- The loop of `strconv.FormatUint` in base 10: the digits of `u` in front of `a`.  The first
argument bounds the number of digits. -/
def formatBits : Nat → Nat → Bytes → Bytes
  | 0, _, a => a
  | fuel + 1, u, a =>
    if u < 10 then (48 + u) :: a
    else formatBits fuel (u / 10) ((48 + u % 10) :: a)

/-- The function `strconv.FormatUint(u, 10)`, which `json.Marshal` writes for a `uint64`: the
decimal digits of `u`.  A number has no more digits than its value plus one. -/
def FormatUint (u : Nat) : Bytes :=
  formatBits (u + 1) u []

/-- The number that a text of decimal digits stands for. -/
def digitsValue (s : Bytes) : Nat :=
  s.foldl (fun n d => n * 10 + (d - 48)) 0

/-- The function `strconv.ParseUint(s, 10, 64)`: the number, or nothing when the text is empty,
has a byte that is not a decimal digit, or stands for a number that is no `uint64`. -/
def ParseUint (s : Bytes) : Option Nat :=
  if s = [] then none
  else if s.all (fun d => decide (48 ≤ d ∧ d ≤ 57)) then
    if digitsValue s < 2 ^ 64 then some (digitsValue s) else none
  else none

end strconv

namespace json

/-- The errors of `json.Unmarshal`, by kind: a `SyntaxError` or an `UnmarshalTypeError`. -/
inductive Error where
  | syntaxError
  | unmarshalTypeError
  deriving DecidableEq, Repr

/-! ### The encoder -/

/-- The table `hex` of the encoder, `"0123456789abcdef"`. -/
def hex (n : Nat) : Nat :=
  if n < 10 then 48 + n else 87 + n

/-- The table `htmlSafeSet` of the encoder: the ASCII bytes from the space on that are written
as they are, all but the quote, `&`, `<`, `>` and the backslash. -/
def htmlSafeSet (b : Nat) : Bool :=
  decide (0x20 ≤ b ∧ b < 0x80 ∧ b ≠ 0x22 ∧ b ≠ 0x26 ∧ b ≠ 0x3C ∧ b ≠ 0x3E ∧ b ≠ 0x5C)

/-- What `appendString` writes for a byte below `utf8.RuneSelf`, with `escapeHTML` set as
`json.Marshal` sets it: the byte, or its escape (a backslash and a letter since Go 1.22 for the
backspace and the form feed too, and six bytes for the other control bytes and for `&`, `<`,
`>`). -/
def appendByte (b : Nat) : Bytes :=
  if htmlSafeSet b then [b]
  else if b = 0x5C ∨ b = 0x22 then [0x5C, b]
  else if b = 0x08 then [0x5C, 0x62]
  else if b = 0x0C then [0x5C, 0x66]
  else if b = 0x0A then [0x5C, 0x6E]
  else if b = 0x0D then [0x5C, 0x72]
  else if b = 0x09 then [0x5C, 0x74]
  else [0x5C, 0x75, 0x30, 0x30, hex (b / 16), hex (b % 16)]

/-- The loop of `appendString` over the bytes of the string: an ASCII byte by `appendByte`; a
byte that begins no well-formed encoding as the six bytes of the escape of U+FFFD; the runes
U+2028 and U+2029 as their escapes; any other rune as its own bytes. -/
def appendStringBody : Bytes → Bytes
  | [] => []
  | b :: rest =>
    if b < 0x80 then appendByte b ++ appendStringBody rest
    else if (utf8.DecodeRune (b :: rest)).1 = utf8.RuneError ∧
        (utf8.DecodeRune (b :: rest)).2 = 1 then
      [0x5C, 0x75, 0x66, 0x66, 0x66, 0x64] ++ appendStringBody rest
    else
      match (utf8.DecodeRune (b :: rest)).2, rest with
      | 2, b1 :: rest1 => [b, b1] ++ appendStringBody rest1
      | 3, b1 :: b2 :: rest2 =>
        if (utf8.DecodeRune (b :: rest)).1 = 0x2028 ∨ (utf8.DecodeRune (b :: rest)).1 = 0x2029 then
          [0x5C, 0x75, 0x32, 0x30, 0x32, hex ((utf8.DecodeRune (b :: rest)).1 % 16)]
            ++ appendStringBody rest2
        else [b, b1, b2] ++ appendStringBody rest2
      | 4, b1 :: b2 :: b3 :: rest3 => [b, b1, b2, b3] ++ appendStringBody rest3
      | _, rest0 => [0x5C, 0x75, 0x66, 0x66, 0x66, 0x64] ++ appendStringBody rest0

/-- The function `appendString` of the encoder: the string between two quotes. -/
def appendString (src : Bytes) : Bytes :=
  0x22 :: (appendStringBody src ++ [0x22])

/-! ### The decoder: string literals -/

/-- The value of a hexadecimal digit, in either case. -/
def unhex (c : Nat) : Option Nat :=
  if 0x30 ≤ c ∧ c ≤ 0x39 then some (c - 0x30)
  else if 0x61 ≤ c ∧ c ≤ 0x66 then some (c - 0x61 + 10)
  else if 0x41 ≤ c ∧ c ≤ 0x46 then some (c - 0x41 + 10)
  else none

/-- The function `getu4`: the number of the escape of four hexadecimal digits that the bytes
begin with, or nothing (the library returns -1) when they begin with no such escape. -/
def getu4 : Bytes → Option Nat
  | 0x5C :: 0x75 :: h1 :: h2 :: h3 :: h4 :: _ =>
    match unhex h1, unhex h2, unhex h3, unhex h4 with
    | some a, some b, some c, some d => some (a * 4096 + b * 256 + c * 16 + d)
    | _, _, _, _ => none
  | _ => none

/-- The function `utf16.DecodeRune`: the rune of a surrogate pair, or U+FFFD when the two are
no pair. -/
def decodeSurrogates (r1 r2 : Nat) : Nat :=
  if 0xD800 ≤ r1 ∧ r1 < 0xDC00 ∧ 0xDC00 ≤ r2 ∧ r2 < 0xE000 then
    (r1 - 0xD800) * 1024 + (r2 - 0xDC00) + 0x10000
  else utf8.RuneError

/-- One pass of the loop of `unquoteBytes` over the inside of a string literal: the bytes it
writes and the number of bytes it read, or nothing when the literal is malformed.  An escape is
replaced by what it stands for, a surrogate pair by its rune, a surrogate half by U+FFFD; a
byte from `utf8.RuneSelf` on is decoded with `utf8.DecodeRune` and encoded again, which turns a
byte that begins no well-formed encoding into U+FFFD. -/
def unquoteStep : Bytes → Option (Bytes × Nat)
  | [] => none
  | c :: rest =>
    if c = 0x5C then
      match rest with
      | [] => none
      | e :: _ =>
        if e = 0x22 ∨ e = 0x5C ∨ e = 0x2F ∨ e = 0x27 then some ([e], 2)
        else if e = 0x62 then some ([0x08], 2)
        else if e = 0x66 then some ([0x0C], 2)
        else if e = 0x6E then some ([0x0A], 2)
        else if e = 0x72 then some ([0x0D], 2)
        else if e = 0x74 then some ([0x09], 2)
        else if e = 0x75 then
          match getu4 (c :: rest) with
          | none => none
          | some rr =>
            if 0xD800 ≤ rr ∧ rr < 0xE000 then
              let dec : Nat :=
                match getu4 ((c :: rest).drop 6) with
                | some rr1 => decodeSurrogates rr rr1
                | none => utf8.RuneError
              if dec ≠ utf8.RuneError then some (utf8.EncodeRune dec, 12)
              else some (utf8.EncodeRune utf8.RuneError, 6)
            else some (utf8.EncodeRune rr, 6)
        else none
    else if c = 0x22 ∨ c < 0x20 then none
    else if c < 0x80 then some ([c], 1)
    else some (utf8.EncodeRune (utf8.DecodeRune (c :: rest)).1, (utf8.DecodeRune (c :: rest)).2)

/-- The loop of `unquoteBytes`: the string that the inside of a string literal stands for. -/
def unquoteBody : Bytes → Option Bytes
  | [] => some []
  | c :: rest =>
    match unquoteStep (c :: rest) with
    | none => none
    | some (out, width) =>
      match width, rest with
      | 2, _ :: r => (unquoteBody r).map (out ++ ·)
      | 3, _ :: _ :: r => (unquoteBody r).map (out ++ ·)
      | 4, _ :: _ :: _ :: r => (unquoteBody r).map (out ++ ·)
      | 6, _ :: _ :: _ :: _ :: _ :: r => (unquoteBody r).map (out ++ ·)
      | 12, _ :: _ :: _ :: _ :: _ :: _ :: _ :: _ :: _ :: _ :: _ :: r =>
        (unquoteBody r).map (out ++ ·)
      | _, r => (unquoteBody r).map (out ++ ·)

/-! ### The decoder: the scanner -/

/-- A JSON value as the decoder reads it: a number is its literal, a string is unquoted, and an
object keeps its members in the order of the text, repeated keys included. -/
inductive Value where
  | null
  | bool (b : Bool)
  | number (literal : Bytes)
  | string (s : Bytes)
  | array (items : List Value)
  | object (members : List (Bytes × Value))

/-- An entry of the parse state of the scanner, for an array or an object that is open, with
what was read of it so far, the latest first; `key` is the key of an object that waits for its
value. -/
inductive Frame where
  | array (items : List Value)
  | object (members : List (Bytes × Value)) (key : Option Bytes)

/-- The step functions of the scanner (`stateBeginValue`, `stateInString`, `state1`, ...), with
the bytes of the literal read so far, the latest first.  The states inside `true`, `false` and
`null` are one state with the bytes that are still expected. -/
inductive Step where
  | beginValue
  | beginValueOrEmpty
  | beginStringOrEmpty
  | beginString
  | endValue
  | endTop
  | inString (raw : Bytes)
  | inStringEsc (raw : Bytes)
  | inStringEscU (raw : Bytes) (seen : Nat)
  | neg (literal : Bytes)
  | zero (literal : Bytes)
  | one (literal : Bytes)
  | dot (literal : Bytes)
  | dot0 (literal : Bytes)
  | e (literal : Bytes)
  | eSign (literal : Bytes)
  | e0 (literal : Bytes)
  | literal (expected : Bytes) (v : Value)
  | error

/-- The scanner: its step function, its parse state, and the value of the text once that is
complete. -/
structure Scanner where
  step : Step
  parseState : List Frame
  top : Option Value

/-- The function `isSpace`. -/
def isSpace (c : Nat) : Bool :=
  decide (c = 0x20 ∨ c = 0x09 ∨ c = 0x0D ∨ c = 0x0A)

/-- The constant `maxNestingDepth`. -/
def maxNestingDepth : Nat := 10000

/-- A value is complete: it is the value of the text, or the next item of the open array, or
the key or the value of the next member of the open object. -/
def Scanner.emit (parseState : List Frame) (top : Option Value) (v : Value) : Scanner :=
  match parseState with
  | [] => { step := .endTop, parseState := [], top := some v }
  | .array items :: outer =>
    { step := .endValue, parseState := .array (v :: items) :: outer, top := top }
  | .object members none :: outer =>
    match v with
    | .string key =>
      { step := .endValue, parseState := .object members (some key) :: outer, top := top }
    | _ => { step := .error, parseState := parseState, top := top }
  | .object members (some key) :: outer =>
    { step := .endValue, parseState := .object ((key, v) :: members) none :: outer, top := top }

/-- The function `stateEndValue`: after a value, a colon after a key, a comma, or the end of
the open array or object. -/
def Scanner.stateEndValue (s : Scanner) (c : Nat) : Scanner :=
  match s.parseState with
  | [] => if isSpace c then { s with step := .endTop } else { s with step := .error }
  | .object _ (some _) :: _ =>
    if isSpace c then { s with step := .endValue }
    else if c = 0x3A then { s with step := .beginValue }
    else { s with step := .error }
  | .object members none :: outer =>
    if isSpace c then { s with step := .endValue }
    else if c = 0x2C then { s with step := .beginString }
    else if c = 0x7D then Scanner.emit outer s.top (.object members.reverse)
    else { s with step := .error }
  | .array items :: outer =>
    if isSpace c then { s with step := .endValue }
    else if c = 0x2C then { s with step := .beginValue }
    else if c = 0x5D then Scanner.emit outer s.top (.array items.reverse)
    else { s with step := .error }

/-- The function `stateBeginString`: the quote of a key. -/
def Scanner.stateBeginString (s : Scanner) (c : Nat) : Scanner :=
  if isSpace c then s
  else if c = 0x22 then { s with step := .inString [] }
  else { s with step := .error }

/-- The function `stateBeginValue`: the first byte of a value.  An array or object that would
nest deeper than `maxNestingDepth` is an error. -/
def Scanner.stateBeginValue (s : Scanner) (c : Nat) : Scanner :=
  if isSpace c then s
  else if c = 0x7B then
    if s.parseState.length + 1 ≤ maxNestingDepth then
      { s with step := .beginStringOrEmpty, parseState := .object [] none :: s.parseState }
    else { s with step := .error }
  else if c = 0x5B then
    if s.parseState.length + 1 ≤ maxNestingDepth then
      { s with step := .beginValueOrEmpty, parseState := .array [] :: s.parseState }
    else { s with step := .error }
  else if c = 0x22 then { s with step := .inString [] }
  else if c = 0x2D then { s with step := .neg [c] }
  else if c = 0x30 then { s with step := .zero [c] }
  else if 0x31 ≤ c ∧ c ≤ 0x39 then { s with step := .one [c] }
  else if c = 0x74 then { s with step := .literal [0x72, 0x75, 0x65] (.bool true) }
  else if c = 0x66 then { s with step := .literal [0x61, 0x6C, 0x73, 0x65] (.bool false) }
  else if c = 0x6E then { s with step := .literal [0x75, 0x6C, 0x6C] .null }
  else { s with step := .error }

/-- A number literal ends at the byte `c`, which `stateEndValue` reads. -/
def Scanner.endNumber (s : Scanner) (literal : Bytes) (c : Nat) : Scanner :=
  (Scanner.emit s.parseState s.top (.number literal.reverse)).stateEndValue c

/-- One byte through the step function of the scanner. -/
def Scanner.next (s : Scanner) (c : Nat) : Scanner :=
  match s.step with
  | .beginValue => s.stateBeginValue c
  | .beginValueOrEmpty =>
    if isSpace c then s
    else if c = 0x5D then s.stateEndValue c
    else s.stateBeginValue c
  | .beginStringOrEmpty =>
    if isSpace c then s
    else if c = 0x7D then s.stateEndValue c
    else s.stateBeginString c
  | .beginString => s.stateBeginString c
  | .endValue => s.stateEndValue c
  | .endTop => if isSpace c then s else { s with step := .error }
  | .inString raw =>
    if c = 0x22 then
      match unquoteBody raw.reverse with
      | some str => Scanner.emit s.parseState s.top (.string str)
      | none => { s with step := .error }
    else if c = 0x5C then { s with step := .inStringEsc (c :: raw) }
    else if c < 0x20 then { s with step := .error }
    else { s with step := .inString (c :: raw) }
  | .inStringEsc raw =>
    if c = 0x62 ∨ c = 0x66 ∨ c = 0x6E ∨ c = 0x72 ∨ c = 0x74 ∨ c = 0x5C ∨ c = 0x2F ∨ c = 0x22 then
      { s with step := .inString (c :: raw) }
    else if c = 0x75 then { s with step := .inStringEscU (c :: raw) 0 }
    else { s with step := .error }
  | .inStringEscU raw seen =>
    if (unhex c).isSome then
      if seen = 3 then { s with step := .inString (c :: raw) }
      else { s with step := .inStringEscU (c :: raw) (seen + 1) }
    else { s with step := .error }
  | .neg literal =>
    if c = 0x30 then { s with step := .zero (c :: literal) }
    else if 0x31 ≤ c ∧ c ≤ 0x39 then { s with step := .one (c :: literal) }
    else { s with step := .error }
  | .one literal =>
    if 0x30 ≤ c ∧ c ≤ 0x39 then { s with step := .one (c :: literal) }
    else if c = 0x2E then { s with step := .dot (c :: literal) }
    else if c = 0x65 ∨ c = 0x45 then { s with step := .e (c :: literal) }
    else s.endNumber literal c
  | .zero literal =>
    if c = 0x2E then { s with step := .dot (c :: literal) }
    else if c = 0x65 ∨ c = 0x45 then { s with step := .e (c :: literal) }
    else s.endNumber literal c
  | .dot literal =>
    if 0x30 ≤ c ∧ c ≤ 0x39 then { s with step := .dot0 (c :: literal) }
    else { s with step := .error }
  | .dot0 literal =>
    if 0x30 ≤ c ∧ c ≤ 0x39 then { s with step := .dot0 (c :: literal) }
    else if c = 0x65 ∨ c = 0x45 then { s with step := .e (c :: literal) }
    else s.endNumber literal c
  | .e literal =>
    if c = 0x2B ∨ c = 0x2D then { s with step := .eSign (c :: literal) }
    else if 0x30 ≤ c ∧ c ≤ 0x39 then { s with step := .e0 (c :: literal) }
    else { s with step := .error }
  | .eSign literal =>
    if 0x30 ≤ c ∧ c ≤ 0x39 then { s with step := .e0 (c :: literal) }
    else { s with step := .error }
  | .e0 literal =>
    if 0x30 ≤ c ∧ c ≤ 0x39 then { s with step := .e0 (c :: literal) }
    else s.endNumber literal c
  | .literal expected v =>
    match expected with
    | [] => { s with step := .error }
    | x :: more =>
      if c = x then
        match more with
        | [] => Scanner.emit s.parseState s.top v
        | _ :: _ => { s with step := .literal more v }
      else { s with step := .error }
  | .error => s

/-- The loop of `checkValid`: the scanner over the bytes of a text, one after the other. -/
def Scanner.run (s : Scanner) (data : Bytes) : Scanner :=
  data.foldl Scanner.next s

/-- The method `eof` of the scanner: at the end of the text the value is complete, or becomes
complete with one more space (a number at the top), or the text is a syntax error. -/
def Scanner.eof (s : Scanner) : Except Error Value :=
  match s.step, s.top with
  | .endTop, some v => .ok v
  | .error, _ => .error .syntaxError
  | _, _ =>
    match (s.next 0x20).step, (s.next 0x20).top with
    | .endTop, some v => .ok v
    | _, _ => .error .syntaxError

/-- The JSON value of a text, or the syntax error that `checkValid` returns for it. -/
def read (data : Bytes) : Except Error Value :=
  (Scanner.run { step := .beginValue, parseState := [], top := none } data).eof

/-! ### The decoder: values into fields -/

/-- The function `foldName`, by which a key matches a field name that differs in letter case:
an ASCII letter becomes its capital, and so do the two runes outside ASCII that fold to an
ASCII letter, U+017F to `S` and U+212A to `K`.  Any other rune folds to a rune outside ASCII
and is left as it is here, which makes no difference for a comparison with an ASCII name. -/
def foldName : Bytes → Bytes
  | [] => []
  | 0xC5 :: 0xBF :: rest => 0x53 :: foldName rest
  | 0xE2 :: 0x84 :: 0xAA :: rest => 0x4B :: foldName rest
  | c :: rest => (if 0x61 ≤ c ∧ c ≤ 0x7A then c - 0x20 else c) :: foldName rest

/-- The field of a struct that a key of a JSON object names: the field whose name is the key,
and otherwise the first field whose name is the key up to letter case. -/
def fieldByName (tags : List Bytes) (key : Bytes) : Option Bytes :=
  match tags.find? (fun tag => decide (tag = key)) with
  | some tag => some tag
  | none => tags.find? (fun tag => decide (foldName tag = foldName key))

/-- Unmarshal of a JSON value into a `uint64` that holds `cur`: null leaves it, a number
literal that `strconv.ParseUint` accepts is stored, anything else is an error. -/
def decodeUint64 (cur : Nat) : Value → Except Error Nat
  | .null => .ok cur
  | .number literal =>
    match strconv.ParseUint literal with
    | some n => .ok n
    | none => .error .unmarshalTypeError
  | _ => .error .unmarshalTypeError

/-- Unmarshal of a JSON value into a `string` that holds `cur`. -/
def decodeString (cur : Bytes) : Value → Except Error Bytes
  | .null => .ok cur
  | .string s => .ok s
  | _ => .error .unmarshalTypeError

/-- Unmarshal of a JSON value into a `bool` that holds `cur`. -/
def decodeBool (cur : Bool) : Value → Except Error Bool
  | .null => .ok cur
  | .bool b => .ok b
  | _ => .error .unmarshalTypeError

end json

/-! ## x/marketmap/types/tickermetadata -/

namespace tickermetadata

/-- Modelled from the spec: `tickermetadata.AggregatorID` is not under src/; a venue and an id,
with the JSON keys `venue` and `ID` that the texts of the tests show. -/
structure AggregatorID where
  Venue : Bytes
  ID : Bytes
  deriving DecidableEq, Repr

/-- Modelled from the spec: `tickermetadata.NewAggregatorID` is not under src/. -/
def NewAggregatorID (venue : Bytes) (id : Bytes) : AggregatorID :=
  { Venue := venue, ID := id }

/-- The struct `Perpx`.  The two `uint64` fields are natural numbers, below `2 ^ 64` in every
Go value; the slice `AggregateIDs` is `none` when it is nil. -/
structure Perpx where
  ReferencePrice : Nat
  Liquidity : Nat
  AggregateIDs : Option (List AggregatorID)
  CrossLaunch : Bool
  deriving DecidableEq, Repr

/-- The function `NewPerpx`. -/
def NewPerpx (referencePrice liquidity : Nat) (aggregateIDs : Option (List AggregatorID))
    (crossLaunch : Bool) : Perpx :=
  { ReferencePrice := referencePrice
    Liquidity := liquidity
    AggregateIDs := aggregateIDs
    CrossLaunch := crossLaunch }

/-- The text that `json.Marshal` writes for an `AggregatorID`: an object with the keys `venue`
and `ID`. -/
def AggregatorID.encode (a : AggregatorID) : Bytes :=
  0x7B :: (ascii "\x22venue\x22:" ++ (json.appendString a.Venue
    ++ (ascii ",\x22ID\x22:" ++ (json.appendString a.ID ++ [0x7D]))))

/-- The elements of a slice after the first, each after a comma. -/
def encodeMore : List AggregatorID → Bytes
  | [] => []
  | a :: rest => 0x2C :: (a.encode ++ encodeMore rest)

/-- The text that `json.Marshal` writes for the slice: `null` for the nil slice, and otherwise
the elements between brackets. -/
def encodeAggregateIDs : Option (List AggregatorID) → Bytes
  | none => ascii "null"
  | some [] => [0x5B, 0x5D]
  | some (a :: rest) => 0x5B :: (a.encode ++ (encodeMore rest ++ [0x5D]))

/-- The text that `json.Marshal` writes for a `Perpx`, by its struct tags: the keys
`reference_price`, `liquidity` and `aggregate_ids` in the order of the fields, and
`cross_launch`, which `omitempty` leaves out when the flag is false. -/
def Perpx.encode (m : Perpx) : Bytes :=
  0x7B :: (ascii "\x22reference_price\x22:" ++ (strconv.FormatUint m.ReferencePrice
    ++ (ascii ",\x22liquidity\x22:" ++ (strconv.FormatUint m.Liquidity
    ++ (ascii ",\x22aggregate_ids\x22:" ++ (encodeAggregateIDs m.AggregateIDs
    ++ ((if m.CrossLaunch then ascii ",\x22cross_launch\x22:true" else []) ++ [0x7D])))))))

/-- Unmarshal of one member of a JSON object into an `AggregatorID`: a key that names a field
sets it, any other key is skipped. -/
def AggregatorID.setField (a : AggregatorID) (key : Bytes) (v : json.Value) :
    Except json.Error AggregatorID :=
  match json.fieldByName [ascii "venue", ascii "ID"] key with
  | none => .ok a
  | some tag =>
    if tag = ascii "venue" then
      match json.decodeString a.Venue v with
      | .error e => .error e
      | .ok s => .ok { a with Venue := s }
    else
      match json.decodeString a.ID v with
      | .error e => .error e
      | .ok s => .ok { a with ID := s }

/-- Unmarshal of the members of a JSON object into an `AggregatorID`, one after the other. -/
def AggregatorID.setFields :
    List (Bytes × json.Value) → AggregatorID → Except json.Error AggregatorID
  | [], a => .ok a
  | (key, v) :: rest, a =>
    match a.setField key v with
    | .error e => .error e
    | .ok a2 => AggregatorID.setFields rest a2

/-- Unmarshal of a JSON value into an `AggregatorID` that holds `a`: null leaves it, an object
sets the fields that it names, anything else is an error. -/
def AggregatorID.unmarshal (a : AggregatorID) : json.Value → Except json.Error AggregatorID
  | .null => .ok a
  | .object members => AggregatorID.setFields members a
  | _ => .error .unmarshalTypeError

/-- Unmarshal of the items of a JSON array into the elements of the slice, which reuses the
backing array: the item at an index is read into the element that the backing array holds
there, and into the zero element beyond it.  The result is the elements read and what is left
of the backing array after them. -/
def decodeElements :
    List json.Value → List AggregatorID → Except json.Error (List AggregatorID × List AggregatorID)
  | [], backing => .ok ([], backing)
  | v :: rest, backing =>
    match (backing.head?.getD { Venue := [], ID := [] }).unmarshal v with
    | .error e => .error e
    | .ok a =>
      match decodeElements rest backing.tail with
      | .error e => .error e
      | .ok (elements, spare) => .ok (a :: elements, spare)

/-- The variable `elem` while `json.Unmarshal` fills it, with the elements of the backing array
of the slice beyond its length. -/
structure Target where
  elem : Perpx
  spare : List AggregatorID

/-- Unmarshal of one member of a JSON object into a `Perpx`.  For the slice, null gives the
nil slice, the empty array a new empty slice, and any other array the slice of its elements. -/
def Target.setField (t : Target) (key : Bytes) (v : json.Value) : Except json.Error Target :=
  match json.fieldByName
      [ascii "reference_price", ascii "liquidity", ascii "aggregate_ids", ascii "cross_launch"]
      key with
  | none => .ok t
  | some tag =>
    if tag = ascii "reference_price" then
      match json.decodeUint64 t.elem.ReferencePrice v with
      | .error e => .error e
      | .ok n => .ok { t with elem := { t.elem with ReferencePrice := n } }
    else if tag = ascii "liquidity" then
      match json.decodeUint64 t.elem.Liquidity v with
      | .error e => .error e
      | .ok n => .ok { t with elem := { t.elem with Liquidity := n } }
    else if tag = ascii "aggregate_ids" then
      match v with
      | .null => .ok { elem := { t.elem with AggregateIDs := none }, spare := [] }
      | .array [] => .ok { elem := { t.elem with AggregateIDs := some [] }, spare := [] }
      | .array items =>
        match decodeElements items ((t.elem.AggregateIDs.getD []) ++ t.spare) with
        | .error e => .error e
        | .ok (elements, spare) =>
          .ok { elem := { t.elem with AggregateIDs := some elements }, spare := spare }
      | _ => .error .unmarshalTypeError
    else
      match json.decodeBool t.elem.CrossLaunch v with
      | .error e => .error e
      | .ok b => .ok { t with elem := { t.elem with CrossLaunch := b } }

/-- Unmarshal of the members of a JSON object into a `Perpx`, one after the other. -/
def Target.setFields : List (Bytes × json.Value) → Target → Except json.Error Target
  | [], t => .ok t
  | (key, v) :: rest, t =>
    match t.setField key v with
    | .error e => .error e
    | .ok t2 => Target.setFields rest t2

/-- Unmarshal of a JSON value into the zero `Perpx` of `var elem Perpx`. -/
def Perpx.unmarshal (v : json.Value) : Except json.Error Perpx :=
  match v with
  | .null => .ok { ReferencePrice := 0, Liquidity := 0, AggregateIDs := none, CrossLaunch := false }
  | .object members =>
    match Target.setFields members
        { elem := { ReferencePrice := 0, Liquidity := 0, AggregateIDs := none,
                    CrossLaunch := false }
          spare := [] } with
    | .error e => .error e
    | .ok t => .ok t.elem
  | _ => .error .unmarshalTypeError

/-- The function `MarshalPerpx`: the JSON byte encoding of the Perpx.  `json.Marshal` returns
no error for this struct. -/
def MarshalPerpx (m : Perpx) : Except json.Error Bytes :=
  .ok m.encode

/-- The function `PerpxFromJSONBytes`. -/
def PerpxFromJSONBytes (jsonBytes : Bytes) : Except json.Error Perpx :=
  match json.read jsonBytes with
  | .error e => .error e
  | .ok v => Perpx.unmarshal v

/-- The function `PerpxFromJSONString`, which reads the bytes of the string. -/
def PerpxFromJSONString (jsonString : Bytes) : Except json.Error Perpx :=
  match json.read jsonString with
  | .error e => .error e
  | .ok v => Perpx.unmarshal v

/-- The JSON value of the text that `json.Marshal` writes for an `AggregatorID`. -/
def AggregatorID.toValue (a : AggregatorID) : json.Value :=
  .object [(ascii "venue", .string a.Venue), (ascii "ID", .string a.ID)]

/-- The JSON value of the text that `json.Marshal` writes for the slice. -/
def aggregateIDsValue : Option (List AggregatorID) → json.Value
  | none => .null
  | some ids => .array (ids.map AggregatorID.toValue)

/-- The JSON value of the text that `json.Marshal` writes for a `Perpx`. -/
def Perpx.toValue (m : Perpx) : json.Value :=
  .object ([(ascii "reference_price", .number (strconv.FormatUint m.ReferencePrice)),
      (ascii "liquidity", .number (strconv.FormatUint m.Liquidity)),
      (ascii "aggregate_ids", aggregateIDsValue m.AggregateIDs)]
    ++ (if m.CrossLaunch then [(ascii "cross_launch", .bool true)] else []))

/-- Every venue and every id of the elements is valid UTF-8. -/
def validIDs (ids : List AggregatorID) : Bool :=
  ids.all (fun a => utf8.Valid a.Venue && utf8.Valid a.ID)

namespace Examples

/-- The value of the first case of `Test_UnmarshalPerpx`. -/
def withTwoIDs : Perpx :=
  NewPerpx 100 1000
    (some [NewAggregatorID (ascii "coingecko") (ascii "id"),
      NewAggregatorID (ascii "cmc") (ascii "id")]) false

/-- The text of the third case of `Test_UnmarshalPerpx`. -/
def withTwoIDsJSON : Bytes :=
  ascii ("\x7b\x22reference_price\x22:100,\x22liquidity\x22:1000,\x22aggregate_ids\x22:["
    ++ "\x7b\x22venue\x22:\x22coingecko\x22,\x22ID\x22:\x22id\x22\x7d,"
    ++ "\x7b\x22venue\x22:\x22cmc\x22,\x22ID\x22:\x22id\x22\x7d]\x7d")

/-- The value of the second case of `Test_UnmarshalPerpx`: the nil slice. -/
def withNilIDs : Perpx :=
  NewPerpx 100 1000 none false

/-- A value with an empty slice that is not nil, and the flag set. -/
def withEmptyIDs : Perpx :=
  NewPerpx 100 1000 (some []) true

/-- A value whose venue is valid UTF-8 outside ASCII, the letter U+00E9 and the rune U+2028,
and whose id has a quote, a backslash and a line feed. -/
def withEscapes : Perpx :=
  NewPerpx 18446744073709551615 0
    (some [NewAggregatorID [0xC3, 0xA9, 0xE2, 0x80, 0xA8] [0x22, 0x5C, 0x0A]]) true

/-- A value whose venue is the single byte `0xFF`, a Go string that is no valid UTF-8. -/
def withInvalidVenue : Perpx :=
  NewPerpx 100 1000 (some [NewAggregatorID [0xFF] (ascii "id")]) false

/-- The text that `json.Marshal` writes for `withInvalidVenue`: the venue is the escape of
U+FFFD. -/
def withInvalidVenueJSON : Bytes :=
  ascii ("\x7b\x22reference_price\x22:100,\x22liquidity\x22:1000,\x22aggregate_ids\x22:["
    ++ "\x7b\x22venue\x22:\x22\\ufffd\x22,\x22ID\x22:\x22id\x22\x7d]\x7d")

/-- What `json.Unmarshal` reads from `withInvalidVenueJSON`: the venue is the three bytes of
U+FFFD. -/
def withReplacedVenue : Perpx :=
  NewPerpx 100 1000 (some [NewAggregatorID [0xEF, 0xBF, 0xBD] (ascii "id")]) false

end Examples

end tickermetadata

/-! ## Order of iteration -/

namespace perpx

open providertypes mmtypes mmclient

/-- Two market maps are one map iterated in two orders: both are nil, or both are non-nil and
have the same entries up to their order. -/
def SameUpToOrder (a b : MarketMap) : Prop :=
  match a.Markets, b.Markets with
  | none, none => True
  | some x, some y => x.entries.Perm y.entries
  | _, _ => False

/-- Two results of `perpxResearchMarketMapResponse.Resolved[PERPXChain]` differ at most in the
order of iteration of the market map: both are missing, or both hold the nil pointer, or both
hold a payload with the same market map up to order. -/
def SameResearchUpToOrder (a b : Option MarketMapResult) : Prop :=
  match a, b with
  | none, none => True
  | some x, some y =>
    match x.Value, y.Value with
    | none, none => True
    | some u, some v => SameUpToOrder u.MarketMap v.MarketMap
    | _, _ => False
  | _, _ => False

/-- Two runs of lines 175-226 end alike: with the same panic, or with the same market map up to
the order of its entries. -/
def SameOutcome (a b : Except Panic MarketMap) : Prop :=
  match a, b with
  | .ok x, .ok y => SameUpToOrder x y
  | .error p, .error q => p = q
  | _, _ => False

namespace Examples

/-- The research market map of the filter examples, iterated in the other order. -/
def solAndEth : GoMap String Market :=
  (AList.singleton "SOL/USD" solMarket).insert "ETH/USD" ethQuorumMarket

/-- The fetcher of the filter examples with the research market map iterated in the other
order. -/
def fetcherCMCReordered : MultiMarketMapRestAPIFetcher :=
  NewPERPXResearchMarketMapFetcher
    (fun _ => resolvedWith btcOnly 100)
    (fun _ => resolvedWith solAndEth 200) true

/-- The fetcher of the fourth test case, with the mainnet response observed at time `t`. -/
def fetcherValidAt (t : Nat) : MultiMarketMapRestAPIFetcher :=
  NewPERPXResearchMarketMapFetcher
    (fun _ => resolvedWith btcOnly t)
    (fun _ => resolvedWith ethOnly 200) false

end Examples

end perpx

/-! ## Inputs outside the guarded paths -/

namespace perpx

open providertypes mmtypes mmclient

namespace Examples

/-- An enabled API config for the research handler whose only endpoint is valid. -/
def oneEndpointAPIConfig : config.APIConfig :=
  { Enabled := true, Name := "perpx_research_api", Endpoints := [{ URL := "mainnet" }] }

/-- The mainnet response has no entry at all, as the empty response the first test case feeds
for the research fetcher; the research response is resolved. -/
def fetcherMainnetEmpty : MultiMarketMapRestAPIFetcher :=
  NewPERPXResearchMarketMapFetcher (fun _ => emptyResponse) (fun _ => resolvedWith ethOnly 200)
    false

end Examples

end perpx

/-! ## Lemmas on Go maps -/

theorem dlookup_kreplace_self {K V : Type} [DecidableEq K] (a : K) (b : V) :
    ∀ l : List (Sigma fun _ : K => V), a ∈ l.keys →
      List.dlookup a (List.kreplace a b l) = some b
  | [], h => by simp at h
  | ⟨k, v⟩ :: l, h => by
    by_cases hk : a = k
    · subst hk
      simp [List.kreplace, List.lookmap_cons_some, List.dlookup_cons_eq]
    · have hl : a ∈ l.keys := by
        simpa [List.keys_cons, hk] using h
      have ih := dlookup_kreplace_self a b l hl
      have hcons : List.kreplace a b (⟨k, v⟩ :: l) = ⟨k, v⟩ :: List.kreplace a b l := by
        simp [List.kreplace, List.lookmap_cons_none, hk]
      rw [hcons, List.dlookup_cons_ne _ _ hk]
      exact ih

theorem dlookup_kreplace_ne {K V : Type} [DecidableEq K] {a c : K} (b : V) (hne : c ≠ a) :
    ∀ l : List (Sigma fun _ : K => V),
      List.dlookup c (List.kreplace a b l) = List.dlookup c l
  | [] => by simp [List.kreplace]
  | ⟨k, v⟩ :: l => by
    by_cases hk : a = k
    · subst hk
      have hcons : List.kreplace a b (⟨a, v⟩ :: l) = ⟨a, b⟩ :: l := by
        simp [List.kreplace, List.lookmap_cons_some]
      rw [hcons, List.dlookup_cons_ne _ _ hne, List.dlookup_cons_ne _ _ hne]
    · have hcons : List.kreplace a b (⟨k, v⟩ :: l) = ⟨k, v⟩ :: List.kreplace a b l := by
        simp [List.kreplace, List.lookmap_cons_none, hk]
      rw [hcons]
      by_cases hc : c = k
      · subst hc
        simp [List.dlookup_cons_eq]
      · rw [List.dlookup_cons_ne _ _ hc, List.dlookup_cons_ne _ _ hc]
        exact dlookup_kreplace_ne b hne l

theorem lookup_replace_self {K V : Type} [DecidableEq K] (a : K) (b : V) (s : GoMap K V)
    (h : a ∈ s) : (s.replace a b).lookup a = some b :=
  dlookup_kreplace_self a b s.entries h

theorem lookup_replace_ne {K V : Type} [DecidableEq K] {a c : K} (b : V) (s : GoMap K V)
    (hne : c ≠ a) : (s.replace a b).lookup c = s.lookup c :=
  dlookup_kreplace_ne b hne s.entries

theorem mem_iff_lookup_isSome {K V : Type} [DecidableEq K] (a : K) (s : GoMap K V) :
    a ∈ s ↔ (s.lookup a).isSome = true :=
  AList.lookup_isSome.symm

/-- The unresolved map that `NewMarketMapResponseWithErr` builds has exactly the requested
chains as keys, every one with the given error. -/
theorem lookup_foldl_insert {K V : Type} [DecidableEq K] (v : V) (c : K) :
    ∀ (chains : List K) (acc : GoMap K V),
      (chains.foldl (fun unresolved id => unresolved.insert id v) acc).lookup c =
        if c ∈ chains then some v else acc.lookup c
  | [], acc => by simp
  | k :: rest, acc => by
    rw [List.foldl_cons, lookup_foldl_insert v c rest (acc.insert k v)]
    by_cases hr : c ∈ rest
    · simp [hr]
    · by_cases hk : c = k
      · subst hk
        simp [AList.lookup_insert]
      · simp [hr, hk, AList.lookup_insert_ne hk]

namespace mmclient

theorem NewMarketMapResponseWithErr_Resolved (chains : List Chain)
    (err : providertypes.ErrorWithCode) :
    (NewMarketMapResponseWithErr chains err).Resolved = ∅ := rfl

theorem NewMarketMapResponseWithErr_lookup (chains : List Chain)
    (err : providertypes.ErrorWithCode) (c : Chain) :
    (NewMarketMapResponseWithErr chains err).UnResolved.lookup c =
      if c ∈ chains then some { ErrorWithCode := err } else none := by
  unfold NewMarketMapResponseWithErr NewMarketMapResponse
  simp only [lookup_foldl_insert]
  simp [AList.lookup_empty]

theorem NewMarketMapResponseWithErr_mem (chains : List Chain)
    (err : providertypes.ErrorWithCode) (c : Chain) :
    c ∈ (NewMarketMapResponseWithErr chains err).UnResolved ↔ c ∈ chains := by
  rw [mem_iff_lookup_isSome, NewMarketMapResponseWithErr_lookup]
  by_cases h : c ∈ chains <;> simp [h]

end mmclient

theorem dlookup_mapRange {K V : Type} [DecidableEq K] (m : Option (GoMap K V)) (k : K) :
    List.dlookup k (mapRange m) = mapIndex m k := by
  cases m <;> rfl

namespace perpx

open providertypes mmtypes mmclient

/-! ## Lemmas on the merge loop -/

/-- On a non-nil mainnet map the merge loop never panics, and afterwards a ticker maps to the
mainnet market when the mainnet map had it and otherwise to the first research market visited
under that ticker. -/
theorem addResearchMarkets_some :
    ∀ (l : List (Sigma fun _ : String => Market)) (es : GoMap String Market),
      ∃ es2 : GoMap String Market,
        addResearchMarkets { Markets := some es } l = .ok { Markets := some es2 } ∧
        ∀ t, es2.lookup t = (es.lookup t).or (List.dlookup t l)
  | [], es => ⟨es, rfl, fun t => by simp⟩
  | ⟨k, v⟩ :: rest, es => by
    cases hk : es.lookup k with
    | some m =>
      obtain ⟨es2, hrun, hlook⟩ := addResearchMarkets_some rest es
      refine ⟨es2, ?_, ?_⟩
      · simp only [addResearchMarkets, mapIndex, hk]
        exact hrun
      · intro t
        rw [hlook t]
        by_cases ht : t = k
        · subst ht
          simp [hk]
        · rw [List.dlookup_cons_ne _ _ ht]
    | none =>
      obtain ⟨es2, hrun, hlook⟩ := addResearchMarkets_some rest (es.insert k v)
      refine ⟨es2, ?_, ?_⟩
      · simp only [addResearchMarkets, mapIndex, hk, mapAssign]
        exact hrun
      · intro t
        rw [hlook t]
        by_cases ht : t = k
        · subst ht
          simp [hk, AList.lookup_insert, List.dlookup_cons_eq]
        · rw [AList.lookup_insert_ne ht, List.dlookup_cons_ne _ _ ht]

/-- On the nil mainnet map the merge loop panics at the first research market. -/
theorem addResearchMarkets_nil (l : List (Sigma fun _ : String => Market)) :
    addResearchMarkets { Markets := none } l =
      match l with
      | [] => .ok { Markets := none }
      | _ :: _ => .error .assignmentToEntryInNilMap := by
  cases l with
  | nil => rfl
  | cons e rest =>
    obtain ⟨k, v⟩ := e
    simp [addResearchMarkets, mapIndex, mapAssign]

/-- What the merge loop leaves in the map, whenever it completes. -/
theorem addResearchMarkets_lookup (pm mm : MarketMap) (l : List (Sigma fun _ : String => Market))
    (h : addResearchMarkets pm l = .ok mm) (t : String) :
    mapIndex mm.Markets t = (mapIndex pm.Markets t).or (List.dlookup t l) := by
  obtain ⟨markets⟩ := pm
  cases markets with
  | none =>
    rw [addResearchMarkets_nil] at h
    cases l with
    | nil =>
      simp only [Except.ok.injEq] at h
      subst h
      simp [mapIndex]
    | cons e rest => simp at h
  | some es =>
    obtain ⟨es2, hrun, hlook⟩ := addResearchMarkets_some l es
    rw [hrun] at h
    simp only [Except.ok.injEq] at h
    subst h
    simpa [mapIndex] using hlook t

/-- With the filter off, the combined market map is the result of the merge loop. -/
theorem combinedMarketMap_false (d : Deps) (pm : MarketMap) (sr : MarketMapResult)
    (sv : mmtypes.MarketMapResponse) (hsv : sr.Value = some sv) :
    combinedMarketMap d false pm (some sr) =
      addResearchMarkets pm (mapRange sv.MarketMap.Markets) := by
  simp only [combinedMarketMap, hsv]
  cases addResearchMarkets pm (mapRange sv.MarketMap.Markets) <;> simp

/-- With the filter off and a non-nil mainnet market map, the merge never panics: the combined
market map is computed whatever the research payload holds. -/
theorem combinedMarketMap_false_of_nonnil (d : Deps) (es : GoMap String Market)
    (sr : MarketMapResult) (sv : mmtypes.MarketMapResponse) (hsv : sr.Value = some sv) :
    ∃ es2 : GoMap String Market,
      combinedMarketMap d false { Markets := some es } (some sr) = .ok { Markets := some es2 } := by
  rw [combinedMarketMap_false d _ sr sv hsv]
  obtain ⟨es2, hrun, _⟩ := addResearchMarkets_some (mapRange sv.MarketMap.Markets) es
  exact ⟨es2, hrun⟩

/-- The two outcomes of `Fetch` once neither constituent is Unresolved for the perpx chain, the
mainnet entry holds a payload and the combined market map was computed. -/
theorem Fetch_combined (d : Deps) (f : MultiMarketMapRestAPIFetcher) (chains : List Chain)
    (pr : MarketMapResult) (pv : mmtypes.MarketMapResponse) (mm : MarketMap)
    (hpu : PERPXChain d ∉ (f.perpxMainnetFetcher chains).UnResolved)
    (hsu : PERPXChain d ∉ (f.perpxResearchFetcher chains).UnResolved)
    (hpr : (f.perpxMainnetFetcher chains).Resolved.lookup (PERPXChain d) = some pr)
    (hpv : pr.Value = some pv)
    (hmm : combinedMarketMap d f.isCMCOnly pv.MarketMap
      ((f.perpxResearchFetcher chains).Resolved.lookup (PERPXChain d)) = .ok mm) :
    f.Fetch d chains =
      match d.ValidateBasic mm with
      | some err =>
        .ok (NewMarketMapResponseWithErr chains
          (NewErrorWithCode ("combined market-map failed validation: " ++ err)
            ErrorCode.ErrorUnknown))
      | none =>
        .ok { f.perpxMainnetFetcher chains with
              Resolved := (f.perpxMainnetFetcher chains).Resolved.replace (PERPXChain d)
                { pr with Value := some { pv with MarketMap := mm } } } := by
  rw [mem_iff_lookup_isSome] at hpu hsu
  simp only [MultiMarketMapRestAPIFetcher.Fetch, hpu, hsu, hpr, hpv, hmm]
  simp

/-! ## The aggregator: failure of a constituent -/

/-- The first early return of `Fetch` (lines 164-167). -/
theorem Fetch_mainnet_unresolved (d : Deps) (f : MultiMarketMapRestAPIFetcher)
    (chains : List Chain)
    (hpu : PERPXChain d ∈ (f.perpxMainnetFetcher chains).UnResolved) :
    f.Fetch d chains = .ok (f.perpxMainnetFetcher chains) := by
  rw [mem_iff_lookup_isSome] at hpu
  simp [MultiMarketMapRestAPIFetcher.Fetch, hpu]

/-- The second early return of `Fetch` (lines 170-173). -/
theorem Fetch_research_unresolved (d : Deps) (f : MultiMarketMapRestAPIFetcher)
    (chains : List Chain)
    (hpu : PERPXChain d ∉ (f.perpxMainnetFetcher chains).UnResolved)
    (hsu : PERPXChain d ∈ (f.perpxResearchFetcher chains).UnResolved) :
    f.Fetch d chains = .ok (f.perpxResearchFetcher chains) := by
  rw [mem_iff_lookup_isSome] at hpu hsu
  simp [MultiMarketMapRestAPIFetcher.Fetch, hpu, hsu]

/-- C1: if the mainnet (primary) response has an Unresolved entry for the perpx chain, `Fetch`
returns the mainnet response itself, with the same Resolved and UnResolved maps, whatever the
research (secondary) response is. -/
theorem C1_primary_unresolved_returned_verbatim (d : Deps) (f : MultiMarketMapRestAPIFetcher)
    (chains : List Chain)
    (hpu : PERPXChain d ∈ (f.perpxMainnetFetcher chains).UnResolved) :
    f.Fetch d chains = .ok (f.perpxMainnetFetcher chains) :=
  Fetch_mainnet_unresolved d f chains hpu

/-- C1 at the first test case: the mainnet response is Unresolved with `ErrorAPIGeneral`, and it
is what `Fetch` returns. -/
theorem C1_witness :
    PERPXChain Examples.deps ∈
        (Examples.fetcherMainnetFails.perpxMainnetFetcher [PERPXChain Examples.deps]).UnResolved ∧
      Examples.fetcherMainnetFails.Fetch Examples.deps [PERPXChain Examples.deps] =
        .ok Examples.unresolvedAPIGeneral :=
  ⟨by decide,
   C1_primary_unresolved_returned_verbatim Examples.deps Examples.fetcherMainnetFails
     [PERPXChain Examples.deps] (by decide)⟩

/-- C2: if the mainnet response is Resolved and not Unresolved for the perpx chain and the
research response has an Unresolved entry for the perpx chain, `Fetch` returns the research
response itself, so none of the mainnet market data is in the result. -/
theorem C2_secondary_unresolved_returned_verbatim (d : Deps) (f : MultiMarketMapRestAPIFetcher)
    (chains : List Chain)
    (hpr : PERPXChain d ∈ (f.perpxMainnetFetcher chains).Resolved)
    (hpu : PERPXChain d ∉ (f.perpxMainnetFetcher chains).UnResolved)
    (hsu : PERPXChain d ∈ (f.perpxResearchFetcher chains).UnResolved) :
    f.Fetch d chains = .ok (f.perpxResearchFetcher chains) := by
  have _ := hpr
  exact Fetch_research_unresolved d f chains hpu hsu

/-- C2 at the second test case: the mainnet response resolves BTC/USD, the research response is
Unresolved, and the research response is what `Fetch` returns. -/
theorem C2_witness :
    PERPXChain Examples.deps ∈
        (Examples.fetcherResearchFails.perpxMainnetFetcher [PERPXChain Examples.deps]).Resolved ∧
      PERPXChain Examples.deps ∉
        (Examples.fetcherResearchFails.perpxMainnetFetcher [PERPXChain Examples.deps]).UnResolved ∧
      PERPXChain Examples.deps ∈
        (Examples.fetcherResearchFails.perpxResearchFetcher [PERPXChain Examples.deps]).UnResolved ∧
      Examples.fetcherResearchFails.Fetch Examples.deps [PERPXChain Examples.deps] =
        .ok Examples.unresolvedZero :=
  ⟨by decide, by decide, by decide,
   C2_secondary_unresolved_returned_verbatim Examples.deps Examples.fetcherResearchFails
     [PERPXChain Examples.deps] (by decide) (by decide) (by decide)⟩

/-! ## The aggregator: the merge -/

/-- C3: with the filter off, when both constituents are Resolved (and not Unresolved) for the
perpx chain and the merged market map passes `ValidateBasic`, `Fetch` returns a Resolved entry
for the perpx chain, and a ticker is in its market map exactly when it is in the mainnet market
map or in the research market map. -/
theorem C3_merged_tickers_are_the_union (d : Deps) (f : MultiMarketMapRestAPIFetcher)
    (chains : List Chain) (pr sr : MarketMapResult) (pv sv : mmtypes.MarketMapResponse)
    (mm : MarketMap)
    (hflag : f.isCMCOnly = false)
    (hpu : PERPXChain d ∉ (f.perpxMainnetFetcher chains).UnResolved)
    (hsu : PERPXChain d ∉ (f.perpxResearchFetcher chains).UnResolved)
    (hpr : (f.perpxMainnetFetcher chains).Resolved.lookup (PERPXChain d) = some pr)
    (hpv : pr.Value = some pv)
    (hsr : (f.perpxResearchFetcher chains).Resolved.lookup (PERPXChain d) = some sr)
    (hsv : sr.Value = some sv)
    (hmm : combinedMarketMap d false pv.MarketMap (some sr) = .ok mm)
    (hvalid : d.ValidateBasic mm = none) :
    ∃ r rr rv, f.Fetch d chains = .ok r ∧
      r.Resolved.lookup (PERPXChain d) = some rr ∧ rr.Value = some rv ∧
      ∀ t : String, (mapIndex rv.MarketMap.Markets t).isSome = true ↔
        ((mapIndex pv.MarketMap.Markets t).isSome = true ∨
          (mapIndex sv.MarketMap.Markets t).isSome = true) := by
  have hrun := Fetch_combined d f chains pr pv mm hpu hsu hpr hpv (by rw [hflag, hsr]; exact hmm)
  rw [hvalid] at hrun
  refine ⟨_, { pr with Value := some { pv with MarketMap := mm } },
    { pv with MarketMap := mm }, hrun, ?_, rfl, ?_⟩
  · exact lookup_replace_self _ _ _ (AList.lookup_isSome.mp (by rw [hpr]; rfl))
  · intro t
    rw [combinedMarketMap_false d pv.MarketMap sr sv hsv] at hmm
    have hl := addResearchMarkets_lookup pv.MarketMap mm _ hmm t
    rw [dlookup_mapRange] at hl
    show (mapIndex mm.Markets t).isSome = true ↔ _
    rw [hl]
    cases mapIndex pv.MarketMap.Markets t <;> simp

/-- C3 at the fourth test case: mainnet resolves BTC/USD, research resolves ETH/USD, and the
market map `Fetch` returns has exactly these two tickers. -/
theorem C3_witness :
    ∃ r rr rv, Examples.fetcherValid.Fetch Examples.deps [PERPXChain Examples.deps] = .ok r ∧
      r.Resolved.lookup (PERPXChain Examples.deps) = some rr ∧ rr.Value = some rv ∧
      ∀ t : String, (mapIndex rv.MarketMap.Markets t).isSome = true ↔
        ((mapIndex (Examples.payload Examples.btcOnly).MarketMap.Markets t).isSome = true ∨
          (mapIndex (Examples.payload Examples.ethOnly).MarketMap.Markets t).isSome = true) :=
  C3_merged_tickers_are_the_union Examples.deps Examples.fetcherValid [PERPXChain Examples.deps]
    (NewMarketMapResult (some (Examples.payload Examples.btcOnly)) 100)
    (NewMarketMapResult (some (Examples.payload Examples.ethOnly)) 200)
    (Examples.payload Examples.btcOnly) (Examples.payload Examples.ethOnly)
    { Markets := some Examples.btcAndEth }
    rfl (by decide) (by decide) rfl rfl rfl rfl rfl rfl

/-- C4: with the filter off, when both constituents are Resolved (and not Unresolved) for the
perpx chain and the merged market map passes `ValidateBasic`, every ticker of the market map
that `Fetch` returns maps to the mainnet market when the mainnet market map has the ticker,
and otherwise to the research market, unchanged. -/
theorem C4_primary_wins_ties (d : Deps) (f : MultiMarketMapRestAPIFetcher)
    (chains : List Chain) (pr sr : MarketMapResult) (pv sv : mmtypes.MarketMapResponse)
    (mm : MarketMap)
    (hflag : f.isCMCOnly = false)
    (hpu : PERPXChain d ∉ (f.perpxMainnetFetcher chains).UnResolved)
    (hsu : PERPXChain d ∉ (f.perpxResearchFetcher chains).UnResolved)
    (hpr : (f.perpxMainnetFetcher chains).Resolved.lookup (PERPXChain d) = some pr)
    (hpv : pr.Value = some pv)
    (hsr : (f.perpxResearchFetcher chains).Resolved.lookup (PERPXChain d) = some sr)
    (hsv : sr.Value = some sv)
    (hmm : combinedMarketMap d false pv.MarketMap (some sr) = .ok mm)
    (hvalid : d.ValidateBasic mm = none) :
    ∃ r rr rv, f.Fetch d chains = .ok r ∧
      r.Resolved.lookup (PERPXChain d) = some rr ∧ rr.Value = some rv ∧
      ∀ t : String, mapIndex rv.MarketMap.Markets t =
        match mapIndex pv.MarketMap.Markets t with
        | some market => some market
        | none => mapIndex sv.MarketMap.Markets t := by
  have hrun := Fetch_combined d f chains pr pv mm hpu hsu hpr hpv (by rw [hflag, hsr]; exact hmm)
  rw [hvalid] at hrun
  refine ⟨_, { pr with Value := some { pv with MarketMap := mm } },
    { pv with MarketMap := mm }, hrun, ?_, rfl, ?_⟩
  · exact lookup_replace_self _ _ _ (AList.lookup_isSome.mp (by rw [hpr]; rfl))
  · intro t
    rw [combinedMarketMap_false d pv.MarketMap sr sv hsv] at hmm
    have hl := addResearchMarkets_lookup pv.MarketMap mm _ hmm t
    rw [dlookup_mapRange] at hl
    show mapIndex mm.Markets t = _
    rw [hl]
    cases mapIndex pv.MarketMap.Markets t <;> simp

/-- C4 where both constituents resolve BTC/USD with differing provider lists: the BTC/USD of the
result is the mainnet market, and ETH/USD is the research market. -/
theorem C4_witness :
    ∃ r rr rv, Examples.fetcherOverlap.Fetch Examples.deps [PERPXChain Examples.deps] = .ok r ∧
      r.Resolved.lookup (PERPXChain Examples.deps) = some rr ∧ rr.Value = some rv ∧
      ∀ t : String, mapIndex rv.MarketMap.Markets t =
        match mapIndex (Examples.payload Examples.btcOnly).MarketMap.Markets t with
        | some market => some market
        | none => mapIndex (Examples.payload Examples.ethAndBtc).MarketMap.Markets t :=
  C4_primary_wins_ties Examples.deps Examples.fetcherOverlap [PERPXChain Examples.deps]
    (NewMarketMapResult (some (Examples.payload Examples.btcOnly)) 100)
    (NewMarketMapResult (some (Examples.payload Examples.ethAndBtc)) 200)
    (Examples.payload Examples.btcOnly) (Examples.payload Examples.ethAndBtc)
    { Markets := some Examples.btcAndEth }
    rfl (by decide) (by decide) rfl rfl rfl rfl rfl rfl

/-! ## The aggregator: validation -/

/-- C5: when both constituents are Resolved (and not Unresolved) for the perpx chain and the
combined market map (merged and, in filter mode, filtered) fails `ValidateBasic`, `Fetch`
returns a response with an empty Resolved map whose UnResolved map has an entry for every
requested chain and for no other chain. -/
theorem C5_validation_failure_unresolves_requested_chains (d : Deps)
    (f : MultiMarketMapRestAPIFetcher) (chains : List Chain) (pr sr : MarketMapResult)
    (pv : mmtypes.MarketMapResponse) (mm : MarketMap) (err : String)
    (hpu : PERPXChain d ∉ (f.perpxMainnetFetcher chains).UnResolved)
    (hsu : PERPXChain d ∉ (f.perpxResearchFetcher chains).UnResolved)
    (hpr : (f.perpxMainnetFetcher chains).Resolved.lookup (PERPXChain d) = some pr)
    (hpv : pr.Value = some pv)
    (hsr : (f.perpxResearchFetcher chains).Resolved.lookup (PERPXChain d) = some sr)
    (hmm : combinedMarketMap d f.isCMCOnly pv.MarketMap (some sr) = .ok mm)
    (hinvalid : d.ValidateBasic mm = some err) :
    ∃ r, f.Fetch d chains = .ok r ∧ r.Resolved = ∅ ∧
      ∀ c : Chain, c ∈ r.UnResolved ↔ c ∈ chains := by
  have hrun := Fetch_combined d f chains pr pv mm hpu hsu hpr hpv (by rw [hsr]; exact hmm)
  rw [hinvalid] at hrun
  exact ⟨_, hrun, NewMarketMapResponseWithErr_Resolved _ _,
    fun c => NewMarketMapResponseWithErr_mem _ _ c⟩

/-- C5 at the third test case, requested for the perpx chain and one more chain: the zero
markets fail validation and both requested chains come back Unresolved. -/
theorem C5_witness :
    ∃ r, Examples.fetcherInvalid.Fetch Examples.deps [PERPXChain Examples.deps, Examples.osmosis]
        = .ok r ∧ r.Resolved = ∅ ∧
      ∀ c : Chain, c ∈ r.UnResolved ↔ c ∈ [PERPXChain Examples.deps, Examples.osmosis] :=
  C5_validation_failure_unresolves_requested_chains Examples.deps Examples.fetcherInvalid
    [PERPXChain Examples.deps, Examples.osmosis]
    (NewMarketMapResult (some (Examples.payload Examples.zeroBtc)) 100)
    (NewMarketMapResult (some (Examples.payload Examples.zeroEth)) 200)
    (Examples.payload Examples.zeroBtc) { Markets := some Examples.zeroBtcAndEth }
    "invalid market" (by decide) (by decide) rfl rfl rfl rfl rfl

/-- C6, as stated, fails at the third test case: the combined market map fails validation, and
the error of the Unresolved entry that `Fetch` returns for the perpx chain has the code
`ErrorUnknown`, whose kind is Unknown and not ValidationFailure. -/
theorem C6_counterexample :
    ∃ r u e,
      combinedMarketMap Examples.deps false (Examples.payload Examples.zeroBtc).MarketMap
          (some (NewMarketMapResult (some (Examples.payload Examples.zeroEth)) 200))
        = .ok { Markets := some Examples.zeroBtcAndEth } ∧
      Examples.deps.ValidateBasic { Markets := some Examples.zeroBtcAndEth }
        = some "invalid market" ∧
      Examples.fetcherInvalid.Fetch Examples.deps [PERPXChain Examples.deps] = .ok r ∧
      r.UnResolved.lookup (PERPXChain Examples.deps) = some u ∧
      u.ErrorWithCode = some e ∧
      e.ec = ErrorCode.ErrorUnknown ∧
      e.ec.kind ≠ ErrorKind.ValidationFailure :=
  ⟨_, _, _, rfl, rfl, rfl, rfl, rfl, rfl, by decide⟩

/-- C6, amended: when the combined market map fails `ValidateBasic`, every Unresolved entry of
the response that `Fetch` returns carries the validator error wrapped under the code
`ErrorUnknown` (kind Unknown). -/
theorem C6_validation_failure_has_code_ErrorUnknown (d : Deps)
    (f : MultiMarketMapRestAPIFetcher) (chains : List Chain) (pr sr : MarketMapResult)
    (pv : mmtypes.MarketMapResponse) (mm : MarketMap) (err : String)
    (hpu : PERPXChain d ∉ (f.perpxMainnetFetcher chains).UnResolved)
    (hsu : PERPXChain d ∉ (f.perpxResearchFetcher chains).UnResolved)
    (hpr : (f.perpxMainnetFetcher chains).Resolved.lookup (PERPXChain d) = some pr)
    (hpv : pr.Value = some pv)
    (hsr : (f.perpxResearchFetcher chains).Resolved.lookup (PERPXChain d) = some sr)
    (hmm : combinedMarketMap d f.isCMCOnly pv.MarketMap (some sr) = .ok mm)
    (hinvalid : d.ValidateBasic mm = some err) :
    ∃ r, f.Fetch d chains = .ok r ∧
      ∀ (c : Chain) (u : UnresolvedResult), r.UnResolved.lookup c = some u →
        u.ErrorWithCode =
            some { error := "combined market-map failed validation: " ++ err
                   ec := ErrorCode.ErrorUnknown } ∧
          ErrorCode.ErrorUnknown.kind = ErrorKind.Unknown := by
  have hrun := Fetch_combined d f chains pr pv mm hpu hsu hpr hpv (by rw [hsr]; exact hmm)
  rw [hinvalid] at hrun
  refine ⟨_, hrun, ?_⟩
  intro c u hu
  rw [NewMarketMapResponseWithErr_lookup] at hu
  by_cases hc : c ∈ chains
  · simp only [hc, if_true, Option.some.injEq] at hu
    subst hu
    exact ⟨rfl, rfl⟩
  · simp [hc] at hu

/-- C6 amended, at the third test case. -/
theorem C6_witness :
    ∃ r, Examples.fetcherInvalid.Fetch Examples.deps [PERPXChain Examples.deps] = .ok r ∧
      ∀ (c : Chain) (u : UnresolvedResult), r.UnResolved.lookup c = some u →
        u.ErrorWithCode =
            some { error := "combined market-map failed validation: " ++ "invalid market"
                   ec := ErrorCode.ErrorUnknown } ∧
          ErrorCode.ErrorUnknown.kind = ErrorKind.Unknown :=
  C6_validation_failure_has_code_ErrorUnknown Examples.deps Examples.fetcherInvalid
    [PERPXChain Examples.deps]
    (NewMarketMapResult (some (Examples.payload Examples.zeroBtc)) 100)
    (NewMarketMapResult (some (Examples.payload Examples.zeroEth)) 200)
    (Examples.payload Examples.zeroBtc) { Markets := some Examples.zeroBtcAndEth }
    "invalid market" (by decide) (by decide) rfl rfl rfl rfl rfl

/-- C7: when each constituent response lists the perpx chain in at most one of Resolved and
UnResolved, a Resolved entry for the perpx chain in the response that `Fetch` returns holds a
market map that passes `ValidateBasic`. -/
theorem C7_resolved_market_map_is_valid (d : Deps) (f : MultiMarketMapRestAPIFetcher)
    (chains : List Chain) (r : mmclient.MarketMapResponse) (rr : MarketMapResult)
    (hp : ¬ (PERPXChain d ∈ (f.perpxMainnetFetcher chains).Resolved ∧
              PERPXChain d ∈ (f.perpxMainnetFetcher chains).UnResolved))
    (hs : ¬ (PERPXChain d ∈ (f.perpxResearchFetcher chains).Resolved ∧
              PERPXChain d ∈ (f.perpxResearchFetcher chains).UnResolved))
    (hfetch : f.Fetch d chains = .ok r)
    (hrr : r.Resolved.lookup (PERPXChain d) = some rr) :
    ∃ rv, rr.Value = some rv ∧ d.ValidateBasic rv.MarketMap = none := by
  by_cases hpu : PERPXChain d ∈ (f.perpxMainnetFetcher chains).UnResolved
  · -- the mainnet response is returned, and it has no Resolved entry for the perpx chain
    rw [Fetch_mainnet_unresolved d f chains hpu] at hfetch
    simp only [Except.ok.injEq] at hfetch
    subst hfetch
    exact absurd ⟨AList.lookup_isSome.mp (by rw [hrr]; rfl), hpu⟩ hp
  · by_cases hsu : PERPXChain d ∈ (f.perpxResearchFetcher chains).UnResolved
    · -- the research response is returned, and it has no Resolved entry for the perpx chain
      rw [Fetch_research_unresolved d f chains hpu hsu] at hfetch
      simp only [Except.ok.injEq] at hfetch
      subst hfetch
      exact absurd ⟨AList.lookup_isSome.mp (by rw [hrr]; rfl), hsu⟩ hs
    · cases hpr : (f.perpxMainnetFetcher chains).Resolved.lookup (PERPXChain d) with
      | none =>
        rw [mem_iff_lookup_isSome] at hpu hsu
        simp [MultiMarketMapRestAPIFetcher.Fetch, hpu, hsu, hpr] at hfetch
      | some pr =>
        cases hpv : pr.Value with
        | none =>
          rw [mem_iff_lookup_isSome] at hpu hsu
          simp [MultiMarketMapRestAPIFetcher.Fetch, hpu, hsu, hpr, hpv] at hfetch
        | some pv =>
          cases hmm : combinedMarketMap d f.isCMCOnly pv.MarketMap
              ((f.perpxResearchFetcher chains).Resolved.lookup (PERPXChain d)) with
          | error p =>
            rw [mem_iff_lookup_isSome] at hpu hsu
            simp [MultiMarketMapRestAPIFetcher.Fetch, hpu, hsu, hpr, hpv, hmm] at hfetch
          | ok mm =>
            rw [Fetch_combined d f chains pr pv mm hpu hsu hpr hpv hmm] at hfetch
            cases hv : d.ValidateBasic mm with
            | some err =>
              rw [hv] at hfetch
              simp only [Except.ok.injEq] at hfetch
              subst hfetch
              rw [NewMarketMapResponseWithErr_Resolved, AList.lookup_empty] at hrr
              exact absurd hrr (by simp)
            | none =>
              rw [hv] at hfetch
              simp only [Except.ok.injEq] at hfetch
              subst hfetch
              have hin : PERPXChain d ∈ (f.perpxMainnetFetcher chains).Resolved :=
                AList.lookup_isSome.mp (by rw [hpr]; rfl)
              have hl := lookup_replace_self (PERPXChain d)
                ({ pr with Value := some { pv with MarketMap := mm } } : MarketMapResult)
                (f.perpxMainnetFetcher chains).Resolved hin
              have hrr2 : ((f.perpxMainnetFetcher chains).Resolved.replace (PERPXChain d)
                  { pr with Value := some { pv with MarketMap := mm } }).lookup (PERPXChain d)
                    = some rr := hrr
              rw [hl] at hrr2
              simp only [Option.some.injEq] at hrr2
              subst hrr2
              exact ⟨_, rfl, hv⟩

/-- C7 at the fourth test case: the Resolved entry that `Fetch` returns holds the two markets,
which pass the validator. -/
theorem C7_witness :
    Examples.fetcherValid.Fetch Examples.deps [PERPXChain Examples.deps] =
        .ok (Examples.resolvedWith Examples.btcAndEth 100) ∧
      (Examples.resolvedWith Examples.btcAndEth 100).Resolved.lookup (PERPXChain Examples.deps) =
        some (NewMarketMapResult (some (Examples.payload Examples.btcAndEth)) 100) ∧
      ∃ rv, (NewMarketMapResult (some (Examples.payload Examples.btcAndEth)) 100).Value = some rv ∧
        Examples.deps.ValidateBasic rv.MarketMap = none :=
  ⟨rfl, rfl,
   C7_resolved_market_map_is_valid Examples.deps Examples.fetcherValid [PERPXChain Examples.deps]
     (Examples.resolvedWith Examples.btcAndEth 100)
     (NewMarketMapResult (some (Examples.payload Examples.btcAndEth)) 100)
     (by decide) (by decide) rfl rfl⟩

/-! ## The aggregator: coverage -/

/-- The fully-unresolved response partitions the requested chains. -/
theorem NewMarketMapResponseWithErr_partitions (chains : List Chain) (err : ErrorWithCode) :
    Partitions chains (NewMarketMapResponseWithErr chains err) := by
  intro c
  rw [NewMarketMapResponseWithErr_Resolved]
  refine ⟨⟨fun hc => Or.inr ((NewMarketMapResponseWithErr_mem chains err c).mpr hc), ?_⟩, ?_⟩
  · intro hc
    rcases hc with hc | hc
    · exact absurd hc (AList.not_mem_empty c)
    · exact (NewMarketMapResponseWithErr_mem chains err c).mp hc
  · intro hc
    exact AList.not_mem_empty c hc.1

/-- Whenever `Fetch` returns a response, and the two constituent responses partition the
requested chains, the response that `Fetch` returns partitions them too. -/
theorem Fetch_partitions_when_it_returns (d : Deps) (f : MultiMarketMapRestAPIFetcher)
    (chains : List Chain) (r : mmclient.MarketMapResponse)
    (hp : Partitions chains (f.perpxMainnetFetcher chains))
    (hs : Partitions chains (f.perpxResearchFetcher chains))
    (hfetch : f.Fetch d chains = .ok r) : Partitions chains r := by
  by_cases hpu : PERPXChain d ∈ (f.perpxMainnetFetcher chains).UnResolved
  · rw [Fetch_mainnet_unresolved d f chains hpu] at hfetch
    simp only [Except.ok.injEq] at hfetch
    exact hfetch ▸ hp
  · by_cases hsu : PERPXChain d ∈ (f.perpxResearchFetcher chains).UnResolved
    · rw [Fetch_research_unresolved d f chains hpu hsu] at hfetch
      simp only [Except.ok.injEq] at hfetch
      exact hfetch ▸ hs
    · cases hpr : (f.perpxMainnetFetcher chains).Resolved.lookup (PERPXChain d) with
      | none =>
        rw [mem_iff_lookup_isSome] at hpu hsu
        simp [MultiMarketMapRestAPIFetcher.Fetch, hpu, hsu, hpr] at hfetch
      | some pr =>
        cases hpv : pr.Value with
        | none =>
          rw [mem_iff_lookup_isSome] at hpu hsu
          simp [MultiMarketMapRestAPIFetcher.Fetch, hpu, hsu, hpr, hpv] at hfetch
        | some pv =>
          cases hmm : combinedMarketMap d f.isCMCOnly pv.MarketMap
              ((f.perpxResearchFetcher chains).Resolved.lookup (PERPXChain d)) with
          | error p =>
            rw [mem_iff_lookup_isSome] at hpu hsu
            simp [MultiMarketMapRestAPIFetcher.Fetch, hpu, hsu, hpr, hpv, hmm] at hfetch
          | ok mm =>
            rw [Fetch_combined d f chains pr pv mm hpu hsu hpr hpv hmm] at hfetch
            cases hv : d.ValidateBasic mm with
            | some err =>
              rw [hv] at hfetch
              simp only [Except.ok.injEq] at hfetch
              exact hfetch ▸ NewMarketMapResponseWithErr_partitions chains _
            | none =>
              rw [hv] at hfetch
              simp only [Except.ok.injEq] at hfetch
              subst hfetch
              intro c
              have hc := hp c
              simp only [AList.mem_replace]
              exact hc

/-- C9 fails on the code: for a request that names only another chain, both constituent
responses are the fully-unresolved response, which partitions the requested chains, and
`Fetch` returns no response at all: it reads the missing Resolved entry of the perpx chain in
the mainnet response and dereferences its nil value. -/
theorem C9_fetch_panics_when_perpx_chain_is_not_requested :
    Partitions [Examples.osmosis]
        (Examples.fetcherOtherChain.perpxMainnetFetcher [Examples.osmosis]) ∧
      Partitions [Examples.osmosis]
        (Examples.fetcherOtherChain.perpxResearchFetcher [Examples.osmosis]) ∧
      Examples.fetcherOtherChain.Fetch Examples.deps [Examples.osmosis] =
        .error Panic.nilPointerDereference :=
  ⟨NewMarketMapResponseWithErr_partitions _ _, NewMarketMapResponseWithErr_partitions _ _, rfl⟩

end perpx

namespace arrays

theorem CheckEntryInArray_eq_none {T : Type} [DecidableEq T] (entry : T) (array : List T) :
    CheckEntryInArray entry array = none ↔ entry ∉ array := by
  unfold CheckEntryInArray
  rw [List.find?_eq_none]
  constructor
  · intro h hmem
    exact absurd (h entry hmem) (by simp)
  · intro h e he
    have hne : e ≠ entry := fun heq => h (heq ▸ he)
    simp [hne]

theorem CheckEntryInArray_eq_some {T : Type} [DecidableEq T] (entry e : T) (array : List T)
    (h : CheckEntryInArray entry array = some e) : e = entry ∧ entry ∈ array := by
  unfold CheckEntryInArray at h
  have h1 := List.find?_some h
  have h2 := List.mem_of_find?_eq_some h
  have he : e = entry := by simpa using h1
  exact ⟨he, he ▸ h2⟩

end arrays

namespace perpx

open providertypes mmtypes mmclient

/-! ## The research handler -/

/-- The response of `ParseResponse` when the perpx chain is not requested (lines 82-91). -/
theorem ParseResponse_without_perpx_chain (d : Deps) (x : Externals) (h : ResearchAPIHandler)
    (chains : List Chain) (resp : http.Response) (hno : PERPXChain d ∉ chains) :
    h.ParseResponse d x chains resp =
      .ok (NewMarketMapResponseWithErr chains
        (NewErrorWithCode ("expected one chain, got " ++ toString chains.length)
          ErrorCode.ErrorInvalidAPIChains)) := by
  have hnone := (arrays.CheckEntryInArray_eq_none (PERPXChain d) chains).mpr hno
  unfold PERPXChain at hnone
  simp only [ResearchAPIHandler.ParseResponse, hnone]

/-- The two shapes of the response of `ParseResponse` on a response with a body: the
fully-unresolved response for the requested chains, or the response that resolves the perpx
chain alone. -/
theorem ParseResponse_shape (d : Deps) (x : Externals) (h : ResearchAPIHandler)
    (chains : List Chain) (status : Nat) (body : String) :
    (∃ err, h.ParseResponse d x chains { StatusCode := status, Body := some body } =
        .ok (NewMarketMapResponseWithErr chains err)) ∨
    (PERPXChain d ∈ chains ∧ ∃ marketMap,
      h.ParseResponse d x chains { StatusCode := status, Body := some body } =
        .ok (NewMarketMapResponse
          ((∅ : GoMap Chain MarketMapResult).insert (PERPXChain d)
            (NewMarketMapResult (some marketMap) x.now)) ∅)) := by
  cases hc : arrays.CheckEntryInArray ({ ChainID := d.ChainID } : Chain) chains with
  | none => exact Or.inl ⟨_, by simp only [ResearchAPIHandler.ParseResponse, hc]; rfl⟩
  | some chain =>
    obtain ⟨hchain, hmem⟩ := arrays.CheckEntryInArray_eq_some _ _ _ hc
    cases hdec : x.decodeResearchJSON body with
    | error err =>
      exact Or.inl ⟨_, by simp only [ResearchAPIHandler.ParseResponse, hc, hdec]; rfl⟩
    | ok research =>
      cases hpar : h.researchJSONToQueryAllMarketsParamsResponse d x research with
      | error err =>
        exact Or.inl ⟨_, by simp only [ResearchAPIHandler.ParseResponse, hc, hdec, hpar]; rfl⟩
      | ok respMarketParams =>
        cases hconv : x.ConvertMarketParamsToMarketMap respMarketParams with
        | error err =>
          exact Or.inl ⟨_, by
            simp only [ResearchAPIHandler.ParseResponse, hc, hdec, hpar, hconv]; rfl⟩
        | ok marketMap =>
          refine Or.inr ⟨hmem, marketMap, ?_⟩
          simp only [ResearchAPIHandler.ParseResponse, hc, hdec, hpar, hconv]
          rw [hchain]
          rfl

/-- C8, as stated, fails: for a request that names another chain together with the perpx chain
and a body that parses (the empty document), the response resolves the perpx chain and lists
the other requested chain neither as Resolved nor as UnResolved. -/
theorem C8_counterexample :
    ∃ r, Examples.researchHandler.ParseResponse Examples.deps Examples.externals
        [Examples.osmosis, PERPXChain Examples.deps] Examples.responseEmptyDocument = .ok r ∧
      Examples.osmosis ∈ [Examples.osmosis, PERPXChain Examples.deps] ∧
      PERPXChain Examples.deps ∈ r.Resolved ∧
      Examples.osmosis ∉ r.Resolved ∧ Examples.osmosis ∉ r.UnResolved ∧
      ¬ Partitions [Examples.osmosis, PERPXChain Examples.deps] r :=
  ⟨_, rfl, by decide, by decide, by decide, by decide,
    fun hpart => absurd ((hpart Examples.osmosis).1.mp (by decide)) (by decide)⟩

/-- C8, amended: for every list of requested chains and every response body, `ParseResponse`
returns a response whose Resolved and UnResolved key sets are disjoint and hold requested chains
only.  When the perpx chain is not requested or parsing fails (the body does not decode, or one
of the two conversions fails), Resolved is empty and UnResolved is exactly the set of requested
chains.  When the perpx chain is requested and parsing succeeds with a market map, UnResolved is
empty and Resolved holds the perpx chain alone, with that market map and the time of the
clock. -/
theorem C8_parse_response_coverage (d : Deps) (x : Externals) (h : ResearchAPIHandler)
    (chains : List Chain) (status : Nat) (body : String) :
    ∃ r, h.ParseResponse d x chains { StatusCode := status, Body := some body } = .ok r ∧
      (∀ c : Chain, ¬ (c ∈ r.Resolved ∧ c ∈ r.UnResolved)) ∧
      (∀ c : Chain, c ∈ r.Resolved ∨ c ∈ r.UnResolved → c ∈ chains) ∧
      ((PERPXChain d ∉ chains ∨ ¬ ∃ marketMap, h.Parses d x body marketMap) →
        r.Resolved = ∅ ∧ ∀ c : Chain, c ∈ r.UnResolved ↔ c ∈ chains) ∧
      (∀ marketMap, PERPXChain d ∈ chains → h.Parses d x body marketMap →
        r.UnResolved = ∅ ∧ (∀ c : Chain, c ∈ r.Resolved ↔ c = PERPXChain d) ∧
          r.Resolved.lookup (PERPXChain d) = some (NewMarketMapResult (some marketMap) x.now)) := by
  have hfail : ∀ err : ErrorWithCode,
      h.ParseResponse d x chains { StatusCode := status, Body := some body } =
        .ok (NewMarketMapResponseWithErr chains err) →
      (∀ c : Chain, ¬ (c ∈ (NewMarketMapResponseWithErr chains err).Resolved ∧
        c ∈ (NewMarketMapResponseWithErr chains err).UnResolved)) ∧
      (∀ c : Chain, c ∈ (NewMarketMapResponseWithErr chains err).Resolved ∨
        c ∈ (NewMarketMapResponseWithErr chains err).UnResolved → c ∈ chains) ∧
      ((NewMarketMapResponseWithErr chains err).Resolved = ∅ ∧
        ∀ c : Chain, c ∈ (NewMarketMapResponseWithErr chains err).UnResolved ↔ c ∈ chains) := by
    intro err _
    refine ⟨?_, ?_, NewMarketMapResponseWithErr_Resolved _ _,
      fun c => NewMarketMapResponseWithErr_mem _ _ c⟩
    · intro c hc
      rw [NewMarketMapResponseWithErr_Resolved] at hc
      exact AList.not_mem_empty c hc.1
    · intro c hc
      rcases hc with hc | hc
      · rw [NewMarketMapResponseWithErr_Resolved] at hc
        exact absurd hc (AList.not_mem_empty c)
      · exact (NewMarketMapResponseWithErr_mem _ _ c).mp hc
  cases hc : arrays.CheckEntryInArray ({ ChainID := d.ChainID } : Chain) chains with
  | none =>
    have hno : PERPXChain d ∉ chains := (arrays.CheckEntryInArray_eq_none _ _).mp hc
    have hrun := ParseResponse_without_perpx_chain d x h chains
      { StatusCode := status, Body := some body } hno
    obtain ⟨h1, h2, h3⟩ := hfail _ hrun
    exact ⟨_, hrun, h1, h2, fun _ => h3, fun _ hmem _ => absurd hmem hno⟩
  | some chain =>
    obtain ⟨hchain, hmem⟩ := arrays.CheckEntryInArray_eq_some _ _ _ hc
    have hmem2 : PERPXChain d ∈ chains := hmem
    cases hdec : x.decodeResearchJSON body with
    | error err =>
      have hrun : h.ParseResponse d x chains { StatusCode := status, Body := some body } =
          .ok (NewMarketMapResponseWithErr chains
            (NewErrorWithCode ("failed to parse perpx research json response: " ++ err)
              ErrorCode.ErrorFailedToDecode)) := by
        simp only [ResearchAPIHandler.ParseResponse, hc, hdec]
      obtain ⟨h1, h2, h3⟩ := hfail _ hrun
      refine ⟨_, hrun, h1, h2, fun _ => h3, fun marketMap _ hp => ?_⟩
      obtain ⟨research, params, h4, _, _⟩ := hp
      rw [hdec] at h4
      cases h4
    | ok research =>
      cases hpar : h.researchJSONToQueryAllMarketsParamsResponse d x research with
      | error err =>
        have hrun : h.ParseResponse d x chains { StatusCode := status, Body := some body } =
            .ok (NewMarketMapResponseWithErr chains
              (NewErrorWithCode
                ("failed to convert perpx research json into QueryAllMarketsParamsResponse: "
                  ++ err)
                ErrorCode.ErrorFailedToDecode)) := by
          simp only [ResearchAPIHandler.ParseResponse, hc, hdec, hpar]
        obtain ⟨h1, h2, h3⟩ := hfail _ hrun
        refine ⟨_, hrun, h1, h2, fun _ => h3, fun marketMap _ hp => ?_⟩
        obtain ⟨research2, params, h4, h5, _⟩ := hp
        rw [hdec] at h4
        cases h4
        rw [hpar] at h5
        cases h5
      | ok respMarketParams =>
        cases hconv : x.ConvertMarketParamsToMarketMap respMarketParams with
        | error err =>
          have hrun : h.ParseResponse d x chains { StatusCode := status, Body := some body } =
              .ok (NewMarketMapResponseWithErr chains
                (NewErrorWithCode
                  ("failed to convert QueryAllMarketsParamsResponse into MarketMap: " ++ err)
                  ErrorCode.ErrorFailedToDecode)) := by
            simp only [ResearchAPIHandler.ParseResponse, hc, hdec, hpar, hconv]
          obtain ⟨h1, h2, h3⟩ := hfail _ hrun
          refine ⟨_, hrun, h1, h2, fun _ => h3, fun marketMap _ hp => ?_⟩
          obtain ⟨research2, params, h4, h5, h6⟩ := hp
          rw [hdec] at h4
          cases h4
          rw [hpar] at h5
          cases h5
          rw [hconv] at h6
          cases h6
        | ok marketMap =>
          have hrun : h.ParseResponse d x chains { StatusCode := status, Body := some body } =
              .ok (NewMarketMapResponse
                ((∅ : GoMap Chain MarketMapResult).insert (PERPXChain d)
                  (NewMarketMapResult (some marketMap) x.now)) ∅) := by
            simp only [ResearchAPIHandler.ParseResponse, hc, hdec, hpar, hconv]
            rw [hchain]
            rfl
          have hres : ∀ c : Chain,
              c ∈ (NewMarketMapResponse ((∅ : GoMap Chain MarketMapResult).insert (PERPXChain d)
                (NewMarketMapResult (some marketMap) x.now)) ∅).Resolved ↔
                c = PERPXChain d := by
            intro c
            show c ∈ (∅ : GoMap Chain MarketMapResult).insert (PERPXChain d) _ ↔ _
            rw [AList.mem_insert]
            simp [AList.not_mem_empty]
          refine ⟨_, hrun, ?_, ?_, ?_, ?_⟩
          · intro c hcc
            exact AList.not_mem_empty c hcc.2
          · intro c hcc
            rcases hcc with hcc | hcc
            · rw [(hres c).mp hcc]
              exact hmem2
            · exact absurd hcc (AList.not_mem_empty c)
          · intro hcase
            rcases hcase with hno | hnot
            · exact absurd hmem2 hno
            · exact absurd ⟨marketMap, research, respMarketParams, hdec, hpar, hconv⟩ hnot
          · intro marketMap2 _ hp
            obtain ⟨research2, params, h4, h5, h6⟩ := hp
            rw [hdec] at h4
            cases h4
            rw [hpar] at h5
            cases h5
            rw [hconv] at h6
            cases h6
            refine ⟨rfl, hres, ?_⟩
            show ((∅ : GoMap Chain MarketMapResult).insert (PERPXChain d) _).lookup
              (PERPXChain d) = _
            rw [AList.lookup_insert]

/-- The amended C8 at the request for another chain together with the perpx chain and the body
that parses: the response resolves the perpx chain alone, with the parsed market map. -/
theorem C8_witness :
    PERPXChain Examples.deps ∈ [Examples.osmosis, PERPXChain Examples.deps] ∧
      Examples.researchHandler.Parses Examples.deps Examples.externals "\x7b\x7d"
        (Examples.payload ∅) ∧
      ∃ r, Examples.researchHandler.ParseResponse Examples.deps Examples.externals
          [Examples.osmosis, PERPXChain Examples.deps] Examples.responseEmptyDocument = .ok r ∧
        r.UnResolved = ∅ ∧ (∀ c : Chain, c ∈ r.Resolved ↔ c = PERPXChain Examples.deps) ∧
        r.Resolved.lookup (PERPXChain Examples.deps) =
          some (NewMarketMapResult (some (Examples.payload ∅)) 300) := by
  have hparses : Examples.researchHandler.Parses Examples.deps Examples.externals "\x7b\x7d"
      (Examples.payload ∅) := ⟨∅, { MarketParams := [] }, rfl, rfl, rfl⟩
  obtain ⟨r, hrun, _, _, _, hok⟩ :=
    C8_parse_response_coverage Examples.deps Examples.externals Examples.researchHandler
      [Examples.osmosis, PERPXChain Examples.deps] 200 "\x7b\x7d"
  exact ⟨by decide, hparses, r, hrun, hok (Examples.payload ∅) (by decide) hparses⟩

/-- C10: for every list of requested chains without the perpx chain and every HTTP response,
with or without a body, `ParseResponse` returns the same response, which does not depend on
the HTTP response: its Resolved map is empty and its UnResolved map has one entry for each
requested chain and no other, each with the error code `ErrorInvalidAPIChains`. -/
theorem C10_request_without_perpx_chain (d : Deps) (x : Externals) (h : ResearchAPIHandler)
    (chains : List Chain) (resp : http.Response) (hno : PERPXChain d ∉ chains) :
    ∃ r, h.ParseResponse d x chains resp = .ok r ∧
      (∀ resp2 : http.Response, h.ParseResponse d x chains resp2 = .ok r) ∧
      r.Resolved = ∅ ∧
      r.UnResolved.keys.Nodup ∧
      (∀ c : Chain, c ∈ r.UnResolved ↔ c ∈ chains) ∧
      ∀ (c : Chain) (u : UnresolvedResult), r.UnResolved.lookup c = some u →
        ∃ e, u.ErrorWithCode = some e ∧ e.ec = ErrorCode.ErrorInvalidAPIChains := by
  refine ⟨_, ParseResponse_without_perpx_chain d x h chains resp hno,
    fun resp2 => ParseResponse_without_perpx_chain d x h chains resp2 hno,
    NewMarketMapResponseWithErr_Resolved _ _, AList.keys_nodup _,
    fun c => NewMarketMapResponseWithErr_mem _ _ c, ?_⟩
  intro c u hu
  rw [NewMarketMapResponseWithErr_lookup] at hu
  by_cases hc : c ∈ chains
  · simp only [hc, if_true, Option.some.injEq] at hu
    subst hu
    exact ⟨_, rfl, rfl⟩
  · simp [hc] at hu

/-- C10 at the first test case of `TestParseResponseResearchAPI`: the request names only the
osmosis chain and the HTTP response has no body. -/
theorem C10_witness :
    PERPXChain Examples.deps ∉ [Examples.osmosis] ∧
    ∃ r, Examples.researchHandler.ParseResponse Examples.deps Examples.externals
        [Examples.osmosis] Examples.responseWithoutBody = .ok r ∧
      (∀ resp2 : http.Response, Examples.researchHandler.ParseResponse Examples.deps
        Examples.externals [Examples.osmosis] resp2 = .ok r) ∧
      r.Resolved = ∅ ∧
      r.UnResolved.keys.Nodup ∧
      (∀ c : Chain, c ∈ r.UnResolved ↔ c ∈ [Examples.osmosis]) ∧
      ∀ (c : Chain) (u : UnresolvedResult), r.UnResolved.lookup c = some u →
        ∃ e, u.ErrorWithCode = some e ∧ e.ec = ErrorCode.ErrorInvalidAPIChains :=
  ⟨by decide,
   C10_request_without_perpx_chain Examples.deps Examples.externals Examples.researchHandler
     [Examples.osmosis] Examples.responseWithoutBody (by decide)⟩

end perpx

namespace perpx

open providertypes mmtypes mmclient

/-! ## Lemmas on the filter pass -/

/-- The combined market map is the merged market map, filtered when `isCMCOnly` is set. -/
theorem combinedMarketMap_eq (d : Deps) (isCMCOnly : Bool) (pm : MarketMap)
    (research : Option MarketMapResult) :
    combinedMarketMap d isCMCOnly pm research =
      match mergedMarketMap pm research with
      | .error p => .error p
      | .ok mm => if isCMCOnly then filterCMCMarkets d mm (mapRange mm.Markets) else .ok mm :=
  rfl

/-- The scan returns the last provider config with the given name, and otherwise what was
seen before. -/
theorem scanCMC_eq (name : String) :
    ∀ (l : List ProviderConfig) (seen : Option ProviderConfig),
      scanCMC name l seen =
        match (l.filter (fun q => decide (q.Name = name))).getLast? with
        | some p => some p
        | none => seen
  | [], seen => rfl
  | q :: rest, seen => by
    by_cases hq : q.Name = name
    · simp only [scanCMC, hq, if_true, List.filter_cons, decide_True]
      rw [scanCMC_eq name rest (some q)]
      cases hl : (rest.filter (fun q => decide (q.Name = name))).getLast? with
      | none =>
        have hnil : rest.filter (fun q => decide (q.Name = name)) = [] := by
          simpa [List.getLast?_eq_none_iff] using hl
        simp [hnil]
      | some p =>
        have hne : rest.filter (fun q => decide (q.Name = name)) ≠ [] := by
          intro hnil
          rw [hnil] at hl
          simp at hl
        obtain ⟨y, ys, hys⟩ := List.exists_cons_of_ne_nil hne
        rw [hys] at hl ⊢
        rw [List.getLast?_cons_cons]
        simp [hl]
    · simp only [scanCMC, hq, if_false, List.filter_cons, decide_False]
      exact scanCMC_eq name rest seen

/-- The scan from nothing finds a provider of the list that has the given name. -/
theorem scanCMC_some (name : String) (l : List ProviderConfig) (p : ProviderConfig)
    (h : scanCMC name l none = some p) : p ∈ l ∧ p.Name = name := by
  rw [scanCMC_eq] at h
  cases hl : (l.filter (fun q => decide (q.Name = name))).getLast? with
  | none => rw [hl] at h; simp at h
  | some q =>
    rw [hl] at h
    simp only [Option.some.injEq] at h
    subst h
    have hmem := List.mem_of_getLast?_eq_some hl
    rw [List.mem_filter] at hmem
    exact ⟨hmem.1, by simpa using hmem.2⟩

/-- The scan from nothing finds no provider exactly when no provider has the given name. -/
theorem scanCMC_none (name : String) (l : List ProviderConfig) :
    scanCMC name l none = none ↔ ∀ p ∈ l, p.Name ≠ name := by
  rw [scanCMC_eq]
  cases hl : (l.filter (fun q => decide (q.Name = name))).getLast? with
  | none =>
    have hnil : l.filter (fun q => decide (q.Name = name)) = [] := by
      simpa [List.getLast?_eq_none_iff] using hl
    simp only [true_iff]
    intro p hp hname
    have : p ∈ l.filter (fun q => decide (q.Name = name)) := by
      rw [List.mem_filter]
      exact ⟨hp, by simpa using hname⟩
    rw [hnil] at this
    simp at this
  | some q =>
    have hmem := List.mem_of_getLast?_eq_some hl
    rw [List.mem_filter] at hmem
    simp only [false_iff, reduceCtorEq]
    intro hall
    exact hall q hmem.1 (by simpa using hmem.2)

/-- One pass of the body of the filter loop on a non-nil map never panics; it leaves the
filtered market under the visited ticker and every other ticker as it was. -/
theorem filterMarket_some (d : Deps) (cur : GoMap String Market) (k : String) (v : Market) :
    ∃ cur2 : GoMap String Market,
      filterMarket d { Markets := some cur } k v = .ok { Markets := some cur2 } ∧
      ∀ t, cur2.lookup t = if t = k then filteredMarket d k v else cur.lookup t := by
  cases hscan : scanCMC d.coinmarketcapName v.ProviderConfigs none with
  | some p =>
    refine ⟨_, by simp only [filterMarket, mapAssign, hscan]; rfl, ?_⟩
    intro t
    by_cases ht : t = k
    · subst ht
      simp [filteredMarket, hscan, AList.lookup_insert]
    · simp [ht, AList.lookup_insert_ne ht]
  | none =>
    cases hcat : mapIndex d.CoinMarketCapMarketMap.Markets k with
    | none =>
      refine ⟨_, by simp only [filterMarket, mapAssign, hscan, hcat, mapDelete]; rfl, ?_⟩
      intro t
      by_cases ht : t = k
      · subst ht
        simp [filteredMarket, hscan, hcat, AList.lookup_erase]
      · simp [ht, AList.lookup_erase_ne ht, AList.lookup_insert_ne ht]
    | some c =>
      refine ⟨_, by simp only [filterMarket, mapAssign, hscan, hcat]; rfl, ?_⟩
      intro t
      by_cases ht : t = k
      · subst ht
        simp [filteredMarket, hscan, hcat, AList.lookup_insert]
      · simp [ht, AList.lookup_insert_ne ht]

/-- The filter loop over entries with distinct tickers, on a non-nil map, never panics; it
leaves the filtered market under every visited ticker and every other ticker as it was. -/
theorem filterCMCMarkets_some (d : Deps) :
    ∀ (l : List (Sigma fun _ : String => Market)), l.NodupKeys →
      ∀ cur : GoMap String Market,
        ∃ cur2 : GoMap String Market,
          filterCMCMarkets d { Markets := some cur } l = .ok { Markets := some cur2 } ∧
          ∀ t, cur2.lookup t =
            match List.dlookup t l with
            | some v => filteredMarket d t v
            | none => cur.lookup t
  | [], _, cur => ⟨cur, rfl, fun t => by simp⟩
  | ⟨k, v⟩ :: rest, hnd, cur => by
    obtain ⟨cur1, hrun1, hlook1⟩ := filterMarket_some d cur k v
    rw [List.nodupKeys_cons] at hnd
    obtain ⟨cur2, hrun2, hlook2⟩ := filterCMCMarkets_some d rest hnd.2 cur1
    refine ⟨cur2, ?_, ?_⟩
    · simp only [filterCMCMarkets, hrun1]
      exact hrun2
    · intro t
      rw [hlook2 t]
      by_cases ht : t = k
      · subst ht
        have hnone : List.dlookup t rest = none := List.dlookup_eq_none.mpr hnd.1
        rw [hnone, List.dlookup_cons_eq]
        simp [hlook1 t]
      · rw [List.dlookup_cons_ne _ _ ht]
        cases List.dlookup t rest with
        | some v2 => rfl
        | none => simp [hlook1 t, ht]

/-- The filter loop over the entries of the map it filters never panics. -/
theorem filterCMCMarkets_total (d : Deps) (merged : MarketMap) :
    ∃ mm, filterCMCMarkets d merged (mapRange merged.Markets) = .ok mm := by
  obtain ⟨markets⟩ := merged
  cases markets with
  | none => exact ⟨_, rfl⟩
  | some es =>
    obtain ⟨es2, hrun, _⟩ := filterCMCMarkets_some d es.entries es.nodupKeys es
    exact ⟨_, hrun⟩

/-- What the filter loop leaves in the map: under every ticker of the merged map, the filtered
market. -/
theorem filterCMCMarkets_lookup (d : Deps) (merged mm : MarketMap)
    (h : filterCMCMarkets d merged (mapRange merged.Markets) = .ok mm) (t : String) :
    mapIndex mm.Markets t = (mapIndex merged.Markets t).bind (filteredMarket d t) := by
  obtain ⟨markets⟩ := merged
  cases markets with
  | none =>
    simp only [mapRange, filterCMCMarkets, Except.ok.injEq] at h
    subst h
    rfl
  | some es =>
    obtain ⟨es2, hrun, hlook⟩ := filterCMCMarkets_some d es.entries es.nodupKeys es
    simp only [mapRange] at h
    rw [hrun] at h
    simp only [Except.ok.injEq] at h
    subst h
    simp only [mapIndex]
    rw [hlook t]
    show (match es.lookup t with
      | some v => filteredMarket d t v
      | none => es.lookup t) = (es.lookup t).bind (filteredMarket d t)
    cases hl : es.lookup t <;> simp

end perpx

namespace perpx

open providertypes mmtypes mmclient

/-- A Resolved entry for the perpx chain in the response of `Fetch`, when each constituent lists
the perpx chain in at most one of Resolved and UnResolved, comes from the last return of
`Fetch`: it is the mainnet entry with the combined market map, which passed validation. -/
theorem Fetch_resolved_inv (d : Deps) (f : MultiMarketMapRestAPIFetcher)
    (chains : List Chain) (r : mmclient.MarketMapResponse) (rr : MarketMapResult)
    (hp : ¬ (PERPXChain d ∈ (f.perpxMainnetFetcher chains).Resolved ∧
              PERPXChain d ∈ (f.perpxMainnetFetcher chains).UnResolved))
    (hs : ¬ (PERPXChain d ∈ (f.perpxResearchFetcher chains).Resolved ∧
              PERPXChain d ∈ (f.perpxResearchFetcher chains).UnResolved))
    (hfetch : f.Fetch d chains = .ok r)
    (hrr : r.Resolved.lookup (PERPXChain d) = some rr) :
    ∃ (pr : MarketMapResult) (pv : mmtypes.MarketMapResponse) (mm : MarketMap),
      PERPXChain d ∉ (f.perpxMainnetFetcher chains).UnResolved ∧
      PERPXChain d ∉ (f.perpxResearchFetcher chains).UnResolved ∧
      (f.perpxMainnetFetcher chains).Resolved.lookup (PERPXChain d) = some pr ∧
      pr.Value = some pv ∧
      combinedMarketMap d f.isCMCOnly pv.MarketMap
        ((f.perpxResearchFetcher chains).Resolved.lookup (PERPXChain d)) = .ok mm ∧
      d.ValidateBasic mm = none ∧
      rr = { pr with Value := some { pv with MarketMap := mm } } := by
  by_cases hpu : PERPXChain d ∈ (f.perpxMainnetFetcher chains).UnResolved
  · rw [Fetch_mainnet_unresolved d f chains hpu] at hfetch
    simp only [Except.ok.injEq] at hfetch
    subst hfetch
    exact absurd ⟨AList.lookup_isSome.mp (by rw [hrr]; rfl), hpu⟩ hp
  · by_cases hsu : PERPXChain d ∈ (f.perpxResearchFetcher chains).UnResolved
    · rw [Fetch_research_unresolved d f chains hpu hsu] at hfetch
      simp only [Except.ok.injEq] at hfetch
      subst hfetch
      exact absurd ⟨AList.lookup_isSome.mp (by rw [hrr]; rfl), hsu⟩ hs
    · cases hpr : (f.perpxMainnetFetcher chains).Resolved.lookup (PERPXChain d) with
      | none =>
        rw [mem_iff_lookup_isSome] at hpu hsu
        simp [MultiMarketMapRestAPIFetcher.Fetch, hpu, hsu, hpr] at hfetch
      | some pr =>
        cases hpv : pr.Value with
        | none =>
          rw [mem_iff_lookup_isSome] at hpu hsu
          simp [MultiMarketMapRestAPIFetcher.Fetch, hpu, hsu, hpr, hpv] at hfetch
        | some pv =>
          cases hmm : combinedMarketMap d f.isCMCOnly pv.MarketMap
              ((f.perpxResearchFetcher chains).Resolved.lookup (PERPXChain d)) with
          | error p =>
            rw [mem_iff_lookup_isSome] at hpu hsu
            simp [MultiMarketMapRestAPIFetcher.Fetch, hpu, hsu, hpr, hpv, hmm] at hfetch
          | ok mm =>
            rw [Fetch_combined d f chains pr pv mm hpu hsu hpr hpv hmm] at hfetch
            cases hv : d.ValidateBasic mm with
            | some err =>
              rw [hv] at hfetch
              simp only [Except.ok.injEq] at hfetch
              subst hfetch
              rw [NewMarketMapResponseWithErr_Resolved, AList.lookup_empty] at hrr
              exact absurd hrr (by simp)
            | none =>
              rw [hv] at hfetch
              simp only [Except.ok.injEq] at hfetch
              subst hfetch
              have hin : PERPXChain d ∈ (f.perpxMainnetFetcher chains).Resolved :=
                AList.lookup_isSome.mp (by rw [hpr]; rfl)
              have hl := lookup_replace_self (PERPXChain d)
                ({ pr with Value := some { pv with MarketMap := mm } } : MarketMapResult)
                (f.perpxMainnetFetcher chains).Resolved hin
              have hrr2 : ((f.perpxMainnetFetcher chains).Resolved.replace (PERPXChain d)
                  { pr with Value := some { pv with MarketMap := mm } }).lookup (PERPXChain d)
                    = some rr := hrr
              rw [hl] at hrr2
              simp only [Option.some.injEq] at hrr2
              exact ⟨pr, pv, mm, hpu, hsu, rfl, hpv, hmm, hv, hrr2.symm⟩

/-- A filtered market has the ticker metadata of the market it comes from, with quorum 1. -/
theorem filteredMarket_ticker (d : Deps) (t : String) (m0 m : Market)
    (h : filteredMarket d t m0 = some m) :
    m.Ticker = { m0.Ticker with MinProviderCount := 1 } := by
  unfold filteredMarket at h
  simp only at h
  split at h
  · simp only [Option.some.injEq] at h
    subst h
    rfl
  · split at h
    · simp at h
    · simp only [Option.some.injEq] at h
      subst h
      rfl

/-- The combined market map in filter mode: the merge is computed first, and the filter pass
leaves under every ticker the filtered market of the merged market. -/
theorem combinedMarketMap_true_lookup (d : Deps) (pm mm : MarketMap)
    (research : Option MarketMapResult)
    (hmm : combinedMarketMap d true pm research = .ok mm) :
    ∃ merged, mergedMarketMap pm research = .ok merged ∧
      ∀ t, mapIndex mm.Markets t = (mapIndex merged.Markets t).bind (filteredMarket d t) := by
  rw [combinedMarketMap_eq] at hmm
  cases hmerged : mergedMarketMap pm research with
  | error p => rw [hmerged] at hmm; simp at hmm
  | ok merged =>
    rw [hmerged] at hmm
    simp only [if_true] at hmm
    exact ⟨merged, rfl, fun t => filterCMCMarkets_lookup d merged mm hmm t⟩

/-! ## The aggregator: the reference filter -/

/-- C11: in filter mode (`isCMCOnly` set), when each constituent lists the perpx chain in at most
one of Resolved and UnResolved, every market of the market map in a Resolved entry for the
perpx chain that `Fetch` returns has `MinProviderCount` 1, and its currency pair, decimals and
enabled flag are those of the merged market under the same ticker. -/
theorem C11_filter_forces_quorum_one (d : Deps) (f : MultiMarketMapRestAPIFetcher)
    (chains : List Chain) (r : mmclient.MarketMapResponse) (rr : MarketMapResult)
    (hflag : f.isCMCOnly = true)
    (hp : ¬ (PERPXChain d ∈ (f.perpxMainnetFetcher chains).Resolved ∧
              PERPXChain d ∈ (f.perpxMainnetFetcher chains).UnResolved))
    (hs : ¬ (PERPXChain d ∈ (f.perpxResearchFetcher chains).Resolved ∧
              PERPXChain d ∈ (f.perpxResearchFetcher chains).UnResolved))
    (hfetch : f.Fetch d chains = .ok r)
    (hrr : r.Resolved.lookup (PERPXChain d) = some rr) :
    ∃ (pr : MarketMapResult) (pv rv : mmtypes.MarketMapResponse) (merged : MarketMap),
      (f.perpxMainnetFetcher chains).Resolved.lookup (PERPXChain d) = some pr ∧
      pr.Value = some pv ∧
      mergedMarketMap pv.MarketMap
        ((f.perpxResearchFetcher chains).Resolved.lookup (PERPXChain d)) = .ok merged ∧
      rr.Value = some rv ∧
      ∀ (t : String) (m : Market), mapIndex rv.MarketMap.Markets t = some m →
        m.Ticker.MinProviderCount = 1 ∧
        ∃ m0, mapIndex merged.Markets t = some m0 ∧
          m.Ticker.CurrencyPair = m0.Ticker.CurrencyPair ∧
          m.Ticker.Decimals = m0.Ticker.Decimals ∧
          m.Ticker.Enabled = m0.Ticker.Enabled := by
  obtain ⟨pr, pv, mm, _, _, hpr, hpv, hmm, _, hrreq⟩ :=
    Fetch_resolved_inv d f chains r rr hp hs hfetch hrr
  rw [hflag] at hmm
  obtain ⟨merged, hmerged, hlook⟩ := combinedMarketMap_true_lookup d pv.MarketMap mm _ hmm
  refine ⟨pr, pv, { pv with MarketMap := mm }, merged, hpr, hpv, hmerged, by rw [hrreq], ?_⟩
  intro t m hm
  have hm2 : mapIndex mm.Markets t = some m := hm
  rw [hlook t] at hm2
  cases hm0 : mapIndex merged.Markets t with
  | none => rw [hm0] at hm2; simp at hm2
  | some m0 =>
    rw [hm0] at hm2
    have hticker := filteredMarket_ticker d t m0 m hm2
    refine ⟨by rw [hticker], m0, rfl, by rw [hticker], by rw [hticker], by rw [hticker]⟩

/-- C11 on the filter example: ETH/USD declares quorum 3 and SOL/USD quorum 2 in the research
response, and both have quorum 1 in the market map that `Fetch` returns. -/
theorem C11_witness :
    Examples.fetcherCMC.Fetch Examples.deps [PERPXChain Examples.deps] =
        .ok (Examples.resolvedWith Examples.solAndEthFiltered 100) ∧
      ∃ (pr : MarketMapResult) (pv rv : mmtypes.MarketMapResponse) (merged : MarketMap),
        (Examples.fetcherCMC.perpxMainnetFetcher [PERPXChain Examples.deps]).Resolved.lookup
          (PERPXChain Examples.deps) = some pr ∧
        pr.Value = some pv ∧
        mergedMarketMap pv.MarketMap
          ((Examples.fetcherCMC.perpxResearchFetcher [PERPXChain Examples.deps]).Resolved.lookup
            (PERPXChain Examples.deps)) = .ok merged ∧
        (NewMarketMapResult (some (Examples.payload Examples.solAndEthFiltered)) 100).Value = some rv ∧
        ∀ (t : String) (m : Market), mapIndex rv.MarketMap.Markets t = some m →
          m.Ticker.MinProviderCount = 1 ∧
          ∃ m0, mapIndex merged.Markets t = some m0 ∧
            m.Ticker.CurrencyPair = m0.Ticker.CurrencyPair ∧
            m.Ticker.Decimals = m0.Ticker.Decimals ∧
            m.Ticker.Enabled = m0.Ticker.Enabled :=
  ⟨rfl,
   C11_filter_forces_quorum_one Examples.deps Examples.fetcherCMC [PERPXChain Examples.deps]
     (Examples.resolvedWith Examples.solAndEthFiltered 100)
     (NewMarketMapResult (some (Examples.payload Examples.solAndEthFiltered)) 100)
     rfl (by decide) (by decide) rfl rfl⟩

end perpx

namespace perpx

open providertypes mmtypes mmclient

/-- C12: in filter mode, a merged market that carries a provider entry named
`coinmarketcap.Name` is in the market map that `Fetch` returns, whether or not its ticker is
in the reference catalog, and its provider list there is exactly one entry: the entry of that
name of its own list (the last one, should the list name it more than once). -/
theorem C12_reference_entry_kept_and_narrowed (d : Deps) (f : MultiMarketMapRestAPIFetcher)
    (chains : List Chain) (pr : MarketMapResult) (pv : mmtypes.MarketMapResponse)
    (merged mm : MarketMap) (t : String) (m0 : Market)
    (hflag : f.isCMCOnly = true)
    (hpu : PERPXChain d ∉ (f.perpxMainnetFetcher chains).UnResolved)
    (hsu : PERPXChain d ∉ (f.perpxResearchFetcher chains).UnResolved)
    (hpr : (f.perpxMainnetFetcher chains).Resolved.lookup (PERPXChain d) = some pr)
    (hpv : pr.Value = some pv)
    (hmerged : mergedMarketMap pv.MarketMap
      ((f.perpxResearchFetcher chains).Resolved.lookup (PERPXChain d)) = .ok merged)
    (hm0 : mapIndex merged.Markets t = some m0)
    (hcmc : ∃ q ∈ m0.ProviderConfigs, q.Name = d.coinmarketcapName)
    (hmm : combinedMarketMap d true pv.MarketMap
      ((f.perpxResearchFetcher chains).Resolved.lookup (PERPXChain d)) = .ok mm)
    (hvalid : d.ValidateBasic mm = none) :
    ∃ r rr rv m p, f.Fetch d chains = .ok r ∧
      r.Resolved.lookup (PERPXChain d) = some rr ∧ rr.Value = some rv ∧
      mapIndex rv.MarketMap.Markets t = some m ∧
      m.ProviderConfigs = [p] ∧ p ∈ m0.ProviderConfigs ∧ p.Name = d.coinmarketcapName ∧
      (m0.ProviderConfigs.filter (fun q => decide (q.Name = d.coinmarketcapName))).getLast?
        = some p := by
  have hrun := Fetch_combined d f chains pr pv mm hpu hsu hpr hpv (by rw [hflag]; exact hmm)
  rw [hvalid] at hrun
  obtain ⟨merged2, hmerged2, hlook⟩ := combinedMarketMap_true_lookup d pv.MarketMap mm _ hmm
  rw [hmerged] at hmerged2
  simp only [Except.ok.injEq] at hmerged2
  subst hmerged2
  have hl := hlook t
  rw [hm0] at hl
  cases hscan : scanCMC d.coinmarketcapName m0.ProviderConfigs none with
  | none =>
    obtain ⟨q, hq, hname⟩ := hcmc
    exact absurd hname ((scanCMC_none _ _).mp hscan q hq)
  | some p =>
    have hp := scanCMC_some _ _ _ hscan
    have hlast := hscan
    rw [scanCMC_eq] at hlast
    refine ⟨_, { pr with Value := some { pv with MarketMap := mm } },
      { pv with MarketMap := mm },
      { Ticker := { m0.Ticker with MinProviderCount := 1 }, ProviderConfigs := [p] }, p,
      hrun, ?_, rfl, ?_, rfl, hp.1, hp.2, ?_⟩
    · exact lookup_replace_self _ _ _ (AList.lookup_isSome.mp (by rw [hpr]; rfl))
    · show mapIndex mm.Markets t = _
      rw [hl]
      simp [filteredMarket, hscan]
    · cases hg : (m0.ProviderConfigs.filter
          (fun q => decide (q.Name = d.coinmarketcapName))).getLast? with
      | none => rw [hg] at hlast; simp at hlast
      | some p2 => rw [hg] at hlast; exact hlast

/-- C12 on the filter example: SOL/USD is not in the catalog and carries a CMC provider, and it
is in the result with that provider alone. -/
theorem C12_witness :
    ∃ r rr rv m p, Examples.fetcherCMC.Fetch Examples.deps [PERPXChain Examples.deps] = .ok r ∧
      r.Resolved.lookup (PERPXChain Examples.deps) = some rr ∧ rr.Value = some rv ∧
      mapIndex rv.MarketMap.Markets "SOL/USD" = some m ∧
      m.ProviderConfigs = [p] ∧ p ∈ Examples.solMarket.ProviderConfigs ∧
      p.Name = Examples.deps.coinmarketcapName ∧
      (Examples.solMarket.ProviderConfigs.filter
        (fun q => decide (q.Name = Examples.deps.coinmarketcapName))).getLast? = some p :=
  C12_reference_entry_kept_and_narrowed Examples.deps Examples.fetcherCMC
    [PERPXChain Examples.deps]
    (NewMarketMapResult (some (Examples.payload Examples.btcOnly)) 100)
    (Examples.payload Examples.btcOnly)
    { Markets := some Examples.mergedBtcEthSol } { Markets := some Examples.solAndEthFiltered }
    "SOL/USD" Examples.solMarket
    rfl (by decide) (by decide) rfl rfl rfl rfl
    ⟨{ Name := "coinmarketcap_api", OffChainTicker := "5426" }, by decide, rfl⟩ rfl rfl

/-- C13: in filter mode, a merged market with no provider entry named `coinmarketcap.Name` is in
the market map that `Fetch` returns exactly when its ticker is a key of the reference catalog,
and then its provider list is the provider list of the catalog for that ticker. -/
theorem C13_catalog_decides_markets_without_reference_entry (d : Deps)
    (f : MultiMarketMapRestAPIFetcher) (chains : List Chain) (pr : MarketMapResult)
    (pv : mmtypes.MarketMapResponse) (merged mm : MarketMap) (t : String) (m0 : Market)
    (hflag : f.isCMCOnly = true)
    (hpu : PERPXChain d ∉ (f.perpxMainnetFetcher chains).UnResolved)
    (hsu : PERPXChain d ∉ (f.perpxResearchFetcher chains).UnResolved)
    (hpr : (f.perpxMainnetFetcher chains).Resolved.lookup (PERPXChain d) = some pr)
    (hpv : pr.Value = some pv)
    (hmerged : mergedMarketMap pv.MarketMap
      ((f.perpxResearchFetcher chains).Resolved.lookup (PERPXChain d)) = .ok merged)
    (hm0 : mapIndex merged.Markets t = some m0)
    (hnocmc : ∀ q ∈ m0.ProviderConfigs, q.Name ≠ d.coinmarketcapName)
    (hmm : combinedMarketMap d true pv.MarketMap
      ((f.perpxResearchFetcher chains).Resolved.lookup (PERPXChain d)) = .ok mm)
    (hvalid : d.ValidateBasic mm = none) :
    ∃ r rr rv, f.Fetch d chains = .ok r ∧
      r.Resolved.lookup (PERPXChain d) = some rr ∧ rr.Value = some rv ∧
      ((mapIndex rv.MarketMap.Markets t).isSome = true ↔
        (mapIndex d.CoinMarketCapMarketMap.Markets t).isSome = true) ∧
      (mapIndex d.CoinMarketCapMarketMap.Markets t = none →
        mapIndex rv.MarketMap.Markets t = none) ∧
      ∀ cmcMarket, mapIndex d.CoinMarketCapMarketMap.Markets t = some cmcMarket →
        ∃ m, mapIndex rv.MarketMap.Markets t = some m ∧
          m.ProviderConfigs = cmcMarket.ProviderConfigs := by
  have hrun := Fetch_combined d f chains pr pv mm hpu hsu hpr hpv (by rw [hflag]; exact hmm)
  rw [hvalid] at hrun
  obtain ⟨merged2, hmerged2, hlook⟩ := combinedMarketMap_true_lookup d pv.MarketMap mm _ hmm
  rw [hmerged] at hmerged2
  simp only [Except.ok.injEq] at hmerged2
  subst hmerged2
  have hl := hlook t
  rw [hm0] at hl
  have hscan := (scanCMC_none d.coinmarketcapName m0.ProviderConfigs).mpr hnocmc
  refine ⟨_, { pr with Value := some { pv with MarketMap := mm } },
    { pv with MarketMap := mm }, hrun, ?_, rfl, ?_, ?_, ?_⟩
  · exact lookup_replace_self _ _ _ (AList.lookup_isSome.mp (by rw [hpr]; rfl))
  · show (mapIndex mm.Markets t).isSome = true ↔ _
    rw [hl]
    cases hcat : mapIndex d.CoinMarketCapMarketMap.Markets t <;>
      simp [filteredMarket, hscan, hcat]
  · intro hcat
    show mapIndex mm.Markets t = none
    rw [hl]
    simp [filteredMarket, hscan, hcat]
  · intro cmcMarket hcat
    refine ⟨{ Ticker := { m0.Ticker with MinProviderCount := 1 },
              ProviderConfigs := cmcMarket.ProviderConfigs }, ?_, rfl⟩
    show mapIndex mm.Markets t = _
    rw [hl]
    simp [filteredMarket, hscan, hcat]

/-- C13 on the filter example, at ETH/USD: the research market has no CMC provider, the catalog
has the ticker, and the result holds the market with the provider list of the catalog. -/
theorem C13_witness :
    ∃ r rr rv, Examples.fetcherCMC.Fetch Examples.deps [PERPXChain Examples.deps] = .ok r ∧
      r.Resolved.lookup (PERPXChain Examples.deps) = some rr ∧ rr.Value = some rv ∧
      ((mapIndex rv.MarketMap.Markets "ETH/USD").isSome = true ↔
        (mapIndex Examples.deps.CoinMarketCapMarketMap.Markets "ETH/USD").isSome = true) ∧
      (mapIndex Examples.deps.CoinMarketCapMarketMap.Markets "ETH/USD" = none →
        mapIndex rv.MarketMap.Markets "ETH/USD" = none) ∧
      ∀ cmcMarket, mapIndex Examples.deps.CoinMarketCapMarketMap.Markets "ETH/USD"
          = some cmcMarket →
        ∃ m, mapIndex rv.MarketMap.Markets "ETH/USD" = some m ∧
          m.ProviderConfigs = cmcMarket.ProviderConfigs :=
  C13_catalog_decides_markets_without_reference_entry Examples.deps Examples.fetcherCMC
    [PERPXChain Examples.deps]
    (NewMarketMapResult (some (Examples.payload Examples.btcOnly)) 100)
    (Examples.payload Examples.btcOnly)
    { Markets := some Examples.mergedBtcEthSol } { Markets := some Examples.solAndEthFiltered }
    "ETH/USD" Examples.ethQuorumMarket
    rfl (by decide) (by decide) rfl rfl rfl rfl (by decide) rfl rfl

end perpx

namespace perpx

open providertypes mmtypes mmclient

/-! ## The research handler: market params -/

/-- The result of `marketParamFromResearchJSONMarketParam` once the encoder returned the text
of the exchange configuration. -/
theorem marketParam_of_marshal (d : Deps) (x : Externals) (h : ResearchAPIHandler)
    (marketParam : perpxtypes.Params) (s : String)
    (hmarshal : x.marshalExchangeConfigJson
      (if h.onlyCMC = true then
        { Exchanges :=
            [{ ExchangeName := d.coinmarketcapName, Ticker := toString marketParam.CMCID }] }
       else { Exchanges := marketParam.ExchangeConfigJSON }) = .ok s) :
    h.marketParamFromResearchJSONMarketParam d x marketParam =
      .ok { Id := marketParam.ID
            Pair := marketParam.Pair
            Exponent := int32OfFloat64 marketParam.Exponent
            MinExchanges := if h.onlyCMC = true then 1 else marketParam.MinExchanges
            MinPriceChangePpm := marketParam.MinPriceChangePpm
            ExchangeConfigJson := s } := by
  cases hmode : h.onlyCMC <;>
    simp only [hmode, Bool.false_eq_true, if_false, if_true] at hmarshal <;>
    simp [ResearchAPIHandler.marketParamFromResearchJSONMarketParam, hmode, hmarshal]

/-- C14: in normal mode (`onlyCMC` false), for every research record for whose exchange list
the JSON encoder returns a text, `marketParamFromResearchJSONMarketParam` succeeds; the market
param has the id, the pair and the minimum price change of the record, `MinExchanges` is the
`min_exchanges` of the record, and `ExchangeConfigJson` is the text the encoder returned for the
exchange list of the record, so that a decoder that inverts the encoder on it yields the same
entries in the same order. -/
theorem C14_normal_mode_market_param (d : Deps) (x : Externals) (h : ResearchAPIHandler)
    (marketParam : perpxtypes.Params) (s : String)
    (unmarshal : String → Option perpxtypes.ExchangeConfigJson)
    (hmode : h.onlyCMC = false)
    (hmarshal : x.marshalExchangeConfigJson { Exchanges := marketParam.ExchangeConfigJSON }
      = .ok s)
    (hunmarshal : unmarshal s = some { Exchanges := marketParam.ExchangeConfigJSON }) :
    ∃ mp, h.marketParamFromResearchJSONMarketParam d x marketParam = .ok mp ∧
      mp.Id = marketParam.ID ∧ mp.Pair = marketParam.Pair ∧
      mp.MinPriceChangePpm = marketParam.MinPriceChangePpm ∧
      mp.MinExchanges = marketParam.MinExchanges ∧
      mp.ExchangeConfigJson = s ∧
      (unmarshal mp.ExchangeConfigJson).map (fun cfg => cfg.Exchanges)
        = some marketParam.ExchangeConfigJSON := by
  have hrun := marketParam_of_marshal d x h marketParam s (by simpa [hmode] using hmarshal)
  refine ⟨_, hrun, rfl, rfl, rfl, by simp [hmode], rfl, ?_⟩
  simp [hunmarshal]

/-- C14 on the research record of the tests, with the sample encoder and decoder. -/
theorem C14_witness :
    ∃ mp, Examples.researchHandler.marketParamFromResearchJSONMarketParam Examples.deps
        Examples.externals Examples.oneInchRecord = .ok mp ∧
      mp.Id = Examples.oneInchRecord.ID ∧ mp.Pair = Examples.oneInchRecord.Pair ∧
      mp.MinPriceChangePpm = Examples.oneInchRecord.MinPriceChangePpm ∧
      mp.MinExchanges = Examples.oneInchRecord.MinExchanges ∧
      mp.ExchangeConfigJson =
        "Binance:1INCHUSDT,CoinbasePro:1INCH-USD,Gate:1INCH_USDT,Kucoin:1INCH-USDT,Mexc:1INCH_USDT,Okx:1INCH-USDT" ∧
      (Examples.unmarshalExchangeConfigJson mp.ExchangeConfigJson).map
          (fun cfg => cfg.Exchanges) = some Examples.oneInchRecord.ExchangeConfigJSON :=
  C14_normal_mode_market_param Examples.deps Examples.externals Examples.researchHandler
    Examples.oneInchRecord
    "Binance:1INCHUSDT,CoinbasePro:1INCH-USD,Gate:1INCH_USDT,Kucoin:1INCH-USDT,Mexc:1INCH_USDT,Okx:1INCH-USDT"
    Examples.unmarshalExchangeConfigJson rfl rfl (by decide)

/-- C15: in reference-only mode (`onlyCMC` true), for every research record for whose single
CMC entry the JSON encoder returns a text, `marketParamFromResearchJSONMarketParam` returns a
market param with `MinExchanges` 1 whose `ExchangeConfigJson` is the text the encoder returned
for the exchange list with exactly one entry, named `coinmarketcap.Name`, with the decimal string
of the CMC id as ticker; the result is the same whatever exchange list and whatever
`min_exchanges` the record has. -/
theorem C15_reference_only_market_param (d : Deps) (x : Externals) (h : ResearchAPIHandler)
    (marketParam : perpxtypes.Params) (s : String)
    (hmode : h.onlyCMC = true)
    (hmarshal : x.marshalExchangeConfigJson
      { Exchanges :=
          [{ ExchangeName := d.coinmarketcapName, Ticker := toString marketParam.CMCID }] }
      = .ok s) :
    ∃ mp, h.marketParamFromResearchJSONMarketParam d x marketParam = .ok mp ∧
      mp.MinExchanges = 1 ∧ mp.ExchangeConfigJson = s ∧
      mp.Id = marketParam.ID ∧ mp.Pair = marketParam.Pair ∧
      mp.MinPriceChangePpm = marketParam.MinPriceChangePpm ∧
      ∀ (exchanges : List perpxtypes.ExchangeMarketConfigJson) (minExchanges : Nat),
        h.marketParamFromResearchJSONMarketParam d x
          { marketParam with ExchangeConfigJSON := exchanges, MinExchanges := minExchanges }
          = .ok mp := by
  have hrun := marketParam_of_marshal d x h marketParam s (by simpa [hmode] using hmarshal)
  refine ⟨_, hrun, by simp [hmode], rfl, rfl, rfl, rfl, ?_⟩
  intro exchanges minExchanges
  rw [marketParam_of_marshal d x h
    { marketParam with ExchangeConfigJSON := exchanges, MinExchanges := minExchanges } s
    (by simpa [hmode] using hmarshal)]
  simp [hmode]

/-- C15 on the research record of the tests, whose CMC id is 1: the single entry has the
ticker "1". -/
theorem C15_witness :
    toString Examples.oneInchRecord.CMCID = "1" ∧
    ∃ mp, Examples.researchCMCHandler.marketParamFromResearchJSONMarketParam Examples.deps
        Examples.externals Examples.oneInchRecord = .ok mp ∧
      mp.MinExchanges = 1 ∧ mp.ExchangeConfigJson = "coinmarketcap_api:1" ∧
      mp.Id = Examples.oneInchRecord.ID ∧ mp.Pair = Examples.oneInchRecord.Pair ∧
      mp.MinPriceChangePpm = Examples.oneInchRecord.MinPriceChangePpm ∧
      ∀ (exchanges : List perpxtypes.ExchangeMarketConfigJson) (minExchanges : Nat),
        Examples.researchCMCHandler.marketParamFromResearchJSONMarketParam Examples.deps
          Examples.externals
          { Examples.oneInchRecord with
            ExchangeConfigJSON := exchanges, MinExchanges := minExchanges } = .ok mp :=
  ⟨by decide,
   C15_reference_only_market_param Examples.deps Examples.externals Examples.researchCMCHandler
     Examples.oneInchRecord "coinmarketcap_api:1" rfl rfl⟩

/-- The loop of `researchJSONToQueryAllMarketsParamsResponse`, when the encoder returns a text
for every exchange configuration: it appends one market param for every record it does not
skip, in the order of the iteration. -/
theorem researchJSONLoop_ok (d : Deps) (x : Externals) (h : ResearchAPIHandler)
    (htotal : ∀ cfg, ∃ s, x.marshalExchangeConfigJson cfg = .ok s) :
    ∀ (l : List (Sigma fun _ : String => perpxtypes.Params))
      (resp : perpxtypes.QueryAllMarketParamsResponse),
      ∃ out, h.researchJSONLoop d x l resp = .ok { MarketParams := resp.MarketParams ++ out } ∧
        List.Forall₂
          (fun e mp => h.marketParamFromResearchJSONMarketParam d x e.2 = .ok mp)
          (l.filter (fun e => !(h.onlyCMC && decide (e.2.CMCID < 0)))) out
  | [], resp => ⟨[], by simp [ResearchAPIHandler.researchJSONLoop], by simp⟩
  | ⟨k, market⟩ :: rest, resp => by
    by_cases hskip : (h.onlyCMC && decide (market.CMCID < 0)) = true
    · obtain ⟨out, hrun, hall⟩ := researchJSONLoop_ok d x h htotal rest resp
      refine ⟨out, ?_, ?_⟩
      · simp only [ResearchAPIHandler.researchJSONLoop, hskip, if_true]
        exact hrun
      · have hneg : ¬ ((fun e : Sigma fun _ : String => perpxtypes.Params =>
            !(h.onlyCMC && decide (e.2.CMCID < 0))) ⟨k, market⟩ = true) := by
          show ¬ ((!(h.onlyCMC && decide (market.CMCID < 0))) = true)
          rw [hskip]
          simp
        have hf : List.filter (fun e : Sigma fun _ : String => perpxtypes.Params =>
            !(h.onlyCMC && decide (e.2.CMCID < 0))) (⟨k, market⟩ :: rest) =
            List.filter (fun e : Sigma fun _ : String => perpxtypes.Params =>
              !(h.onlyCMC && decide (e.2.CMCID < 0))) rest :=
          List.filter_cons_of_neg hneg
        rw [hf]
        exact hall
    · obtain ⟨s, hs⟩ := htotal
        (if h.onlyCMC = true then
          { Exchanges :=
              [{ ExchangeName := d.coinmarketcapName, Ticker := toString market.CMCID }] }
         else { Exchanges := market.ExchangeConfigJSON })
      obtain ⟨mp, hmp⟩ : ∃ mp, h.marketParamFromResearchJSONMarketParam d x market = .ok mp :=
        ⟨_, marketParam_of_marshal d x h market s hs⟩
      obtain ⟨out, hrun, hall⟩ := researchJSONLoop_ok d x h htotal rest
        { MarketParams := resp.MarketParams ++ [mp] }
      refine ⟨mp :: out, ?_, ?_⟩
      · simp only [ResearchAPIHandler.researchJSONLoop, hskip, hmp]
        simp only [Bool.false_eq_true, if_false]
        rw [hrun]
        simp
      · have hkeep : (fun e : Sigma fun _ : String => perpxtypes.Params =>
            !(h.onlyCMC && decide (e.2.CMCID < 0))) ⟨k, market⟩ = true := by
          show (!(h.onlyCMC && decide (market.CMCID < 0))) = true
          cases hb : (h.onlyCMC && decide (market.CMCID < 0))
          · rfl
          · exact absurd hb hskip
        have hf : List.filter (fun e : Sigma fun _ : String => perpxtypes.Params =>
            !(h.onlyCMC && decide (e.2.CMCID < 0))) (⟨k, market⟩ :: rest) =
            ⟨k, market⟩ :: List.filter (fun e : Sigma fun _ : String => perpxtypes.Params =>
              !(h.onlyCMC && decide (e.2.CMCID < 0))) rest :=
          List.filter_cons_of_pos hkeep
        rw [hf]
        exact List.Forall₂.cons hmp hall

/-- C16: for every vendor document, when the JSON encoder returns a text for every exchange
configuration, `researchJSONToQueryAllMarketsParamsResponse` returns no error; in
reference-only mode its market params are, one for one and in the order of the iteration, those
of the records with a non-negative CMC id, and in normal mode those of all the records. -/
theorem C16_one_market_param_per_kept_record (d : Deps) (x : Externals)
    (h : ResearchAPIHandler) (research : perpxtypes.ResearchJSON)
    (htotal : ∀ cfg, ∃ s, x.marshalExchangeConfigJson cfg = .ok s) :
    ∃ resp, h.researchJSONToQueryAllMarketsParamsResponse d x research = .ok resp ∧
      (h.onlyCMC = true →
        List.Forall₂
          (fun e mp => h.marketParamFromResearchJSONMarketParam d x e.2 = .ok mp)
          (research.entries.filter (fun e => decide (0 ≤ e.2.CMCID))) resp.MarketParams ∧
        resp.MarketParams.length =
          (research.entries.filter (fun e => decide (0 ≤ e.2.CMCID))).length) ∧
      (h.onlyCMC = false →
        List.Forall₂
          (fun e mp => h.marketParamFromResearchJSONMarketParam d x e.2 = .ok mp)
          research.entries resp.MarketParams ∧
        resp.MarketParams.length = research.entries.length) := by
  obtain ⟨out, hrun, hall⟩ := researchJSONLoop_ok d x h htotal research.entries
    { MarketParams := [] }
  refine ⟨{ MarketParams := out }, by
    simpa [ResearchAPIHandler.researchJSONToQueryAllMarketsParamsResponse] using hrun, ?_, ?_⟩
  · intro hmode
    have hfilter : research.entries.filter (fun e => !(h.onlyCMC && decide (e.2.CMCID < 0)))
        = research.entries.filter (fun e => decide (0 ≤ e.2.CMCID)) := by
      apply List.filter_congr
      intro e _
      rw [hmode]
      by_cases hlt : e.2.CMCID < 0
      · have hnle : ¬ 0 ≤ e.2.CMCID := not_le.mpr hlt
        simp [hlt, hnle]
      · have hle : 0 ≤ e.2.CMCID := not_lt.mp hlt
        simp [hlt, hle]
    rw [hfilter] at hall
    exact ⟨hall, hall.length_eq.symm⟩
  · intro hmode
    have hfilter : research.entries.filter (fun e => !(h.onlyCMC && decide (e.2.CMCID < 0)))
        = research.entries := by
      simp [hmode]
    rw [hfilter] at hall
    exact ⟨hall, hall.length_eq.symm⟩

/-- C16 on the document with a record with the CMC id 1 and a record without a CMC id: one
market param in reference-only mode. -/
theorem C16_witness :
    ∃ resp, Examples.researchCMCHandler.researchJSONToQueryAllMarketsParamsResponse
        Examples.deps Examples.externals Examples.researchDocument = .ok resp ∧
      (Examples.researchCMCHandler.onlyCMC = true →
        List.Forall₂
          (fun e mp => Examples.researchCMCHandler.marketParamFromResearchJSONMarketParam
            Examples.deps Examples.externals e.2 = .ok mp)
          (Examples.researchDocument.entries.filter (fun e => decide (0 ≤ e.2.CMCID)))
          resp.MarketParams ∧
        resp.MarketParams.length =
          (Examples.researchDocument.entries.filter (fun e => decide (0 ≤ e.2.CMCID))).length) ∧
      (Examples.researchCMCHandler.onlyCMC = false →
        List.Forall₂
          (fun e mp => Examples.researchCMCHandler.marketParamFromResearchJSONMarketParam
            Examples.deps Examples.externals e.2 = .ok mp)
          Examples.researchDocument.entries resp.MarketParams ∧
        resp.MarketParams.length = Examples.researchDocument.entries.length) :=
  C16_one_market_param_per_kept_record Examples.deps Examples.externals
    Examples.researchCMCHandler Examples.researchDocument (fun _ => ⟨_, rfl⟩)

/-! ## The research handler: the url -/

/-- C17: for a handler that `NewResearchAPIHandler` built from an API config, `CreateURL`
returns the URL of the endpoint at index 1 of that config and no error when the list of chains
contains the perpx chain, and the empty string and an error when it does not. -/
theorem C17_create_url (c : HandlerDeps) (d : Deps) (api : config.APIConfig)
    (h : ResearchAPIHandler) (chains : List Chain)
    (hnew : NewResearchAPIHandler c api = .ok (.ok h)) :
    (PERPXChain d ∈ chains →
      ∃ endpoint, api.Endpoints[1]? = some endpoint ∧
        h.CreateURL d chains = (endpoint.URL, none)) ∧
    (PERPXChain d ∉ chains → ∃ err, h.CreateURL d chains = ("", some err)) := by
  have hurl : ∃ endpoint, api.Endpoints[1]? = some endpoint ∧ h.url = endpoint.URL := by
    unfold NewResearchAPIHandler at hnew
    split at hnew
    · simp at hnew
    · split at hnew
      · simp at hnew
      · split at hnew
        · simp at hnew
        · split at hnew
          · simp at hnew
          · rename_i endpoint hendpoint
            simp only [Except.ok.injEq] at hnew
            subst hnew
            exact ⟨endpoint, hendpoint, rfl⟩
  constructor
  · intro hmem
    obtain ⟨endpoint, hendpoint, hu⟩ := hurl
    refine ⟨endpoint, hendpoint, ?_⟩
    cases hc : arrays.CheckEntryInArray ({ ChainID := d.ChainID } : Chain) chains with
    | none => exact absurd hmem ((arrays.CheckEntryInArray_eq_none _ _).mp hc)
    | some chain => simp only [ResearchAPIHandler.CreateURL, hc, hu]
  · intro hno
    have hc := (arrays.CheckEntryInArray_eq_none (PERPXChain d) chains).mpr hno
    unfold PERPXChain at hc
    exact ⟨_, by simp only [ResearchAPIHandler.CreateURL, hc]; rfl⟩

/-- C17 on the second case of `TestCreateURLResearchHandler`: the perpx chain after another
chain, and a handler built from a config with two endpoints. -/
theorem C17_witness :
    NewResearchAPIHandler Examples.handlerDeps Examples.researchAPIConfig
        = .ok (.ok Examples.researchHandler) ∧
      Examples.researchHandler.CreateURL Examples.deps
        [Examples.osmosis, PERPXChain Examples.deps] = ("research", none) ∧
      (PERPXChain Examples.deps ∈ [Examples.osmosis, PERPXChain Examples.deps] →
        ∃ endpoint, Examples.researchAPIConfig.Endpoints[1]? = some endpoint ∧
          Examples.researchHandler.CreateURL Examples.deps
            [Examples.osmosis, PERPXChain Examples.deps] = (endpoint.URL, none)) ∧
      (PERPXChain Examples.deps ∉ [Examples.osmosis, PERPXChain Examples.deps] →
        ∃ err, Examples.researchHandler.CreateURL Examples.deps
          [Examples.osmosis, PERPXChain Examples.deps] = ("", some err)) :=
  ⟨rfl, rfl,
   C17_create_url Examples.handlerDeps Examples.deps Examples.researchAPIConfig
     Examples.researchHandler [Examples.osmosis, PERPXChain Examples.deps] rfl⟩

end perpx

/-! ## Ticker metadata: encoding and decoding

`json.Unmarshal` reads back what `json.Marshal` wrote for a `Perpx` whose strings are valid
UTF-8: rune by rune for a string, digit by digit for a number, and member by member for the
objects, first as a JSON value (`read_encode`) and then as the struct
(`unmarshal_toValue_perpx`).  A string that is no valid UTF-8 does not come back. -/

namespace utf8

theorem DecodeRune_cases (p0 : Nat) (rest : Bytes) :
    (p0 < 0x80 ∧ DecodeRune (p0 :: rest) = (p0, 1)) ∨
    (0x80 ≤ p0 ∧ DecodeRune (p0 :: rest) = (RuneError, 1)) ∨
    (∃ b1 rest1, rest = b1 :: rest1 ∧ 0xC2 ≤ p0 ∧ p0 ≤ 0xDF ∧ 0x80 ≤ b1 ∧ b1 ≤ 0xBF ∧
      DecodeRune (p0 :: rest) = ((p0 % 32) * 64 + b1 % 64, 2)) ∨
    (∃ b1 b2 rest2, rest = b1 :: b2 :: rest2 ∧ 0xE0 ≤ p0 ∧ p0 ≤ 0xEF ∧
      (p0 = 0xE0 → 0xA0 ≤ b1) ∧ (p0 = 0xED → b1 ≤ 0x9F) ∧ 0x80 ≤ b1 ∧ b1 ≤ 0xBF ∧
      0x80 ≤ b2 ∧ b2 ≤ 0xBF ∧
      DecodeRune (p0 :: rest) = ((p0 % 16) * 4096 + (b1 % 64) * 64 + b2 % 64, 3)) ∨
    (∃ b1 b2 b3 rest3, rest = b1 :: b2 :: b3 :: rest3 ∧ 0xF0 ≤ p0 ∧ p0 ≤ 0xF4 ∧
      (p0 = 0xF0 → 0x90 ≤ b1) ∧ (p0 = 0xF4 → b1 ≤ 0x8F) ∧ 0x80 ≤ b1 ∧ b1 ≤ 0xBF ∧
      0x80 ≤ b2 ∧ b2 ≤ 0xBF ∧ 0x80 ≤ b3 ∧ b3 ≤ 0xBF ∧
      DecodeRune (p0 :: rest) =
        ((p0 % 8) * 262144 + (b1 % 64) * 4096 + (b2 % 64) * 64 + b3 % 64, 4)) := by
  by_cases h0 : p0 < 0x80
  · exact Or.inl ⟨h0, by simp [DecodeRune, h0]⟩
  · by_cases h1 : p0 < 0xC2 ∨ 0xF4 < p0
    · exact Or.inr (Or.inl ⟨by omega, by simp [DecodeRune, h0, h1]⟩)
    · cases rest with
      | nil => exact Or.inr (Or.inl ⟨by omega, by simp [DecodeRune, h0, h1]⟩)
      | cons b1 rest1 =>
        by_cases hb1 : b1 < (if p0 = 0xE0 then 0xA0 else if p0 = 0xF0 then 0x90 else 0x80) ∨
            (if p0 = 0xED then 0x9F else if p0 = 0xF4 then 0x8F else 0xBF) < b1
        · exact Or.inr (Or.inl ⟨by omega, by simp [DecodeRune, h0, h1, hb1]⟩)
        · by_cases h2 : p0 < 0xE0
          · refine Or.inr (Or.inr (Or.inl ⟨b1, rest1, rfl, by omega, by omega, ?_, ?_, ?_⟩))
            · split_ifs at hb1 <;> omega
            · split_ifs at hb1 <;> omega
            · simp [DecodeRune, h0, h1, hb1, h2]
          · cases rest1 with
            | nil => exact Or.inr (Or.inl ⟨by omega, by simp [DecodeRune, h0, h1, hb1, h2]⟩)
            | cons b2 rest2 =>
              by_cases hb2 : b2 < 0x80 ∨ 0xBF < b2
              · exact Or.inr (Or.inl ⟨by omega, by simp [DecodeRune, h0, h1, hb1, h2, hb2]⟩)
              · by_cases h3 : p0 < 0xF0
                · refine Or.inr (Or.inr (Or.inr (Or.inl ⟨b1, b2, rest2, rfl, by omega, by omega,
                    ?_, ?_, ?_, ?_, by omega, by omega, ?_⟩)))
                  · intro h; split_ifs at hb1 <;> omega
                  · intro h; split_ifs at hb1 <;> omega
                  · split_ifs at hb1 <;> omega
                  · split_ifs at hb1 <;> omega
                  · simp [DecodeRune, h0, h1, hb1, h2, hb2, h3]
                · cases rest2 with
                  | nil =>
                    exact Or.inr (Or.inl ⟨by omega,
                      by simp [DecodeRune, h0, h1, hb1, h2, hb2, h3]⟩)
                  | cons b3 rest3 =>
                    by_cases hb3 : b3 < 0x80 ∨ 0xBF < b3
                    · exact Or.inr (Or.inl ⟨by omega,
                        by simp [DecodeRune, h0, h1, hb1, h2, hb2, h3, hb3]⟩)
                    · refine Or.inr (Or.inr (Or.inr (Or.inr ⟨b1, b2, b3, rest3, rfl, by omega,
                        by omega, ?_, ?_, ?_, ?_, by omega, by omega, by omega, by omega, ?_⟩)))
                      · intro h; split_ifs at hb1 <;> omega
                      · intro h; split_ifs at hb1 <;> omega
                      · split_ifs at hb1 <;> omega
                      · split_ifs at hb1 <;> omega
                      · simp [DecodeRune, h0, h1, hb1, h2, hb2, h3, hb3]

theorem EncodeRune_two (p0 b1 : Nat) (h1 : 0xC2 ≤ p0) (h2 : p0 ≤ 0xDF) (h3 : 0x80 ≤ b1)
    (h4 : b1 ≤ 0xBF) : EncodeRune ((p0 % 32) * 64 + b1 % 64) = [p0, b1] := by
  unfold EncodeRune
  have ha : ¬ ((p0 % 32) * 64 + b1 % 64 ≤ 0x7F) := by omega
  have hb : (p0 % 32) * 64 + b1 % 64 ≤ 0x7FF := by omega
  rw [if_neg ha, if_pos hb]
  have e1 : 0xC0 + ((p0 % 32) * 64 + b1 % 64) / 64 = p0 := by omega
  have e2 : 0x80 + ((p0 % 32) * 64 + b1 % 64) % 64 = b1 := by omega
  rw [e1, e2]

theorem EncodeRune_three (p0 b1 b2 : Nat) (h1 : 0xE0 ≤ p0) (h2 : p0 ≤ 0xEF)
    (ha0 : p0 = 0xE0 → 0xA0 ≤ b1) (had : p0 = 0xED → b1 ≤ 0x9F)
    (h3 : 0x80 ≤ b1) (h4 : b1 ≤ 0xBF) (h5 : 0x80 ≤ b2) (h6 : b2 ≤ 0xBF) :
    EncodeRune ((p0 % 16) * 4096 + (b1 % 64) * 64 + b2 % 64) = [p0, b1, b2] := by
  unfold EncodeRune
  have ha : ¬ ((p0 % 16) * 4096 + (b1 % 64) * 64 + b2 % 64 ≤ 0x7F) := by
    by_cases h : p0 = 0xE0
    · have := ha0 h
      omega
    · omega
  have hb : ¬ ((p0 % 16) * 4096 + (b1 % 64) * 64 + b2 % 64 ≤ 0x7FF) := by
    by_cases h : p0 = 0xE0
    · have := ha0 h
      omega
    · omega
  have hc : ¬ (0x10FFFF < (p0 % 16) * 4096 + (b1 % 64) * 64 + b2 % 64 ∨
      (0xD800 ≤ (p0 % 16) * 4096 + (b1 % 64) * 64 + b2 % 64 ∧
        (p0 % 16) * 4096 + (b1 % 64) * 64 + b2 % 64 ≤ 0xDFFF)) := by
    by_cases h : p0 = 0xED
    · have := had h
      omega
    · omega
  have hd : (p0 % 16) * 4096 + (b1 % 64) * 64 + b2 % 64 ≤ 0xFFFF := by omega
  rw [if_neg ha, if_neg hb, if_neg hc, if_pos hd]
  have e1 : 0xE0 + ((p0 % 16) * 4096 + (b1 % 64) * 64 + b2 % 64) / 4096 = p0 := by omega
  have e2 : 0x80 + ((p0 % 16) * 4096 + (b1 % 64) * 64 + b2 % 64) / 64 % 64 = b1 := by omega
  have e3 : 0x80 + ((p0 % 16) * 4096 + (b1 % 64) * 64 + b2 % 64) % 64 = b2 := by omega
  rw [e1, e2, e3]

theorem EncodeRune_four (p0 b1 b2 b3 : Nat) (h1 : 0xF0 ≤ p0) (h2 : p0 ≤ 0xF4)
    (hf0 : p0 = 0xF0 → 0x90 ≤ b1) (hf4 : p0 = 0xF4 → b1 ≤ 0x8F)
    (h3 : 0x80 ≤ b1) (h4 : b1 ≤ 0xBF) (h5 : 0x80 ≤ b2) (h6 : b2 ≤ 0xBF)
    (h7 : 0x80 ≤ b3) (h8 : b3 ≤ 0xBF) :
    EncodeRune ((p0 % 8) * 262144 + (b1 % 64) * 4096 + (b2 % 64) * 64 + b3 % 64) =
      [p0, b1, b2, b3] := by
  unfold EncodeRune
  have hlow : 0x10000 ≤ (p0 % 8) * 262144 + (b1 % 64) * 4096 + (b2 % 64) * 64 + b3 % 64 := by
    by_cases h : p0 = 0xF0
    · have := hf0 h
      omega
    · omega
  have hhigh : (p0 % 8) * 262144 + (b1 % 64) * 4096 + (b2 % 64) * 64 + b3 % 64 ≤ 0x10FFFF := by
    by_cases h : p0 = 0xF4
    · have := hf4 h
      omega
    · omega
  have ha : ¬ ((p0 % 8) * 262144 + (b1 % 64) * 4096 + (b2 % 64) * 64 + b3 % 64 ≤ 0x7F) := by
    omega
  have hb : ¬ ((p0 % 8) * 262144 + (b1 % 64) * 4096 + (b2 % 64) * 64 + b3 % 64 ≤ 0x7FF) := by
    omega
  have hc : ¬ (0x10FFFF < (p0 % 8) * 262144 + (b1 % 64) * 4096 + (b2 % 64) * 64 + b3 % 64 ∨
      (0xD800 ≤ (p0 % 8) * 262144 + (b1 % 64) * 4096 + (b2 % 64) * 64 + b3 % 64 ∧
        (p0 % 8) * 262144 + (b1 % 64) * 4096 + (b2 % 64) * 64 + b3 % 64 ≤ 0xDFFF)) := by
    omega
  have hd : ¬ ((p0 % 8) * 262144 + (b1 % 64) * 4096 + (b2 % 64) * 64 + b3 % 64 ≤ 0xFFFF) := by
    omega
  rw [if_neg ha, if_neg hb, if_neg hc, if_neg hd]
  have e1 : 0xF0 + ((p0 % 8) * 262144 + (b1 % 64) * 4096 + (b2 % 64) * 64 + b3 % 64) / 262144
      = p0 := by omega
  have e2 : 0x80 + ((p0 % 8) * 262144 + (b1 % 64) * 4096 + (b2 % 64) * 64 + b3 % 64) / 4096 % 64
      = b1 := by omega
  have e3 : 0x80 + ((p0 % 8) * 262144 + (b1 % 64) * 4096 + (b2 % 64) * 64 + b3 % 64) / 64 % 64
      = b2 := by omega
  have e4 : 0x80 + ((p0 % 8) * 262144 + (b1 % 64) * 4096 + (b2 % 64) * 64 + b3 % 64) % 64
      = b3 := by omega
  rw [e1, e2, e3, e4]

end utf8

namespace utf8

theorem DecodeRune_two (p0 b1 : Nat) (t : Bytes) (h1 : 0xC2 ≤ p0) (h2 : p0 ≤ 0xDF)
    (h3 : 0x80 ≤ b1) (h4 : b1 ≤ 0xBF) :
    DecodeRune (p0 :: b1 :: t) = ((p0 % 32) * 64 + b1 % 64, 2) := by
  have g0 : ¬ p0 < 0x80 := by omega
  have g1 : ¬ (p0 < 0xC2 ∨ 0xF4 < p0) := by omega
  have g2 : ¬ (b1 < (if p0 = 0xE0 then 0xA0 else if p0 = 0xF0 then 0x90 else 0x80) ∨
      (if p0 = 0xED then 0x9F else if p0 = 0xF4 then 0x8F else 0xBF) < b1) := by
    split_ifs <;> omega
  have g3 : p0 < 0xE0 := by omega
  simp [DecodeRune, g0, g1, g2, g3]

theorem DecodeRune_three (p0 b1 b2 : Nat) (t : Bytes) (h1 : 0xE0 ≤ p0) (h2 : p0 ≤ 0xEF)
    (ha0 : p0 = 0xE0 → 0xA0 ≤ b1) (had : p0 = 0xED → b1 ≤ 0x9F)
    (h3 : 0x80 ≤ b1) (h4 : b1 ≤ 0xBF) (h5 : 0x80 ≤ b2) (h6 : b2 ≤ 0xBF) :
    DecodeRune (p0 :: b1 :: b2 :: t) = ((p0 % 16) * 4096 + (b1 % 64) * 64 + b2 % 64, 3) := by
  have g0 : ¬ p0 < 0x80 := by omega
  have g1 : ¬ (p0 < 0xC2 ∨ 0xF4 < p0) := by omega
  have g2 : ¬ (b1 < (if p0 = 0xE0 then 0xA0 else if p0 = 0xF0 then 0x90 else 0x80) ∨
      (if p0 = 0xED then 0x9F else if p0 = 0xF4 then 0x8F else 0xBF) < b1) := by
    by_cases k : p0 = 0xE0
    · have hk := ha0 k
      split_ifs <;> omega
    · by_cases k2 : p0 = 0xED
      · have hk := had k2
        split_ifs <;> omega
      · split_ifs <;> omega
  have g3 : ¬ p0 < 0xE0 := by omega
  have g4 : ¬ (b2 < 0x80 ∨ 0xBF < b2) := by omega
  have g5 : p0 < 0xF0 := by omega
  simp [DecodeRune, g0, g1, g2, g3, g4, g5]

theorem DecodeRune_four (p0 b1 b2 b3 : Nat) (t : Bytes) (h1 : 0xF0 ≤ p0) (h2 : p0 ≤ 0xF4)
    (hf0 : p0 = 0xF0 → 0x90 ≤ b1) (hf4 : p0 = 0xF4 → b1 ≤ 0x8F)
    (h3 : 0x80 ≤ b1) (h4 : b1 ≤ 0xBF) (h5 : 0x80 ≤ b2) (h6 : b2 ≤ 0xBF)
    (h7 : 0x80 ≤ b3) (h8 : b3 ≤ 0xBF) :
    DecodeRune (p0 :: b1 :: b2 :: b3 :: t) =
      ((p0 % 8) * 262144 + (b1 % 64) * 4096 + (b2 % 64) * 64 + b3 % 64, 4) := by
  have g0 : ¬ p0 < 0x80 := by omega
  have g1 : ¬ (p0 < 0xC2 ∨ 0xF4 < p0) := by omega
  have g2 : ¬ (b1 < (if p0 = 0xE0 then 0xA0 else if p0 = 0xF0 then 0x90 else 0x80) ∨
      (if p0 = 0xED then 0x9F else if p0 = 0xF4 then 0x8F else 0xBF) < b1) := by
    by_cases k : p0 = 0xF0
    · have hk := hf0 k
      split_ifs <;> omega
    · by_cases k2 : p0 = 0xF4
      · have hk := hf4 k2
        split_ifs <;> omega
      · split_ifs <;> omega
  have g3 : ¬ p0 < 0xE0 := by omega
  have g4 : ¬ (b2 < 0x80 ∨ 0xBF < b2) := by omega
  have g5 : ¬ p0 < 0xF0 := by omega
  have g6 : ¬ (b3 < 0x80 ∨ 0xBF < b3) := by omega
  simp [DecodeRune, g0, g1, g2, g3, g4, g5, g6]

end utf8

namespace utf8

theorem Valid_ascii (p0 : Nat) (rest : Bytes) (h : p0 < 0x80) :
    Valid (p0 :: rest) = Valid rest := by
  have hd : DecodeRune (p0 :: rest) = (p0, 1) := by simp [DecodeRune, h]
  have hne : p0 ≠ RuneError := by unfold RuneError; omega
  rw [Valid.eq_def]
  simp [hd, hne]

theorem Valid_two (p0 b1 : Nat) (rest : Bytes) (r : Nat)
    (hd : DecodeRune (p0 :: b1 :: rest) = (r, 2)) :
    Valid (p0 :: b1 :: rest) = Valid rest := by
  rw [Valid.eq_def]
  simp [hd]

theorem Valid_three (p0 b1 b2 : Nat) (rest : Bytes) (r : Nat)
    (hd : DecodeRune (p0 :: b1 :: b2 :: rest) = (r, 3)) :
    Valid (p0 :: b1 :: b2 :: rest) = Valid rest := by
  rw [Valid.eq_def]
  simp [hd]

theorem Valid_four (p0 b1 b2 b3 : Nat) (rest : Bytes) (r : Nat)
    (hd : DecodeRune (p0 :: b1 :: b2 :: b3 :: rest) = (r, 4)) :
    Valid (p0 :: b1 :: b2 :: b3 :: rest) = Valid rest := by
  rw [Valid.eq_def]
  simp [hd]

theorem Valid_invalid (p0 : Nat) (rest : Bytes)
    (hd : DecodeRune (p0 :: rest) = (RuneError, 1)) :
    Valid (p0 :: rest) = false := by
  rw [Valid.eq_def]
  simp [hd]

/-- Induction over the runes of a valid string. -/
theorem Valid_induction {P : Bytes → Prop} (hnil : P [])
    (h1 : ∀ p0 rest, p0 < 0x80 → Valid rest = true → P rest → P (p0 :: rest))
    (h2 : ∀ p0 b1 rest, 0xC2 ≤ p0 → p0 ≤ 0xDF → 0x80 ≤ b1 → b1 ≤ 0xBF →
      Valid rest = true → P rest → P (p0 :: b1 :: rest))
    (h3 : ∀ p0 b1 b2 rest, 0xE0 ≤ p0 → p0 ≤ 0xEF → (p0 = 0xE0 → 0xA0 ≤ b1) →
      (p0 = 0xED → b1 ≤ 0x9F) → 0x80 ≤ b1 → b1 ≤ 0xBF → 0x80 ≤ b2 → b2 ≤ 0xBF →
      Valid rest = true → P rest → P (p0 :: b1 :: b2 :: rest))
    (h4 : ∀ p0 b1 b2 b3 rest, 0xF0 ≤ p0 → p0 ≤ 0xF4 → (p0 = 0xF0 → 0x90 ≤ b1) →
      (p0 = 0xF4 → b1 ≤ 0x8F) → 0x80 ≤ b1 → b1 ≤ 0xBF → 0x80 ≤ b2 → b2 ≤ 0xBF →
      0x80 ≤ b3 → b3 ≤ 0xBF →
      Valid rest = true → P rest → P (p0 :: b1 :: b2 :: b3 :: rest)) :
    ∀ s, Valid s = true → P s := by
  have main : ∀ n : Nat, ∀ s : Bytes, s.length ≤ n → Valid s = true → P s := by
    intro n
    induction n with
    | zero =>
      intro s hs _
      have : s = [] := List.length_eq_zero.mp (Nat.le_zero.mp hs)
      subst this
      exact hnil
    | succ n ih =>
      intro s hs hv
      cases s with
      | nil => exact hnil
      | cons p0 rest =>
        have hlen : rest.length ≤ n := by
          simp only [List.length_cons] at hs
          omega
        rcases DecodeRune_cases p0 rest with ⟨h0, _⟩ | ⟨_, hd⟩ |
          ⟨b1, rest1, hr, ha, hb, hc, hd, hdec⟩ |
          ⟨b1, b2, rest2, hr, ha, hb, hc, hd, he, hf, hg, hh, hdec⟩ |
          ⟨b1, b2, b3, rest3, hr, ha, hb, hc, hd, he, hf, hg, hh, hi, hj, hdec⟩
        · rw [Valid_ascii p0 rest h0] at hv
          exact h1 p0 rest h0 hv (ih rest hlen hv)
        · rw [Valid_invalid p0 rest hd] at hv
          cases hv
        · subst hr
          rw [Valid_two p0 b1 rest1 _ hdec] at hv
          have hlen2 : rest1.length ≤ n := by
            simp only [List.length_cons] at hlen
            omega
          exact h2 p0 b1 rest1 ha hb hc hd hv (ih rest1 hlen2 hv)
        · subst hr
          rw [Valid_three p0 b1 b2 rest2 _ hdec] at hv
          have hlen2 : rest2.length ≤ n := by
            simp only [List.length_cons] at hlen
            omega
          exact h3 p0 b1 b2 rest2 ha hb hc hd he hf hg hh hv (ih rest2 hlen2 hv)
        · subst hr
          rw [Valid_four p0 b1 b2 b3 rest3 _ hdec] at hv
          have hlen2 : rest3.length ≤ n := by
            simp only [List.length_cons] at hlen
            omega
          exact h4 p0 b1 b2 b3 rest3 ha hb hc hd he hf hg hh hi hj hv
            (ih rest3 hlen2 hv)
  intro s hv
  exact main s.length s (le_refl _) hv

end utf8

namespace json

open utf8

/-! ### Strings: what the encoder writes, the decoder reads back -/

theorem unquoteBody_appendByte (b : Nat) (hb : b < 0x80) (t : Bytes) :
    unquoteBody (appendByte b ++ t) = (unquoteBody t).map (b :: ·) := by
  interval_cases b <;> rfl

theorem run_appendByte (b : Nat) (hb : b < 0x80) (raw : Bytes) (ps : List Frame)
    (top : Option Value) (t : Bytes) :
    Scanner.run { step := .inString raw, parseState := ps, top := top } (appendByte b ++ t) =
      Scanner.run { step := .inString ((appendByte b).reverse ++ raw), parseState := ps,
                    top := top } t := by
  interval_cases b <;> rfl

theorem appendStringBody_ascii (b : Nat) (rest : Bytes) (h : b < 0x80) :
    appendStringBody (b :: rest) = appendByte b ++ appendStringBody rest := by
  rw [appendStringBody.eq_def]
  simp [h]

theorem appendStringBody_two (p0 b1 : Nat) (rest : Bytes) (h1 : 0xC2 ≤ p0) (h2 : p0 ≤ 0xDF)
    (h3 : 0x80 ≤ b1) (h4 : b1 ≤ 0xBF) :
    appendStringBody (p0 :: b1 :: rest) = p0 :: b1 :: appendStringBody rest := by
  have h0 : ¬ p0 < 0x80 := by omega
  rw [appendStringBody.eq_def]
  simp [h0, DecodeRune_two p0 b1 rest h1 h2 h3 h4]

theorem appendStringBody_three (p0 b1 b2 : Nat) (rest : Bytes) (h1 : 0xE0 ≤ p0)
    (h2 : p0 ≤ 0xEF) (ha0 : p0 = 0xE0 → 0xA0 ≤ b1) (had : p0 = 0xED → b1 ≤ 0x9F)
    (h3 : 0x80 ≤ b1) (h4 : b1 ≤ 0xBF) (h5 : 0x80 ≤ b2) (h6 : b2 ≤ 0xBF) :
    appendStringBody (p0 :: b1 :: b2 :: rest) =
      (if (p0 % 16) * 4096 + (b1 % 64) * 64 + b2 % 64 = 0x2028 ∨
          (p0 % 16) * 4096 + (b1 % 64) * 64 + b2 % 64 = 0x2029 then
        [0x5C, 0x75, 0x32, 0x30, 0x32,
          hex (((p0 % 16) * 4096 + (b1 % 64) * 64 + b2 % 64) % 16)]
        else [p0, b1, b2]) ++ appendStringBody rest := by
  have h0 : ¬ p0 < 0x80 := by omega
  rw [appendStringBody.eq_def]
  simp only [h0, DecodeRune_three p0 b1 b2 rest h1 h2 ha0 had h3 h4 h5 h6, if_false]
  by_cases hr : (p0 % 16) * 4096 + (b1 % 64) * 64 + b2 % 64 = 0x2028 ∨
      (p0 % 16) * 4096 + (b1 % 64) * 64 + b2 % 64 = 0x2029
  · simp [hr]
  · simp [hr]

theorem appendStringBody_four (p0 b1 b2 b3 : Nat) (rest : Bytes) (h1 : 0xF0 ≤ p0)
    (h2 : p0 ≤ 0xF4) (hf0 : p0 = 0xF0 → 0x90 ≤ b1) (hf4 : p0 = 0xF4 → b1 ≤ 0x8F)
    (h3 : 0x80 ≤ b1) (h4 : b1 ≤ 0xBF) (h5 : 0x80 ≤ b2) (h6 : b2 ≤ 0xBF)
    (h7 : 0x80 ≤ b3) (h8 : b3 ≤ 0xBF) :
    appendStringBody (p0 :: b1 :: b2 :: b3 :: rest) =
      p0 :: b1 :: b2 :: b3 :: appendStringBody rest := by
  have h0 : ¬ p0 < 0x80 := by omega
  rw [appendStringBody.eq_def]
  simp [h0, DecodeRune_four p0 b1 b2 b3 rest h1 h2 hf0 hf4 h3 h4 h5 h6 h7 h8]

theorem unquoteStep_rune (p0 : Nat) (rest : Bytes) (h : 0x80 ≤ p0) :
    unquoteStep (p0 :: rest) =
      some (EncodeRune (DecodeRune (p0 :: rest)).1, (DecodeRune (p0 :: rest)).2) := by
  have h1 : ¬ p0 = 0x5C := by omega
  have h2 : ¬ (p0 = 0x22 ∨ p0 < 0x20) := by omega
  have h3 : ¬ p0 < 0x80 := by omega
  simp [unquoteStep, h1, h2, h3]

theorem unquoteBody_two (p0 b1 : Nat) (t : Bytes) (h1 : 0xC2 ≤ p0) (h2 : p0 ≤ 0xDF)
    (h3 : 0x80 ≤ b1) (h4 : b1 ≤ 0xBF) :
    unquoteBody (p0 :: b1 :: t) = (unquoteBody t).map (fun x => p0 :: b1 :: x) := by
  rw [unquoteBody.eq_def]
  simp [unquoteStep_rune p0 (b1 :: t) (by omega), DecodeRune_two p0 b1 t h1 h2 h3 h4,
    EncodeRune_two p0 b1 h1 h2 h3 h4]

theorem unquoteBody_three (p0 b1 b2 : Nat) (t : Bytes) (h1 : 0xE0 ≤ p0) (h2 : p0 ≤ 0xEF)
    (ha0 : p0 = 0xE0 → 0xA0 ≤ b1) (had : p0 = 0xED → b1 ≤ 0x9F)
    (h3 : 0x80 ≤ b1) (h4 : b1 ≤ 0xBF) (h5 : 0x80 ≤ b2) (h6 : b2 ≤ 0xBF) :
    unquoteBody (p0 :: b1 :: b2 :: t) = (unquoteBody t).map (fun x => p0 :: b1 :: b2 :: x) := by
  rw [unquoteBody.eq_def]
  simp [unquoteStep_rune p0 (b1 :: b2 :: t) (by omega),
    DecodeRune_three p0 b1 b2 t h1 h2 ha0 had h3 h4 h5 h6,
    EncodeRune_three p0 b1 b2 h1 h2 ha0 had h3 h4 h5 h6]

theorem unquoteBody_four (p0 b1 b2 b3 : Nat) (t : Bytes) (h1 : 0xF0 ≤ p0) (h2 : p0 ≤ 0xF4)
    (hf0 : p0 = 0xF0 → 0x90 ≤ b1) (hf4 : p0 = 0xF4 → b1 ≤ 0x8F)
    (h3 : 0x80 ≤ b1) (h4 : b1 ≤ 0xBF) (h5 : 0x80 ≤ b2) (h6 : b2 ≤ 0xBF)
    (h7 : 0x80 ≤ b3) (h8 : b3 ≤ 0xBF) :
    unquoteBody (p0 :: b1 :: b2 :: b3 :: t) =
      (unquoteBody t).map (fun x => p0 :: b1 :: b2 :: b3 :: x) := by
  rw [unquoteBody.eq_def]
  simp [unquoteStep_rune p0 (b1 :: b2 :: b3 :: t) (by omega),
    DecodeRune_four p0 b1 b2 b3 t h1 h2 hf0 hf4 h3 h4 h5 h6 h7 h8,
    EncodeRune_four p0 b1 b2 b3 h1 h2 hf0 hf4 h3 h4 h5 h6 h7 h8]

/-- The decoder reads back the string that the encoder wrote, when it is valid UTF-8. -/
theorem unquoteBody_appendStringBody :
    ∀ s : Bytes, Valid s = true → unquoteBody (appendStringBody s) = some s := by
  apply Valid_induction
  · rfl
  · intro p0 rest h0 _ ih
    rw [appendStringBody_ascii p0 rest h0, unquoteBody_appendByte p0 h0, ih]
    rfl
  · intro p0 b1 rest h1 h2 h3 h4 _ ih
    rw [appendStringBody_two p0 b1 rest h1 h2 h3 h4, unquoteBody_two p0 b1 _ h1 h2 h3 h4, ih]
    rfl
  · intro p0 b1 b2 rest h1 h2 ha0 had h3 h4 h5 h6 _ ih
    rw [appendStringBody_three p0 b1 b2 rest h1 h2 ha0 had h3 h4 h5 h6]
    by_cases hr : (p0 % 16) * 4096 + (b1 % 64) * 64 + b2 % 64 = 0x2028 ∨
        (p0 % 16) * 4096 + (b1 % 64) * 64 + b2 % 64 = 0x2029
    · rw [if_pos hr]
      have hp0 : p0 = 0xE2 := by omega
      have hb1 : b1 = 0x80 := by omega
      have hb2 : b2 = 0xA8 ∨ b2 = 0xA9 := by omega
      subst hp0 hb1
      rcases hb2 with hb2 | hb2
      · subst hb2
        show unquoteBody ([0x5C, 0x75, 0x32, 0x30, 0x32, 0x38] ++ appendStringBody rest) = _
        have : unquoteBody ([0x5C, 0x75, 0x32, 0x30, 0x32, 0x38] ++ appendStringBody rest) =
          (unquoteBody (appendStringBody rest)).map (fun x => 0xE2 :: 0x80 :: 0xA8 :: x) := rfl
        rw [this, ih]
        rfl
      · subst hb2
        show unquoteBody ([0x5C, 0x75, 0x32, 0x30, 0x32, 0x39] ++ appendStringBody rest) = _
        have : unquoteBody ([0x5C, 0x75, 0x32, 0x30, 0x32, 0x39] ++ appendStringBody rest) =
          (unquoteBody (appendStringBody rest)).map (fun x => 0xE2 :: 0x80 :: 0xA9 :: x) := rfl
        rw [this, ih]
        rfl
    · rw [if_neg hr]
      show unquoteBody (p0 :: b1 :: b2 :: appendStringBody rest) = _
      rw [unquoteBody_three p0 b1 b2 _ h1 h2 ha0 had h3 h4 h5 h6, ih]
      rfl
  · intro p0 b1 b2 b3 rest h1 h2 hf0 hf4 h3 h4 h5 h6 h7 h8 _ ih
    rw [appendStringBody_four p0 b1 b2 b3 rest h1 h2 hf0 hf4 h3 h4 h5 h6 h7 h8,
      unquoteBody_four p0 b1 b2 b3 _ h1 h2 hf0 hf4 h3 h4 h5 h6 h7 h8, ih]
    rfl

theorem next_inString (c : Nat) (raw : Bytes) (ps : List Frame) (top : Option Value)
    (h : 0x80 ≤ c) :
    Scanner.next { step := .inString raw, parseState := ps, top := top } c =
      { step := .inString (c :: raw), parseState := ps, top := top } := by
  have h1 : ¬ c = 0x22 := by omega
  have h2 : ¬ c = 0x5C := by omega
  have h3 : ¬ c < 0x20 := by omega
  simp [Scanner.next, h1, h2, h3]

/-- The scanner stays inside the string literal over what the encoder wrote for a string. -/
theorem run_appendStringBody :
    ∀ s : Bytes, Valid s = true → ∀ (raw : Bytes) (ps : List Frame) (top : Option Value)
      (t : Bytes),
      Scanner.run { step := .inString raw, parseState := ps, top := top }
          (appendStringBody s ++ t) =
        Scanner.run { step := .inString ((appendStringBody s).reverse ++ raw),
                      parseState := ps, top := top } t := by
  apply Valid_induction
  · intro raw ps top t
    rfl
  · intro p0 rest h0 _ ih raw ps top t
    rw [appendStringBody_ascii p0 rest h0, List.append_assoc, run_appendByte p0 h0, ih]
    simp [List.reverse_append, List.append_assoc]
  · intro p0 b1 rest h1 h2 h3 h4 _ ih raw ps top t
    rw [appendStringBody_two p0 b1 rest h1 h2 h3 h4]
    simp only [List.cons_append, Scanner.run, List.foldl_cons]
    rw [next_inString p0 _ _ _ (by omega), next_inString b1 _ _ _ (by omega)]
    have := ih (b1 :: p0 :: raw) ps top t
    simp only [Scanner.run] at this
    rw [this]
    simp [List.reverse_cons, List.append_assoc]
  · intro p0 b1 b2 rest h1 h2 ha0 had h3 h4 h5 h6 _ ih raw ps top t
    rw [appendStringBody_three p0 b1 b2 rest h1 h2 ha0 had h3 h4 h5 h6]
    by_cases hr : (p0 % 16) * 4096 + (b1 % 64) * 64 + b2 % 64 = 0x2028 ∨
        (p0 % 16) * 4096 + (b1 % 64) * 64 + b2 % 64 = 0x2029
    · rw [if_pos hr]
      have hh : hex (((p0 % 16) * 4096 + (b1 % 64) * 64 + b2 % 64) % 16) = 0x38 ∨
          hex (((p0 % 16) * 4096 + (b1 % 64) * 64 + b2 % 64) % 16) = 0x39 := by
        rcases hr with hr | hr
        · rw [hr]; exact Or.inl rfl
        · rw [hr]; exact Or.inr rfl
      rcases hh with hh | hh
      · rw [hh]
        have := ih (0x38 :: 0x32 :: 0x30 :: 0x32 :: 0x75 :: 0x5C :: raw) ps top t
        simp only [List.append_assoc, List.cons_append, List.nil_append, List.reverse_append,
          List.reverse_cons, List.reverse_nil]
        exact this.trans (by simp [List.append_assoc])
      · rw [hh]
        have := ih (0x39 :: 0x32 :: 0x30 :: 0x32 :: 0x75 :: 0x5C :: raw) ps top t
        simp only [List.append_assoc, List.cons_append, List.nil_append, List.reverse_append,
          List.reverse_cons, List.reverse_nil]
        exact this.trans (by simp [List.append_assoc])
    · rw [if_neg hr]
      simp only [List.cons_append, List.nil_append, Scanner.run, List.foldl_cons]
      rw [next_inString p0 _ _ _ (by omega), next_inString b1 _ _ _ (by omega),
        next_inString b2 _ _ _ (by omega)]
      have := ih (b2 :: b1 :: p0 :: raw) ps top t
      simp only [Scanner.run] at this
      rw [this]
      simp [List.reverse_cons, List.append_assoc]
  · intro p0 b1 b2 b3 rest h1 h2 hf0 hf4 h3 h4 h5 h6 h7 h8 _ ih raw ps top t
    rw [appendStringBody_four p0 b1 b2 b3 rest h1 h2 hf0 hf4 h3 h4 h5 h6 h7 h8]
    simp only [List.cons_append, Scanner.run, List.foldl_cons]
    rw [next_inString p0 _ _ _ (by omega), next_inString b1 _ _ _ (by omega),
      next_inString b2 _ _ _ (by omega), next_inString b3 _ _ _ (by omega)]
    have := ih (b3 :: b2 :: b1 :: p0 :: raw) ps top t
    simp only [Scanner.run] at this
    rw [this]
    simp [List.reverse_cons, List.append_assoc]

end json

namespace strconv

/-! ### Numbers: what the encoder writes, the decoder reads back -/

theorem formatBits_append :
    ∀ (u fuel : Nat) (a : Bytes), u < fuel → formatBits fuel u a = FormatUint u ++ a := by
  intro u
  induction u using Nat.strong_induction_on with
  | _ u ih =>
    intro fuel a h
    cases fuel with
    | zero => omega
    | succ f =>
      by_cases hu : u < 10
      · simp [formatBits, FormatUint, hu]
      · have h1 : formatBits (f + 1) u a = formatBits f (u / 10) ((48 + u % 10) :: a) := by
          simp [formatBits, hu]
        have h2 : FormatUint u = formatBits u (u / 10) [48 + u % 10] := by
          simp [FormatUint, formatBits, hu]
        rw [h1, h2, ih (u / 10) (by omega) f _ (by omega), ih (u / 10) (by omega) u _ (by omega)]
        simp

theorem FormatUint_lt (u : Nat) (h : u < 10) : FormatUint u = [48 + u] := by
  simp [FormatUint, formatBits, h]

theorem FormatUint_ge (u : Nat) (h : 10 ≤ u) :
    FormatUint u = FormatUint (u / 10) ++ [48 + u % 10] := by
  have hu : ¬ u < 10 := by omega
  have h2 : FormatUint u = formatBits u (u / 10) [48 + u % 10] := by
    simp [FormatUint, formatBits, hu]
  rw [h2, formatBits_append (u / 10) u _ (by omega)]

theorem FormatUint_digits (u : Nat) : ∀ d ∈ FormatUint u, 48 ≤ d ∧ d ≤ 57 := by
  induction u using Nat.strong_induction_on with
  | _ u ih =>
    by_cases hu : u < 10
    · rw [FormatUint_lt u hu]
      intro d hd
      simp only [List.mem_singleton] at hd
      omega
    · rw [FormatUint_ge u (by omega)]
      intro d hd
      rcases List.mem_append.mp hd with hd | hd
      · exact ih (u / 10) (by omega) d hd
      · simp only [List.mem_singleton] at hd
        omega

theorem FormatUint_head (u : Nat) (h : 1 ≤ u) :
    ∃ d ds, FormatUint u = d :: ds ∧ 49 ≤ d ∧ d ≤ 57 := by
  induction u using Nat.strong_induction_on with
  | _ u ih =>
    by_cases hu : u < 10
    · exact ⟨48 + u, [], FormatUint_lt u hu, by omega, by omega⟩
    · obtain ⟨d, ds, hd, h1, h2⟩ := ih (u / 10) (by omega) (by omega)
      refine ⟨d, ds ++ [48 + u % 10], ?_, h1, h2⟩
      rw [FormatUint_ge u (by omega), hd]
      rfl

theorem digitsValue_append (l : Bytes) (d : Nat) :
    digitsValue (l ++ [d]) = digitsValue l * 10 + (d - 48) := by
  simp [digitsValue, List.foldl_append]

theorem digitsValue_FormatUint (u : Nat) : digitsValue (FormatUint u) = u := by
  induction u using Nat.strong_induction_on with
  | _ u ih =>
    by_cases hu : u < 10
    · rw [FormatUint_lt u hu]
      simp [digitsValue]
    · rw [FormatUint_ge u (by omega), digitsValue_append, ih (u / 10) (by omega)]
      omega

theorem FormatUint_ne_nil (u : Nat) : FormatUint u ≠ [] := by
  by_cases hu : u < 10
  · rw [FormatUint_lt u hu]
    simp
  · rw [FormatUint_ge u (by omega)]
    simp

/-- The decoder reads back the number that the encoder wrote, when it is a uint64. -/
theorem ParseUint_FormatUint (u : Nat) (h : u < 2 ^ 64) : ParseUint (FormatUint u) = some u := by
  have hall : (FormatUint u).all (fun d => decide (48 ≤ d ∧ d ≤ 57)) = true := by
    rw [List.all_eq_true]
    intro d hd
    have := FormatUint_digits u d hd
    simp [this.1, this.2]
  unfold ParseUint
  rw [if_neg (FormatUint_ne_nil u), if_pos hall, digitsValue_FormatUint, if_pos h]

end strconv

namespace json

open strconv

theorem run_digits :
    ∀ (ds : Bytes), (∀ d ∈ ds, 48 ≤ d ∧ d ≤ 57) → ∀ (lit : Bytes) (ps : List Frame)
      (top : Option Value) (t : Bytes),
      Scanner.run { step := .one lit, parseState := ps, top := top } (ds ++ t) =
        Scanner.run { step := .one (ds.reverse ++ lit), parseState := ps, top := top } t := by
  intro ds
  induction ds with
  | nil =>
    intro _ lit ps top t
    rfl
  | cons d ds ih =>
    intro hd lit ps top t
    have h1 := hd d (List.mem_cons_self _ _)
    have h2 : 0x30 ≤ d ∧ d ≤ 0x39 := h1
    have hstep : Scanner.next { step := .one lit, parseState := ps, top := top } d =
        { step := .one (d :: lit), parseState := ps, top := top } := by
      simp [Scanner.next, h2]
    simp only [List.cons_append, Scanner.run, List.foldl_cons]
    rw [hstep]
    have := ih (fun x hx => hd x (List.mem_cons_of_mem _ hx)) (d :: lit) ps top t
    simp only [Scanner.run] at this
    rw [this]
    simp [List.reverse_cons, List.append_assoc]

/-- The scanner over the number that the encoder wrote, followed by a comma or a closing
brace. -/
theorem run_FormatUint (u : Nat) (c : Nat) (hc : c = 0x2C ∨ c = 0x7D) (ps : List Frame)
    (top : Option Value) (t : Bytes) :
    Scanner.run { step := .beginValue, parseState := ps, top := top }
        (FormatUint u ++ c :: t) =
      Scanner.run ((Scanner.emit ps top (.number (FormatUint u))).stateEndValue c) t := by
  have hc1 : ¬ (0x30 ≤ c ∧ c ≤ 0x39) := by omega
  have hc2 : ¬ c = 0x2E := by omega
  have hc3 : ¬ (c = 0x65 ∨ c = 0x45) := by omega
  by_cases hu : u = 0
  · subst hu
    show Scanner.run _ (48 :: c :: t) = _
    simp only [Scanner.run, List.foldl_cons]
    have h1 : Scanner.next { step := .beginValue, parseState := ps, top := top } 48 =
        { step := .zero [48], parseState := ps, top := top } := rfl
    rw [h1]
    have h2 : Scanner.next { step := .zero [48], parseState := ps, top := top } c =
        (Scanner.emit ps top (.number [48])).stateEndValue c := by
      simp [Scanner.next, Scanner.endNumber, hc2, hc3]
    rw [h2]
    rfl
  · obtain ⟨d, ds, hd, hd1, hd2⟩ := FormatUint_head u (by omega)
    have hdig := FormatUint_digits u
    rw [hd] at hdig
    rw [hd]
    simp only [List.cons_append, Scanner.run, List.foldl_cons]
    have h1 : Scanner.next { step := .beginValue, parseState := ps, top := top } d =
        { step := .one [d], parseState := ps, top := top } := by
      have e1 : ¬ d = 0x7B := by omega
      have e2 : ¬ d = 0x5B := by omega
      have e3 : ¬ d = 0x22 := by omega
      have e4 : ¬ d = 0x2D := by omega
      have e5 : ¬ d = 0x30 := by omega
      have e6 : 0x31 ≤ d ∧ d ≤ 0x39 := ⟨hd1, hd2⟩
      have e7 : isSpace d = false := by
        simp only [isSpace, decide_eq_false_iff_not]
        omega
      simp [Scanner.next, Scanner.stateBeginValue, e1, e2, e3, e4, e5, e6, e7]
    rw [h1]
    have h2 := run_digits ds (fun x hx => hdig x (List.mem_cons_of_mem _ hx)) [d] ps top (c :: t)
    simp only [Scanner.run] at h2
    rw [h2]
    simp only [List.foldl_cons]
    have h3 : Scanner.next { step := .one (ds.reverse ++ [d]), parseState := ps, top := top } c =
        (Scanner.emit ps top (.number (d :: ds))).stateEndValue c := by
      simp [Scanner.next, Scanner.endNumber, hc1, hc2, hc3]
    rw [h3]

end json

namespace json

open utf8

/-- The scanner over what the encoder wrote for a string, where a value begins. -/
theorem run_appendString (s : Bytes) (hs : Valid s = true) (ps : List Frame)
    (top : Option Value) (t : Bytes) :
    Scanner.run { step := .beginValue, parseState := ps, top := top } (appendString s ++ t) =
      Scanner.run (Scanner.emit ps top (.string s)) t := by
  have h1 : Scanner.run { step := .beginValue, parseState := ps, top := top }
      (appendString s ++ t) =
      Scanner.run { step := .inString [], parseState := ps, top := top }
        (appendStringBody s ++ 0x22 :: t) := by
    simp [appendString, Scanner.run]
    rfl
  rw [h1, run_appendStringBody s hs]
  simp only [Scanner.run, List.foldl_cons, List.append_nil]
  have h2 : Scanner.next
      { step := .inString (appendStringBody s).reverse, parseState := ps, top := top } 0x22 =
      Scanner.emit ps top (.string s) := by
    simp [Scanner.next, unquoteBody_appendStringBody s hs]
  rw [h2]

end json

namespace tickermetadata

open json utf8 strconv

theorem run_AggregatorID_encode (a : AggregatorID) (hv : Valid a.Venue = true)
    (hi : Valid a.ID = true) (ps : List Frame) (top : Option Value) (t : Bytes)
    (hdepth : ps.length + 1 ≤ maxNestingDepth) :
    Scanner.run { step := .beginValue, parseState := ps, top := top } (a.encode ++ t) =
      Scanner.run (Scanner.emit ps top a.toValue) t := by
  have h1 : Scanner.run { step := .beginValue, parseState := ps, top := top } (a.encode ++ t) =
      Scanner.run { step := .beginValue,
                    parseState := .object [] (some (ascii "venue")) :: ps, top := top }
        (appendString a.Venue ++ (ascii ",\x22ID\x22:" ++ (appendString a.ID ++ 0x7D :: t))) := by
    have e : a.encode ++ t = 0x7B :: (ascii "\x22venue\x22:" ++ (appendString a.Venue ++
        (ascii ",\x22ID\x22:" ++ (appendString a.ID ++ 0x7D :: t)))) := by
      simp [AggregatorID.encode, List.append_assoc]
    rw [e]
    have e2 : Scanner.next { step := .beginValue, parseState := ps, top := top } 0x7B =
        { step := .beginStringOrEmpty, parseState := .object [] none :: ps, top := top } := by
      simp [Scanner.next, Scanner.stateBeginValue, isSpace, hdepth]
    simp only [Scanner.run, List.foldl_cons]
    rw [e2]
    rfl
  rw [h1, run_appendString a.Venue hv]
  have h2 : Scanner.run
      (Scanner.emit (.object [] (some (ascii "venue")) :: ps) top (.string a.Venue))
      (ascii ",\x22ID\x22:" ++ (appendString a.ID ++ 0x7D :: t)) =
      Scanner.run { step := .beginValue,
                    parseState :=
                      .object [(ascii "venue", .string a.Venue)] (some (ascii "ID")) :: ps,
                    top := top }
        (appendString a.ID ++ 0x7D :: t) := rfl
  rw [h2, run_appendString a.ID hi]
  rfl

end tickermetadata

namespace tickermetadata

open json utf8 strconv

theorem run_encodeMore :
    ∀ (ids : List AggregatorID), validIDs ids = true → ∀ (items : List Value)
      (ps : List Frame) (top : Option Value) (t : Bytes),
      ps.length + 2 ≤ maxNestingDepth →
      Scanner.run { step := .endValue, parseState := .array items :: ps, top := top }
          (encodeMore ids ++ t) =
        Scanner.run { step := .endValue,
                      parseState := .array ((ids.map AggregatorID.toValue).reverse ++ items) :: ps,
                      top := top } t := by
  intro ids
  induction ids with
  | nil =>
    intro _ items ps top t _
    rfl
  | cons a rest ih =>
    intro hvalid items ps top t hdepth
    simp only [validIDs, List.all_cons, Bool.and_eq_true] at hvalid
    obtain ⟨⟨hv, hi⟩, hrest⟩ := hvalid
    have e : encodeMore (a :: rest) ++ t = 0x2C :: (a.encode ++ (encodeMore rest ++ t)) := by
      simp [encodeMore, List.append_assoc]
    rw [e]
    have h1 : Scanner.run { step := .endValue, parseState := .array items :: ps, top := top }
        (0x2C :: (a.encode ++ (encodeMore rest ++ t))) =
        Scanner.run { step := .beginValue, parseState := .array items :: ps, top := top }
          (a.encode ++ (encodeMore rest ++ t)) := rfl
    rw [h1, run_AggregatorID_encode a hv hi (.array items :: ps) top _
      (by simp only [List.length_cons]; omega)]
    have h2 : Scanner.emit (.array items :: ps) top a.toValue =
        { step := .endValue, parseState := .array (a.toValue :: items) :: ps, top := top } := rfl
    rw [h2, ih hrest (a.toValue :: items) ps top t hdepth]
    simp [List.reverse_cons, List.append_assoc]

theorem run_encodeAggregateIDs (ids : Option (List AggregatorID))
    (hvalid : validIDs (ids.getD []) = true) (ps : List Frame) (top : Option Value) (t : Bytes)
    (hdepth : ps.length + 2 ≤ maxNestingDepth) :
    Scanner.run { step := .beginValue, parseState := ps, top := top }
        (encodeAggregateIDs ids ++ t) =
      Scanner.run (Scanner.emit ps top (aggregateIDsValue ids)) t := by
  have hpush : Scanner.next { step := .beginValue, parseState := ps, top := top } 0x5B =
      { step := .beginValueOrEmpty, parseState := .array [] :: ps, top := top } := by
    have hd : ps.length + 1 ≤ maxNestingDepth := by omega
    simp [Scanner.next, Scanner.stateBeginValue, isSpace, hd]
  cases ids with
  | none => rfl
  | some l =>
    cases l with
    | nil =>
      show Scanner.run _ (0x5B :: 0x5D :: t) = _
      simp only [Scanner.run, List.foldl_cons]
      rw [hpush]
      rfl
    | cons a rest =>
      simp only [Option.getD_some, validIDs, List.all_cons, Bool.and_eq_true] at hvalid
      obtain ⟨⟨hv, hi⟩, hrest⟩ := hvalid
      have e : encodeAggregateIDs (some (a :: rest)) ++ t =
          0x5B :: (a.encode ++ (encodeMore rest ++ 0x5D :: t)) := by
        simp [encodeAggregateIDs, List.append_assoc]
      rw [e]
      have h1 : Scanner.run { step := .beginValue, parseState := ps, top := top }
          (0x5B :: (a.encode ++ (encodeMore rest ++ 0x5D :: t))) =
          Scanner.run { step := .beginValue, parseState := .array [] :: ps, top := top }
            (a.encode ++ (encodeMore rest ++ 0x5D :: t)) := by
        simp only [Scanner.run, List.foldl_cons]
        rw [hpush]
        rfl
      rw [h1, run_AggregatorID_encode a hv hi (.array [] :: ps) top _
        (by simp only [List.length_cons]; omega)]
      have h2 : Scanner.emit (.array [] :: ps) top a.toValue =
          { step := .endValue, parseState := .array [a.toValue] :: ps, top := top } := rfl
      rw [h2, run_encodeMore rest hrest [a.toValue] ps top _ hdepth]
      simp only [Scanner.run, List.foldl_cons]
      have h3 : Scanner.next
          { step := .endValue,
            parseState := .array ((rest.map AggregatorID.toValue).reverse ++ [a.toValue]) :: ps,
            top := top } 0x5D =
          Scanner.emit ps top (aggregateIDsValue (some (a :: rest))) := by
        simp [Scanner.next, Scanner.stateEndValue, isSpace, aggregateIDsValue,
          List.reverse_append]
      rw [h3]

theorem run_key_reference_price (t : Bytes) :
    Scanner.run (Scanner.mk .beginValue [] none) (0x7B :: (ascii "\x22reference_price\x22:" ++ t)) =
      Scanner.run
        (Scanner.mk .beginValue [.object [] (some (ascii "reference_price"))] none) t :=
  rfl

theorem run_key_liquidity (v : Value) (t : Bytes) :
    Scanner.run
        ((Scanner.emit [.object [] (some (ascii "reference_price"))] none v).stateEndValue 0x2C)
        (ascii "\x22liquidity\x22:" ++ t) =
      Scanner.run
        (Scanner.mk .beginValue
          [.object [(ascii "reference_price", v)] (some (ascii "liquidity"))] none) t :=
  rfl

theorem run_key_aggregate_ids (v w : Value) (t : Bytes) :
    Scanner.run
        ((Scanner.emit
          [.object [(ascii "reference_price", v)] (some (ascii "liquidity"))] none
          w).stateEndValue 0x2C)
        (ascii "\x22aggregate_ids\x22:" ++ t) =
      Scanner.run
        (Scanner.mk .beginValue
          [.object [(ascii "liquidity", w), (ascii "reference_price", v)]
            (some (ascii "aggregate_ids"))] none) t :=
  rfl

/-- The decoder reads the text that the encoder writes for a `Perpx` as its JSON value. -/
theorem read_encode (m : Perpx) (hvalid : validIDs (m.AggregateIDs.getD []) = true) :
    json.read m.encode = .ok m.toValue := by
  unfold json.read
  have e : m.encode = 0x7B :: (ascii "\x22reference_price\x22:" ++ (FormatUint m.ReferencePrice
      ++ (0x2C :: (ascii "\x22liquidity\x22:" ++ (FormatUint m.Liquidity
      ++ (0x2C :: (ascii "\x22aggregate_ids\x22:" ++ (encodeAggregateIDs m.AggregateIDs
      ++ ((if m.CrossLaunch then ascii ",\x22cross_launch\x22:true" else []) ++ [0x7D]))))))))) :=
    rfl
  rw [e]
  have hdepth : ∀ f : Frame, [f].length + 2 ≤ maxNestingDepth := by
    intro f
    simp [maxNestingDepth]
  rw [run_key_reference_price, run_FormatUint _ 0x2C (Or.inl rfl), run_key_liquidity,
    run_FormatUint _ 0x2C (Or.inl rfl), run_key_aggregate_ids,
    run_encodeAggregateIDs m.AggregateIDs hvalid _ _ _ (hdepth _)]
  cases hcl : m.CrossLaunch with
  | false =>
    simp only [Perpx.toValue, hcl]
    rfl
  | true =>
    simp only [Perpx.toValue, hcl]
    rfl

end tickermetadata

namespace tickermetadata

open json utf8 strconv

/-! ### From the JSON value back to the struct -/

theorem unmarshal_toValue (a : AggregatorID) :
    AggregatorID.unmarshal { Venue := [], ID := [] } a.toValue = .ok a := by
  have h1 : fieldByName [ascii "venue", ascii "ID"] (ascii "venue") = some (ascii "venue") := rfl
  have h2 : fieldByName [ascii "venue", ascii "ID"] (ascii "ID") = some (ascii "ID") := rfl
  have h3 : ¬ ascii "ID" = ascii "venue" := by decide
  simp [AggregatorID.unmarshal, AggregatorID.toValue, AggregatorID.setFields,
    AggregatorID.setField, h1, h2, h3, json.decodeString]

theorem decodeElements_toValue :
    ∀ ids : List AggregatorID,
      decodeElements (ids.map AggregatorID.toValue) [] = .ok (ids, []) := by
  intro ids
  induction ids with
  | nil => rfl
  | cons a rest ih =>
    simp only [List.map_cons, decodeElements, List.head?_nil, Option.getD_none, List.tail_nil,
      unmarshal_toValue, ih]

theorem setField_reference_price (t : Target) (n : Nat) (h : n < 2 ^ 64) :
    t.setField (ascii "reference_price") (.number (FormatUint n)) =
      .ok { t with elem := { t.elem with ReferencePrice := n } } := by
  have h1 : fieldByName
      [ascii "reference_price", ascii "liquidity", ascii "aggregate_ids", ascii "cross_launch"]
      (ascii "reference_price") = some (ascii "reference_price") := rfl
  simp [Target.setField, h1, json.decodeUint64, ParseUint_FormatUint n h]

theorem setField_liquidity (t : Target) (n : Nat) (h : n < 2 ^ 64) :
    t.setField (ascii "liquidity") (.number (FormatUint n)) =
      .ok { t with elem := { t.elem with Liquidity := n } } := by
  have h1 : fieldByName
      [ascii "reference_price", ascii "liquidity", ascii "aggregate_ids", ascii "cross_launch"]
      (ascii "liquidity") = some (ascii "liquidity") := rfl
  have h2 : ¬ ascii "liquidity" = ascii "reference_price" := by decide
  simp [Target.setField, h1, h2, json.decodeUint64, ParseUint_FormatUint n h]

theorem setField_aggregate_ids (t : Target) (ids : Option (List AggregatorID))
    (ht : t.elem.AggregateIDs = none) (hs : t.spare = []) :
    t.setField (ascii "aggregate_ids") (aggregateIDsValue ids) =
      .ok { elem := { t.elem with AggregateIDs := ids }, spare := [] } := by
  have h1 : fieldByName
      [ascii "reference_price", ascii "liquidity", ascii "aggregate_ids", ascii "cross_launch"]
      (ascii "aggregate_ids") = some (ascii "aggregate_ids") := rfl
  have h2 : ¬ ascii "aggregate_ids" = ascii "reference_price" := by decide
  have h3 : ¬ ascii "aggregate_ids" = ascii "liquidity" := by decide
  cases ids with
  | none => simp [Target.setField, h1, h2, h3, aggregateIDsValue]
  | some l =>
    cases l with
    | nil => simp [Target.setField, h1, h2, h3, aggregateIDsValue]
    | cons a rest =>
      have hd := decodeElements_toValue (a :: rest)
      simp only [List.map_cons] at hd
      simp [Target.setField, h1, h2, h3, aggregateIDsValue, ht, hs, hd]

theorem setField_cross_launch (t : Target) (b : Bool) :
    t.setField (ascii "cross_launch") (.bool b) =
      .ok { t with elem := { t.elem with CrossLaunch := b } } := by
  have h1 : fieldByName
      [ascii "reference_price", ascii "liquidity", ascii "aggregate_ids", ascii "cross_launch"]
      (ascii "cross_launch") = some (ascii "cross_launch") := rfl
  have h2 : ¬ ascii "cross_launch" = ascii "reference_price" := by decide
  have h3 : ¬ ascii "cross_launch" = ascii "liquidity" := by decide
  have h4 : ¬ ascii "cross_launch" = ascii "aggregate_ids" := by decide
  simp [Target.setField, h1, h2, h3, h4, json.decodeBool]

/-- Unmarshal of the JSON value of a `Perpx` into the zero `Perpx` gives it back. -/
theorem unmarshal_toValue_perpx (m : Perpx) (hrp : m.ReferencePrice < 2 ^ 64)
    (hliq : m.Liquidity < 2 ^ 64) : Perpx.unmarshal m.toValue = .ok m := by
  obtain ⟨rp, liq, ids, cl⟩ := m
  simp only at hrp hliq
  cases cl with
  | false =>
    simp only [Perpx.unmarshal, Perpx.toValue, Target.setFields, Bool.false_eq_true, if_false,
      List.append_nil]
    rw [setField_reference_price _ rp hrp]
    simp only []
    rw [setField_liquidity _ liq hliq]
    simp only []
    rw [setField_aggregate_ids _ ids rfl rfl]
  | true =>
    simp only [Perpx.unmarshal, Perpx.toValue, Target.setFields, if_true, List.cons_append,
      List.nil_append]
    rw [setField_reference_price _ rp hrp]
    simp only []
    rw [setField_liquidity _ liq hliq]
    simp only []
    rw [setField_aggregate_ids _ ids rfl rfl]
    simp only []
    rw [setField_cross_launch]

/-- Decoding undoes encoding, for a `Perpx` whose strings are valid UTF-8. -/
theorem roundtrip (m : Perpx) (hrp : m.ReferencePrice < 2 ^ 64) (hliq : m.Liquidity < 2 ^ 64)
    (hvalid : validIDs (m.AggregateIDs.getD []) = true) :
    ∃ bz, MarshalPerpx m = .ok bz ∧ PerpxFromJSONBytes bz = .ok m ∧
      PerpxFromJSONString bz = .ok m := by
  refine ⟨m.encode, rfl, ?_, ?_⟩
  · simp only [PerpxFromJSONBytes, read_encode m hvalid, unmarshal_toValue_perpx m hrp hliq]
  · simp only [PerpxFromJSONString, read_encode m hvalid, unmarshal_toValue_perpx m hrp hliq]

end tickermetadata

namespace tickermetadata

set_option maxRecDepth 100000 in
/-- C18, as stated, fails: for the `Perpx` value whose venue is the single byte `0xFF`, a Go
string that is no valid UTF-8, `MarshalPerpx` succeeds and writes the escape of U+FFFD for the
venue, and `PerpxFromJSONBytes` and `PerpxFromJSONString` of its output succeed and return a
value whose venue is the three bytes of U+FFFD, which is not the value that was encoded. -/
theorem C18_counterexample :
    utf8.Valid [0xFF] = false ∧
      MarshalPerpx Examples.withInvalidVenue = .ok Examples.withInvalidVenueJSON ∧
      PerpxFromJSONBytes Examples.withInvalidVenueJSON = .ok Examples.withReplacedVenue ∧
      PerpxFromJSONString Examples.withInvalidVenueJSON = .ok Examples.withReplacedVenue ∧
      Examples.withReplacedVenue ≠ Examples.withInvalidVenue :=
  ⟨rfl, rfl, rfl, rfl, by decide⟩

/-- C18, amended: for every `Perpx` value whose two numbers are `uint64` values and whose venue
and id strings are valid UTF-8 (with a nil, an empty or a non-empty slice, and either value of
the flag), `MarshalPerpx` succeeds, and `PerpxFromJSONBytes` of its output succeeds and returns
the value; `PerpxFromJSONString` on the same text returns the same value. -/
theorem C18_perpx_json_roundtrip (m : Perpx) (hrp : m.ReferencePrice < 2 ^ 64)
    (hliq : m.Liquidity < 2 ^ 64)
    (hvalid : ∀ a ∈ m.AggregateIDs.getD [],
      utf8.Valid a.Venue = true ∧ utf8.Valid a.ID = true) :
    ∃ bz, MarshalPerpx m = .ok bz ∧ PerpxFromJSONBytes bz = .ok m ∧
      PerpxFromJSONString bz = .ok m := by
  have hv : validIDs (m.AggregateIDs.getD []) = true := by
    simp only [validIDs, List.all_eq_true, Bool.and_eq_true]
    exact hvalid
  exact roundtrip m hrp hliq hv

/-- The amended C18 on the values of `Test_UnmarshalPerpx` (two aggregate ids, whose text is the
text of the test, and the nil slice), on a value with an empty slice and the flag set, and on a
value with the largest `uint64` and strings with escapes and runes outside ASCII. -/
theorem C18_witness :
    MarshalPerpx Examples.withTwoIDs = .ok Examples.withTwoIDsJSON ∧
      (∃ bz, MarshalPerpx Examples.withTwoIDs = .ok bz ∧
        PerpxFromJSONBytes bz = .ok Examples.withTwoIDs ∧
        PerpxFromJSONString bz = .ok Examples.withTwoIDs) ∧
      (∃ bz, MarshalPerpx Examples.withNilIDs = .ok bz ∧
        PerpxFromJSONBytes bz = .ok Examples.withNilIDs ∧
        PerpxFromJSONString bz = .ok Examples.withNilIDs) ∧
      (∃ bz, MarshalPerpx Examples.withEmptyIDs = .ok bz ∧
        PerpxFromJSONBytes bz = .ok Examples.withEmptyIDs ∧
        PerpxFromJSONString bz = .ok Examples.withEmptyIDs) ∧
      (∃ bz, MarshalPerpx Examples.withEscapes = .ok bz ∧
        PerpxFromJSONBytes bz = .ok Examples.withEscapes ∧
        PerpxFromJSONString bz = .ok Examples.withEscapes) :=
  ⟨rfl,
   C18_perpx_json_roundtrip Examples.withTwoIDs (by decide) (by decide) (by decide),
   C18_perpx_json_roundtrip Examples.withNilIDs (by decide) (by decide) (by decide),
   C18_perpx_json_roundtrip Examples.withEmptyIDs (by decide) (by decide) (by decide),
   C18_perpx_json_roundtrip Examples.withEscapes (by decide) (by decide) (by decide)⟩

end tickermetadata


namespace perpx

open providertypes mmtypes mmclient

/-! ## Lemmas on the order of iteration -/

/-- One map iterated in two orders gives the same market under every ticker. -/
theorem SameUpToOrder.lookup {a b : MarketMap} (h : SameUpToOrder a b) (t : String) :
    mapIndex a.Markets t = mapIndex b.Markets t := by
  obtain ⟨am⟩ := a
  obtain ⟨bm⟩ := b
  cases am with
  | none =>
    cases bm with
    | none => rfl
    | some y => exact False.elim h
  | some x =>
    cases bm with
    | none => exact False.elim h
    | some y => exact List.perm_dlookup t x.nodupKeys y.nodupKeys h

/-- Two non-nil maps with the same market under every ticker are one map iterated in two
orders. -/
theorem sameUpToOrder_of_lookup (x y : GoMap String Market)
    (h : ∀ t, x.lookup t = y.lookup t) :
    SameUpToOrder { Markets := some x } { Markets := some y } := by
  show x.entries.Perm y.entries
  refine List.lookup_ext x.nodupKeys y.nodupKeys (fun k v => ?_)
  have hk : List.dlookup k x.entries = List.dlookup k y.entries := h k
  rw [hk]

theorem sameUpToOrder_symm {a b : MarketMap} (h : SameUpToOrder a b) : SameUpToOrder b a := by
  obtain ⟨am⟩ := a
  obtain ⟨bm⟩ := b
  cases am with
  | none =>
    cases bm with
    | none => exact h
    | some y => exact False.elim h
  | some x =>
    cases bm with
    | none => exact False.elim h
    | some y => exact List.Perm.symm h

theorem sameResearchUpToOrder_symm {a b : Option MarketMapResult}
    (h : SameResearchUpToOrder a b) : SameResearchUpToOrder b a := by
  cases a with
  | none =>
    cases b with
    | none => exact h
    | some y => exact False.elim h
  | some x =>
    cases b with
    | none => exact False.elim h
    | some y =>
      obtain ⟨xv, xt⟩ := x
      obtain ⟨yv, yt⟩ := y
      cases xv with
      | none =>
        cases yv with
        | none => exact h
        | some v => exact False.elim h
      | some u =>
        cases yv with
        | none => exact False.elim h
        | some v => exact sameUpToOrder_symm (a := u.MarketMap) (b := v.MarketMap) h

/-- The entries that a `range` loop visits have distinct keys. -/
theorem mapRange_nodupKeys (m : Option (GoMap String Market)) : (mapRange m).NodupKeys := by
  cases m with
  | none => exact List.nodupKeys_nil
  | some x => exact x.nodupKeys

/-- One map iterated in two orders is ranged over in two orders. -/
theorem SameUpToOrder.mapRange_perm {a b : MarketMap} (h : SameUpToOrder a b) :
    (mapRange a.Markets).Perm (mapRange b.Markets) := by
  obtain ⟨am⟩ := a
  obtain ⟨bm⟩ := b
  cases am with
  | none =>
    cases bm with
    | none => exact List.Perm.refl _
    | some y => exact False.elim h
  | some x =>
    cases bm with
    | none => exact False.elim h
    | some y => exact h

/-- The merge loop ends alike on one mainnet map iterated in two orders and one list of
research markets visited in two orders. -/
theorem addResearchMarkets_sameOutcome (pm pm2 : MarketMap)
    (l l2 : List (Sigma fun _ : String => Market))
    (hpm : SameUpToOrder pm pm2) (hl : l.Perm l2) (hnd : l.NodupKeys) :
    SameOutcome (addResearchMarkets pm l) (addResearchMarkets pm2 l2) := by
  have hnd2 : l2.NodupKeys := (List.perm_nodupKeys hl).mp hnd
  obtain ⟨am⟩ := pm
  obtain ⟨bm⟩ := pm2
  cases am with
  | none =>
    cases bm with
    | some y => exact False.elim hpm
    | none =>
      rw [addResearchMarkets_nil, addResearchMarkets_nil]
      cases l with
      | nil =>
        have : l2 = [] := List.Perm.eq_nil (List.Perm.symm hl)
        subst this
        exact hpm
      | cons e rest =>
        cases l2 with
        | nil => exact absurd (List.Perm.eq_nil hl) (by simp)
        | cons e2 rest2 => exact rfl
  | some x =>
    cases bm with
    | none => exact False.elim hpm
    | some y =>
      obtain ⟨x2, hrun, hlook⟩ := addResearchMarkets_some l x
      obtain ⟨y2, hrun2, hlook2⟩ := addResearchMarkets_some l2 y
      rw [hrun, hrun2]
      refine sameUpToOrder_of_lookup x2 y2 (fun t => ?_)
      rw [hlook t, hlook2 t, List.perm_dlookup t hnd hnd2 hl]
      have hxy : x.lookup t = y.lookup t :=
        SameUpToOrder.lookup (a := { Markets := some x }) (b := { Markets := some y }) hpm t
      rw [hxy]

/-- Lines 175-187 end alike on inputs that differ in the order of iteration only. -/
theorem mergedMarketMap_sameOutcome (pm pm2 : MarketMap) (r r2 : Option MarketMapResult)
    (hpm : SameUpToOrder pm pm2) (hr : SameResearchUpToOrder r r2) :
    SameOutcome (mergedMarketMap pm r) (mergedMarketMap pm2 r2) := by
  cases r with
  | none =>
    cases r2 with
    | none => exact hpm
    | some y => exact False.elim hr
  | some x =>
    cases r2 with
    | none => exact False.elim hr
    | some y =>
      obtain ⟨xv, xt⟩ := x
      obtain ⟨yv, yt⟩ := y
      cases xv with
      | none =>
        cases yv with
        | none => exact rfl
        | some v => exact False.elim hr
      | some u =>
        cases yv with
        | none => exact False.elim hr
        | some v =>
          have huv : SameUpToOrder u.MarketMap v.MarketMap := hr
          exact addResearchMarkets_sameOutcome pm pm2 _ _ hpm huv.mapRange_perm
            (mapRange_nodupKeys _)

/-- The filter loop ends alike on one map iterated in two orders. -/
theorem filterCMCMarkets_sameOutcome (d : Deps) (m m2 : MarketMap) (h : SameUpToOrder m m2) :
    SameOutcome (filterCMCMarkets d m (mapRange m.Markets))
      (filterCMCMarkets d m2 (mapRange m2.Markets)) := by
  obtain ⟨am⟩ := m
  obtain ⟨bm⟩ := m2
  cases am with
  | none =>
    cases bm with
    | none => exact h
    | some y => exact False.elim h
  | some x =>
    cases bm with
    | none => exact False.elim h
    | some y =>
      obtain ⟨x2, hrun, hlook⟩ := filterCMCMarkets_some d x.entries x.nodupKeys x
      obtain ⟨y2, hrun2, hlook2⟩ := filterCMCMarkets_some d y.entries y.nodupKeys y
      show SameOutcome (filterCMCMarkets d { Markets := some x } x.entries)
        (filterCMCMarkets d { Markets := some y } y.entries)
      rw [hrun, hrun2]
      refine sameUpToOrder_of_lookup x2 y2 (fun t => ?_)
      have hperm : x.entries.Perm y.entries := h
      have hxy : x.lookup t = y.lookup t := List.perm_dlookup t x.nodupKeys y.nodupKeys hperm
      rw [hlook t, hlook2 t, List.perm_dlookup t x.nodupKeys y.nodupKeys hperm, hxy]

/-- Lines 175-226 end alike on inputs that differ in the order of iteration only. -/
theorem combinedMarketMap_sameOutcome (d : Deps) (isCMCOnly : Bool) (pm pm2 : MarketMap)
    (r r2 : Option MarketMapResult)
    (hpm : SameUpToOrder pm pm2) (hr : SameResearchUpToOrder r r2) :
    SameOutcome (combinedMarketMap d isCMCOnly pm r) (combinedMarketMap d isCMCOnly pm2 r2) := by
  have hmerged := mergedMarketMap_sameOutcome pm pm2 r r2 hpm hr
  rw [combinedMarketMap_eq, combinedMarketMap_eq]
  cases hm : mergedMarketMap pm r with
  | error p =>
    cases hm2 : mergedMarketMap pm2 r2 with
    | error q =>
      rw [hm, hm2] at hmerged
      exact hmerged
    | ok mm2 =>
      rw [hm, hm2] at hmerged
      exact False.elim hmerged
  | ok mm =>
    cases hm2 : mergedMarketMap pm2 r2 with
    | error q =>
      rw [hm, hm2] at hmerged
      exact False.elim hmerged
    | ok mm2 =>
      rw [hm, hm2] at hmerged
      cases isCMCOnly with
      | false => exact hmerged
      | true => exact filterCMCMarkets_sameOutcome d mm mm2 hmerged

end perpx

namespace perpx

open providertypes mmtypes mmclient

/-- When a run of `Fetch` returns a Resolved entry for the perpx chain, so does a run on inputs
that differ in the order of iteration only, provided the validator accepts a market map
whatever the order of its entries. -/
theorem Fetch_resolved_transfer (d : Deps) (f g : MultiMarketMapRestAPIFetcher)
    (chains : List Chain) (pr pr2 : MarketMapResult) (pv pv2 : mmtypes.MarketMapResponse)
    (hflag : f.isCMCOnly = g.isCMCOnly)
    (hpu : PERPXChain d ∉ (f.perpxMainnetFetcher chains).UnResolved)
    (hsu : PERPXChain d ∉ (f.perpxResearchFetcher chains).UnResolved)
    (hpu2 : PERPXChain d ∉ (g.perpxMainnetFetcher chains).UnResolved)
    (hsu2 : PERPXChain d ∉ (g.perpxResearchFetcher chains).UnResolved)
    (hpr : (f.perpxMainnetFetcher chains).Resolved.lookup (PERPXChain d) = some pr)
    (hpv : pr.Value = some pv)
    (hpr2 : (g.perpxMainnetFetcher chains).Resolved.lookup (PERPXChain d) = some pr2)
    (hpv2 : pr2.Value = some pv2)
    (hmainnet : SameUpToOrder pv.MarketMap pv2.MarketMap)
    (hresearch : SameResearchUpToOrder
      ((f.perpxResearchFetcher chains).Resolved.lookup (PERPXChain d))
      ((g.perpxResearchFetcher chains).Resolved.lookup (PERPXChain d)))
    (hval : ∀ a b, SameUpToOrder a b → d.ValidateBasic a = none → d.ValidateBasic b = none)
    (hres : ∃ r rr, f.Fetch d chains = .ok r ∧ r.Resolved.lookup (PERPXChain d) = some rr) :
    ∃ r2 rr2, g.Fetch d chains = .ok r2 ∧ r2.Resolved.lookup (PERPXChain d) = some rr2 := by
  obtain ⟨r, rr, hfetch, hrr⟩ := hres
  obtain ⟨pr1, pv1, mm, _, _, hpr1, hpv1, hmm, hv, _⟩ :=
    Fetch_resolved_inv d f chains r rr (fun h => hpu h.2) (fun h => hsu h.2) hfetch hrr
  rw [hpr] at hpr1
  simp only [Option.some.injEq] at hpr1
  subst hpr1
  rw [hpv] at hpv1
  simp only [Option.some.injEq] at hpv1
  subst hpv1
  have hsame := combinedMarketMap_sameOutcome d f.isCMCOnly pv.MarketMap pv2.MarketMap _ _
    hmainnet hresearch
  rw [hmm] at hsame
  cases hmm2 : combinedMarketMap d f.isCMCOnly pv2.MarketMap
      ((g.perpxResearchFetcher chains).Resolved.lookup (PERPXChain d)) with
  | error q =>
    rw [hmm2] at hsame
    exact False.elim hsame
  | ok mm2 =>
    rw [hmm2] at hsame
    have hv2 : d.ValidateBasic mm2 = none := hval mm mm2 hsame hv
    have hrun := Fetch_combined d g chains pr2 pv2 mm2 hpu2 hsu2 hpr2 hpv2
      (by rw [← hflag]; exact hmm2)
    rw [hv2] at hrun
    exact ⟨_, _, hrun,
      lookup_replace_self _ _ _ (AList.lookup_isSome.mp (by rw [hpr2]; rfl))⟩

/-! ## The aggregator: determinism -/

/-- C19: for two runs of `Fetch` with the same filter flag and the same catalog, on constituent
responses that are Resolved for the perpx chain and differ at most in the order in which the
entries of the mainnet and of the research market map are iterated: the merge and the filter
pass end alike (the same panic, or the same market map up to order); whenever both runs return
a Resolved entry for the perpx chain, the two market maps have the same tickers and the same
market under every ticker; and when the validator does not depend on the order of the entries,
one run returns a Resolved entry exactly when the other does. -/
theorem C19_order_of_iteration_is_immaterial (d : Deps) (f g : MultiMarketMapRestAPIFetcher)
    (chains : List Chain) (pr pr2 : MarketMapResult) (pv pv2 : mmtypes.MarketMapResponse)
    (hflag : f.isCMCOnly = g.isCMCOnly)
    (hpu : PERPXChain d ∉ (f.perpxMainnetFetcher chains).UnResolved)
    (hsu : PERPXChain d ∉ (f.perpxResearchFetcher chains).UnResolved)
    (hpu2 : PERPXChain d ∉ (g.perpxMainnetFetcher chains).UnResolved)
    (hsu2 : PERPXChain d ∉ (g.perpxResearchFetcher chains).UnResolved)
    (hpr : (f.perpxMainnetFetcher chains).Resolved.lookup (PERPXChain d) = some pr)
    (hpv : pr.Value = some pv)
    (hpr2 : (g.perpxMainnetFetcher chains).Resolved.lookup (PERPXChain d) = some pr2)
    (hpv2 : pr2.Value = some pv2)
    (hmainnet : SameUpToOrder pv.MarketMap pv2.MarketMap)
    (hresearch : SameResearchUpToOrder
      ((f.perpxResearchFetcher chains).Resolved.lookup (PERPXChain d))
      ((g.perpxResearchFetcher chains).Resolved.lookup (PERPXChain d))) :
    SameOutcome
        (combinedMarketMap d f.isCMCOnly pv.MarketMap
          ((f.perpxResearchFetcher chains).Resolved.lookup (PERPXChain d)))
        (combinedMarketMap d g.isCMCOnly pv2.MarketMap
          ((g.perpxResearchFetcher chains).Resolved.lookup (PERPXChain d))) ∧
      (∀ (r r2 : mmclient.MarketMapResponse) (rr rr2 : MarketMapResult)
          (rv rv2 : mmtypes.MarketMapResponse),
        f.Fetch d chains = .ok r → g.Fetch d chains = .ok r2 →
        r.Resolved.lookup (PERPXChain d) = some rr → rr.Value = some rv →
        r2.Resolved.lookup (PERPXChain d) = some rr2 → rr2.Value = some rv2 →
        SameUpToOrder rv.MarketMap rv2.MarketMap ∧
          ∀ t : String, mapIndex rv.MarketMap.Markets t = mapIndex rv2.MarketMap.Markets t) ∧
      ((∀ a b, SameUpToOrder a b → (d.ValidateBasic a = none ↔ d.ValidateBasic b = none)) →
        ((∃ r rr, f.Fetch d chains = .ok r ∧ r.Resolved.lookup (PERPXChain d) = some rr) ↔
          ∃ r2 rr2, g.Fetch d chains = .ok r2 ∧
            r2.Resolved.lookup (PERPXChain d) = some rr2)) := by
  have hsame := combinedMarketMap_sameOutcome d f.isCMCOnly pv.MarketMap pv2.MarketMap _ _
    hmainnet hresearch
  refine ⟨by rw [← hflag]; exact hsame, ?_, ?_⟩
  · intro r r2 rr rr2 rv rv2 hfetch hfetch2 hrr hrv hrr2 hrv2
    obtain ⟨pr1, pv1, mm, _, _, hpr1, hpv1, hmm, _, hrreq⟩ :=
      Fetch_resolved_inv d f chains r rr (fun h => hpu h.2) (fun h => hsu h.2) hfetch hrr
    obtain ⟨pr3, pv3, mm2, _, _, hpr3, hpv3, hmm2, _, hrreq2⟩ :=
      Fetch_resolved_inv d g chains r2 rr2 (fun h => hpu2 h.2) (fun h => hsu2 h.2) hfetch2 hrr2
    rw [hpr] at hpr1
    simp only [Option.some.injEq] at hpr1
    subst hpr1
    rw [hpv] at hpv1
    simp only [Option.some.injEq] at hpv1
    subst hpv1
    rw [hpr2] at hpr3
    simp only [Option.some.injEq] at hpr3
    subst hpr3
    rw [hpv2] at hpv3
    simp only [Option.some.injEq] at hpv3
    subst hpv3
    rw [hmm, hflag, hmm2] at hsame
    have hrvmm : rv.MarketMap = mm := by
      rw [hrreq] at hrv
      simp only [Option.some.injEq] at hrv
      rw [← hrv]
    have hrvmm2 : rv2.MarketMap = mm2 := by
      rw [hrreq2] at hrv2
      simp only [Option.some.injEq] at hrv2
      rw [← hrv2]
    rw [hrvmm, hrvmm2]
    exact ⟨hsame, fun t => SameUpToOrder.lookup hsame t⟩
  · intro hval
    constructor
    · exact Fetch_resolved_transfer d f g chains pr pr2 pv pv2 hflag hpu hsu hpu2 hsu2
        hpr hpv hpr2 hpv2 hmainnet hresearch (fun a b hab => (hval a b hab).mp)
    · exact Fetch_resolved_transfer d g f chains pr2 pr pv2 pv hflag.symm hpu2 hsu2 hpu hsu
        hpr2 hpv2 hpr hpv (sameUpToOrder_symm hmainnet) (sameResearchUpToOrder_symm hresearch)
        (fun a b hab => (hval a b hab).mp)

/-- C19 on the filter example and the same example with the research market map iterated in the
other order. -/
theorem C19_witness :
    Examples.ethAndSol.entries ≠ Examples.solAndEth.entries ∧
    SameOutcome
        (combinedMarketMap Examples.deps Examples.fetcherCMC.isCMCOnly
          (Examples.payload Examples.btcOnly).MarketMap
          ((Examples.fetcherCMC.perpxResearchFetcher [PERPXChain Examples.deps]).Resolved.lookup
            (PERPXChain Examples.deps)))
        (combinedMarketMap Examples.deps Examples.fetcherCMCReordered.isCMCOnly
          (Examples.payload Examples.btcOnly).MarketMap
          ((Examples.fetcherCMCReordered.perpxResearchFetcher
            [PERPXChain Examples.deps]).Resolved.lookup (PERPXChain Examples.deps))) ∧
      (∀ (r r2 : mmclient.MarketMapResponse) (rr rr2 : MarketMapResult)
          (rv rv2 : mmtypes.MarketMapResponse),
        Examples.fetcherCMC.Fetch Examples.deps [PERPXChain Examples.deps] = .ok r →
        Examples.fetcherCMCReordered.Fetch Examples.deps [PERPXChain Examples.deps] = .ok r2 →
        r.Resolved.lookup (PERPXChain Examples.deps) = some rr → rr.Value = some rv →
        r2.Resolved.lookup (PERPXChain Examples.deps) = some rr2 → rr2.Value = some rv2 →
        SameUpToOrder rv.MarketMap rv2.MarketMap ∧
          ∀ t : String, mapIndex rv.MarketMap.Markets t = mapIndex rv2.MarketMap.Markets t) ∧
      ((∀ a b, SameUpToOrder a b →
          (Examples.deps.ValidateBasic a = none ↔ Examples.deps.ValidateBasic b = none)) →
        ((∃ r rr, Examples.fetcherCMC.Fetch Examples.deps [PERPXChain Examples.deps] = .ok r ∧
            r.Resolved.lookup (PERPXChain Examples.deps) = some rr) ↔
          ∃ r2 rr2, Examples.fetcherCMCReordered.Fetch Examples.deps
              [PERPXChain Examples.deps] = .ok r2 ∧
            r2.Resolved.lookup (PERPXChain Examples.deps) = some rr2)) :=
  ⟨by decide,
   C19_order_of_iteration_is_immaterial Examples.deps Examples.fetcherCMC
     Examples.fetcherCMCReordered [PERPXChain Examples.deps]
     (NewMarketMapResult (some (Examples.payload Examples.btcOnly)) 100)
     (NewMarketMapResult (some (Examples.payload Examples.btcOnly)) 100)
     (Examples.payload Examples.btcOnly) (Examples.payload Examples.btcOnly)
     rfl (by decide) (by decide) (by decide) (by decide) rfl rfl rfl rfl
     (List.Perm.refl _) (List.Perm.swap _ _ _)⟩

/-! ## The aggregator: the timestamp -/

/-- C20, as stated, fails: with the mainnet response observed at time 100 the Resolved entry
that `Fetch` returns has the timestamp 100, and with the same mainnet response observed at
time 7 it has the timestamp 7; the research response is observed at time 200 in both, so the
timestamp returned is earlier than an observation that the merge uses. -/
theorem C20_counterexample :
    (∃ r rr, (Examples.fetcherValidAt 100).Fetch Examples.deps [PERPXChain Examples.deps]
          = .ok r ∧
        r.Resolved.lookup (PERPXChain Examples.deps) = some rr ∧
        rr.Value = some (Examples.payload Examples.btcAndEth) ∧
        rr.Timestamp = 100 ∧ rr.Timestamp < 200) ∧
      (∃ r rr, (Examples.fetcherValidAt 7).Fetch Examples.deps [PERPXChain Examples.deps]
          = .ok r ∧
        r.Resolved.lookup (PERPXChain Examples.deps) = some rr ∧
        rr.Value = some (Examples.payload Examples.btcAndEth) ∧
        rr.Timestamp = 7 ∧ rr.Timestamp < 200) :=
  ⟨⟨_, _, rfl, rfl, rfl, rfl, by decide⟩, ⟨_, _, rfl, rfl, rfl, rfl, by decide⟩⟩

/-- C20, amended: on success (neither constituent Unresolved for the perpx chain, the mainnet
entry holding a payload, the combined market map valid) `Fetch` returns a Resolved entry for
the perpx chain that holds the combined market map in the mainnet payload, together with the
timestamp of the mainnet Resolved entry, unchanged. -/
theorem C20_success_keeps_mainnet_timestamp (d : Deps) (f : MultiMarketMapRestAPIFetcher)
    (chains : List Chain) (pr : MarketMapResult) (pv : mmtypes.MarketMapResponse)
    (mm : MarketMap)
    (hpu : PERPXChain d ∉ (f.perpxMainnetFetcher chains).UnResolved)
    (hsu : PERPXChain d ∉ (f.perpxResearchFetcher chains).UnResolved)
    (hpr : (f.perpxMainnetFetcher chains).Resolved.lookup (PERPXChain d) = some pr)
    (hpv : pr.Value = some pv)
    (hmm : combinedMarketMap d f.isCMCOnly pv.MarketMap
      ((f.perpxResearchFetcher chains).Resolved.lookup (PERPXChain d)) = .ok mm)
    (hvalid : d.ValidateBasic mm = none) :
    ∃ r rr, f.Fetch d chains = .ok r ∧
      r.Resolved.lookup (PERPXChain d) = some rr ∧
      rr.Value = some { pv with MarketMap := mm } ∧
      rr.Timestamp = pr.Timestamp := by
  have hrun := Fetch_combined d f chains pr pv mm hpu hsu hpr hpv hmm
  rw [hvalid] at hrun
  exact ⟨_, { pr with Value := some { pv with MarketMap := mm } }, hrun,
    lookup_replace_self _ _ _ (AList.lookup_isSome.mp (by rw [hpr]; rfl)), rfl, rfl⟩

/-- C20 amended, on the fourth test case: the mainnet response is observed at time 100, the
research response at time 200, and the entry returned has the timestamp 100. -/
theorem C20_witness :
    ∃ r rr, Examples.fetcherValid.Fetch Examples.deps [PERPXChain Examples.deps] = .ok r ∧
      r.Resolved.lookup (PERPXChain Examples.deps) = some rr ∧
      rr.Value = some { Examples.payload Examples.btcOnly with
                        MarketMap := { Markets := some Examples.btcAndEth } } ∧
      rr.Timestamp = (NewMarketMapResult (some (Examples.payload Examples.btcOnly)) 100).Timestamp :=
  C20_success_keeps_mainnet_timestamp Examples.deps Examples.fetcherValid
    [PERPXChain Examples.deps]
    (NewMarketMapResult (some (Examples.payload Examples.btcOnly)) 100)
    (Examples.payload Examples.btcOnly) { Markets := some Examples.btcAndEth }
    (by decide) (by decide) rfl rfl rfl rfl

end perpx

namespace perpx

open providertypes mmtypes mmclient

/-! ## The constructor of the research handler: the endpoint at index 1 -/

/-- With an endpoint at index 1 the constructor does not panic: it returns an error, or the
handler whose url is the URL of that endpoint. -/
theorem NewResearchAPIHandler_of_second_endpoint (c : HandlerDeps) (api : config.APIConfig)
    (endpoint : config.Endpoint) (h : api.Endpoints[1]? = some endpoint) :
    ∃ r, NewResearchAPIHandler c api = .ok r ∧
      ∀ handler, r = .ok handler → handler.url = endpoint.URL := by
  unfold NewResearchAPIHandler
  split
  · exact ⟨_, rfl, fun handler hh => by cases hh⟩
  · split
    · exact ⟨_, rfl, fun handler hh => by cases hh⟩
    · split
      · exact ⟨_, rfl, fun handler hh => by cases hh⟩
      · rw [h]
        refine ⟨_, rfl, fun handler hh => ?_⟩
        simp only [Except.ok.injEq] at hh
        rw [← hh]

/-- C21 fails on the code: for a config with one of the two handler names that is enabled and
passes `ValidateBasic`, and that has fewer than two endpoints, `NewResearchAPIHandler` returns
neither an error nor a handler: the index expression `api.Endpoints[1]` is out of range and the
constructor panics. -/
theorem C21_constructor_reads_missing_endpoint (c : HandlerDeps) (api : config.APIConfig)
    (hname : api.Name = c.ResearchAPIHandlerName ∨ api.Name = c.ResearchCMCAPIHandlerName)
    (henabled : api.Enabled = true)
    (hvalid : c.APIConfigValidateBasic api = none)
    (hlen : api.Endpoints.length < 2) :
    NewResearchAPIHandler c api = .error Panic.indexOutOfRange := by
  have hidx : api.Endpoints[1]? = none := by
    rw [List.getElem?_eq_none_iff]
    omega
  have hn : ¬ (api.Name ≠ c.ResearchAPIHandlerName ∧ api.Name ≠ c.ResearchCMCAPIHandlerName) := by
    rintro ⟨h1, h2⟩
    rcases hname with h | h
    · exact h1 h
    · exact h2 h
  unfold NewResearchAPIHandler
  rw [if_neg hn]
  simp only [henabled, hvalid, hidx]
  rfl

/-- The constructor at the config with one valid endpoint, which the sample validator accepts. -/
theorem C21_witness :
    Examples.oneEndpointAPIConfig.Endpoints.length = 1 ∧
      Examples.handlerDeps.APIConfigValidateBasic Examples.oneEndpointAPIConfig = none ∧
      NewResearchAPIHandler Examples.handlerDeps Examples.oneEndpointAPIConfig =
        .error Panic.indexOutOfRange :=
  ⟨rfl, rfl,
    C21_constructor_reads_missing_endpoint Examples.handlerDeps Examples.oneEndpointAPIConfig
      (Or.inl rfl) rfl rfl (by decide)⟩

end perpx

namespace perpx

open providertypes mmtypes mmclient

/-! ## The aggregator: when `Fetch` returns -/

/-- The combined market map exists whenever the mainnet market map is non-nil and the research
entry, if there is one, holds a value. -/
theorem combinedMarketMap_returns (d : Deps) (isCMCOnly : Bool) (markets : GoMap String Market)
    (research : Option MarketMapResult)
    (hresearch : ∀ r, research = some r → r.Value ≠ none) :
    ∃ mm, combinedMarketMap d isCMCOnly { Markets := some markets } research = .ok mm := by
  have hmerged : ∃ mm, mergedMarketMap { Markets := some markets } research = .ok mm := by
    cases research with
    | none => exact ⟨_, rfl⟩
    | some r =>
      cases hv : r.Value with
      | none => exact absurd hv (hresearch r rfl)
      | some value =>
        obtain ⟨es2, hrun, _⟩ := addResearchMarkets_some (mapRange value.MarketMap.Markets) markets
        refine ⟨{ Markets := some es2 }, ?_⟩
        simp only [mergedMarketMap, hv]
        exact hrun
  obtain ⟨mm, hmm⟩ := hmerged
  rw [combinedMarketMap_eq, hmm]
  cases isCMCOnly with
  | false => exact ⟨_, rfl⟩
  | true => exact filterCMCMarkets_total d mm

/-- The aggregator returns a response whenever the mainnet response lists the perpx chain as
Resolved with a value whose market map is non-nil and the research entry of the perpx chain, if
there is one, holds a value. -/
theorem Fetch_returns_of_resolved_entries (d : Deps) (f : MultiMarketMapRestAPIFetcher)
    (chains : List Chain) (resolved : MarketMapResult) (value : mmtypes.MarketMapResponse)
    (markets : GoMap String Market)
    (hlook : (f.perpxMainnetFetcher chains).Resolved.lookup (PERPXChain d) = some resolved)
    (hvalue : resolved.Value = some value)
    (hmarkets : value.MarketMap = { Markets := some markets })
    (hresearch : ∀ r, (f.perpxResearchFetcher chains).Resolved.lookup (PERPXChain d) = some r →
      r.Value ≠ none) :
    ∃ response, f.Fetch d chains = .ok response := by
  obtain ⟨mm, hmm⟩ := combinedMarketMap_returns d f.isCMCOnly markets _ hresearch
  unfold MultiMarketMapRestAPIFetcher.Fetch
  simp only [hlook, hvalue, hmarkets, hmm]
  split
  · exact ⟨_, rfl⟩
  · split
    · exact ⟨_, rfl⟩
    · cases d.ValidateBasic mm with
      | some err => exact ⟨_, rfl⟩
      | none => exact ⟨_, rfl⟩

/-- C22 fails on the code: when neither constituent response lists the perpx chain as
Unresolved and the mainnet response has no Resolved entry for it, or one whose value is nil,
the merge step finds no market map and `Fetch` returns no response: it dereferences the nil
value of the entry it read. -/
theorem C22_fetch_fails_on_missing_mainnet_value (d : Deps) (f : MultiMarketMapRestAPIFetcher)
    (chains : List Chain)
    (hmainnet : (f.perpxMainnetFetcher chains).UnResolved.lookup (PERPXChain d) = none)
    (hresearch : (f.perpxResearchFetcher chains).UnResolved.lookup (PERPXChain d) = none)
    (hmissing : ∀ resolved,
      (f.perpxMainnetFetcher chains).Resolved.lookup (PERPXChain d) = some resolved →
        resolved.Value = none) :
    f.Fetch d chains = .error Panic.nilPointerDereference := by
  unfold MultiMarketMapRestAPIFetcher.Fetch
  simp only [hmainnet, hresearch, Option.isSome_none, Bool.false_eq_true, if_false]
  cases hlook : (f.perpxMainnetFetcher chains).Resolved.lookup (PERPXChain d) with
  | none => rfl
  | some resolved =>
    have hv := hmissing resolved hlook
    simp only [hv]

/-- The aggregator on the request for the perpx chain when the mainnet response is the empty
response: the perpx chain is in neither of its maps, and `Fetch` panics. -/
theorem C22_witness :
    Examples.emptyResponse.Resolved.lookup (PERPXChain Examples.deps) = none ∧
      Examples.emptyResponse.UnResolved.lookup (PERPXChain Examples.deps) = none ∧
      Examples.fetcherMainnetEmpty.Fetch Examples.deps [PERPXChain Examples.deps] =
        .error Panic.nilPointerDereference :=
  ⟨rfl, rfl,
    C22_fetch_fails_on_missing_mainnet_value Examples.deps Examples.fetcherMainnetEmpty
      [PERPXChain Examples.deps] rfl rfl (fun resolved h => by cases h)⟩

end perpx

end slinky
